import Mathlib

/-!
# Linux stats agent: the collector (`linux-agent/stats/collector.go`) and the
authorisation middleware (`linux-agent/main.go`)

A shallow embedding of the stats collector.  Text is a list of Unicode code
points, `uint64` values are naturals reduced modulo `2 ^ 64` wherever the Go
code can wrap, `float64` values are the rationals they denote before rounding
(the rate block of the CPU collector is given a second time with the IEEE
rounding of every operation, `cpuRatesF64`), and the kernel interface files read
during one pass are explicit inputs.
-/

namespace Stats

/-! ## Text and the Go library functions used by the collector -/

/-- Go strings, read as sequences of Unicode code points. -/
abbrev Str := List Char

/-- A string literal as text. -/
def lit (s : String) : Str := s.toList

/-- The modulus of `uint64` arithmetic. -/
def u64 : Nat := 2 ^ 64

/-- The largest `uint64`. -/
def maxUint64 : Nat := 2 ^ 64 - 1

/-- The element `fields[i]` of a slice of texts (the empty text out of range; every
use is guarded by a length test). -/
def idx (fields : List Str) (i : Nat) : Str := fields.getD i []

/-- Go `unicode.IsSpace` (and the ASCII table of `strings.Fields`). -/
def isSpace (c : Char) : Bool :=
  let n := c.toNat
  n == 0x09 || n == 0x0A || n == 0x0B || n == 0x0C || n == 0x0D || n == 0x20 ||
  n == 0x85 || n == 0xA0 || n == 0x1680 || (0x2000 ≤ n && n ≤ 0x200A) ||
  n == 0x2028 || n == 0x2029 || n == 0x202F || n == 0x205F || n == 0x3000

namespace strings

/-- Go `strings.HasPrefix`. -/
def HasPrefix : Str → Str → Bool
  | _, [] => true
  | [], _ :: _ => false
  | c :: s, d :: p => c == d && HasPrefix s p

/-- Go `strings.HasSuffix`. -/
def HasSuffix (s suf : Str) : Bool := HasPrefix s.reverse suf.reverse

/-- Go `strings.Contains`. -/
def Contains : Str → Str → Bool
  | [], sub => sub.isEmpty
  | c :: s, sub => HasPrefix (c :: s) sub || Contains s sub

/-- Go `strings.TrimPrefix`. -/
def TrimPrefix (s p : Str) : Str := if HasPrefix s p then s.drop p.length else s

/-- Go `strings.TrimSuffix`. -/
def TrimSuffix (s suf : Str) : Str :=
  if HasSuffix s suf then s.take (s.length - suf.length) else s

/-- Go `strings.TrimSpace`. -/
def TrimSpace (s : Str) : Str :=
  ((s.dropWhile isSpace).reverse.dropWhile isSpace).reverse

/-- The scanning loop of `strings.Fields`: `cur` is the field being read, reversed. -/
def fieldsAux : Str → Str → List Str
  | [], cur => if cur.isEmpty then [] else [cur.reverse]
  | c :: cs, cur =>
    if isSpace c then
      if cur.isEmpty then fieldsAux cs [] else cur.reverse :: fieldsAux cs []
    else fieldsAux cs (c :: cur)

/-- Go `strings.Fields`: the maximal runs of non-space characters. -/
def Fields (s : Str) : List Str := fieldsAux s []

/-- Go `strings.Split(s, sep)` for a one-character separator. -/
def Split (s : Str) (sep : Char) : List Str :=
  match s with
  | [] => [[]]
  | c :: cs =>
    if c = sep then [] :: Split cs sep
    else
      match Split cs sep with
      | [] => [[c]]
      | h :: t => (c :: h) :: t

end strings

namespace strconv

/-- The two failures of `strconv.ParseUint` / `strconv.ParseInt`. -/
inductive NumError where
  | ErrSyntax
  | ErrRange
  deriving DecidableEq, Repr

/-- The digit loop of `strconv.ParseUint(s, 10, 64)`; `n` is the value read so far. -/
def parseUintLoop : Str → Nat → Nat × Option NumError
  | [], n => (n, none)
  | c :: cs, n =>
    if 48 ≤ c.toNat ∧ c.toNat ≤ 57 then
      if n ≥ maxUint64 / 10 + 1 then (maxUint64, some NumError.ErrRange)
      else
        let n1 := n * 10 + (c.toNat - 48)
        if n1 > maxUint64 then (maxUint64, some NumError.ErrRange)
        else parseUintLoop cs n1
    else (0, some NumError.ErrSyntax)

/-- Go `strconv.ParseUint(s, 10, 64)`: the value and the error, if any. -/
def ParseUint (s : Str) : Nat × Option NumError :=
  if s.isEmpty then (0, some NumError.ErrSyntax) else parseUintLoop s 0

/-- Go `strconv.ParseInt(s, 10, 64)`: an optional sign, then `ParseUint`, then the
range check against `2 ^ 63`. -/
def ParseInt (s : Str) : Int × Option NumError :=
  if s.isEmpty then (0, some NumError.ErrSyntax)
  else
    let neg := s.head? = some '-'
    let s1 := if s.head? = some '+' ∨ s.head? = some '-' then s.tail else s
    let r := ParseUint s1
    if r.2 = some NumError.ErrSyntax then (0, some NumError.ErrSyntax)
    else if ¬ neg ∧ r.1 ≥ 2 ^ 63 then (2 ^ 63 - 1, some NumError.ErrRange)
    else if neg ∧ r.1 > 2 ^ 63 then (-(2 ^ 63), some NumError.ErrRange)
    else (if neg then -(r.1 : Int) else (r.1 : Int), none)

end strconv

/-! ## Time -/

/-- Go `time.Time.Sub`: the difference of two clock readings in nanoseconds,
saturating at the bounds of `int64`. -/
def timeSub (t u : Int) : Int :=
  if t - u > 2 ^ 63 - 1 then 2 ^ 63 - 1
  else if t - u < -(2 ^ 63) then -(2 ^ 63)
  else t - u

/-- Go `time.Duration.Seconds`. -/
def Seconds (d : Int) : ℚ := (d : ℚ) / 1000000000

/-! ## Data model (`types.go` and the collector state) -/

structure cpuSnapshot where
  timestamp : Int
  total : Nat
  idle : Nat
  iowait : Nat
  steal : Nat
  deriving DecidableEq

structure diskSnapshot where
  timestamp : Int
  readBytes : Nat
  writeBytes : Nat
  readOps : Nat
  writeOps : Nat
  deriving DecidableEq

structure networkSnapshot where
  timestamp : Int
  rxBytes : Nat
  txBytes : Nat
  deriving DecidableEq

/-- The struct `Collector` (lines 16-26), without its lock.  `logOutput` is the
stream written by `log.Printf`.  The files read under `procPath` and `sysPath`
during a pass are inputs of the pass (see `Env`). -/
structure Collector where
  procPath : Str
  sysPath : Str
  interval : Int
  prevCPU : Option cpuSnapshot
  prevDisk : Str → Option diskSnapshot
  prevNetwork : Str → Option networkSnapshot
  errors : List Str
  loggedErrors : Str → Bool
  logOutput : List Str

structure CPUStats where
  Available : Bool := false
  UsagePercent : Option ℚ := none
  IowaitPercent : Option ℚ := none
  StealPercent : Option ℚ := none
  Loadavg1 : Option ℚ := none
  Loadavg5 : Option ℚ := none
  Loadavg15 : Option ℚ := none
  CoreCount : Option Nat := none
  deriving DecidableEq

structure MemoryStats where
  Available : Bool := false
  TotalBytes : Option Nat := none
  AvailableBytes : Option Nat := none
  UsedBytes : Option Nat := none
  BuffersBytes : Option Nat := none
  CachedBytes : Option Nat := none
  SwapTotalBytes : Option Nat := none
  SwapUsedBytes : Option Nat := none
  SwapCachedBytes : Option Nat := none
  PsiMemAvg10 : Option ℚ := none
  PsiMemAvg60 : Option ℚ := none
  PsiMemAvg300 : Option ℚ := none
  deriving DecidableEq

structure DiskDevice where
  Name : Str
  ReadBytesPerSec : Option ℚ := none
  WriteBytesPerSec : Option ℚ := none
  ReadsPerSec : Option ℚ := none
  WritesPerSec : Option ℚ := none
  deriving DecidableEq

structure Filesystem where
  MountPoint : Str
  Device : Str
  FsType : Option Str := none
  TotalBytes : Option Nat := none
  UsedBytes : Option Nat := none
  AvailableBytes : Option Nat := none
  UsagePercent : Option ℚ := none
  deriving DecidableEq

structure DiskStats where
  Available : Bool := false
  Devices : List DiskDevice := []
  Filesystems : List Filesystem := []
  deriving DecidableEq

structure NetworkInterface where
  Name : Str
  RxBytesPerSec : Option ℚ := none
  TxBytesPerSec : Option ℚ := none
  Ipv4Address : Option Str := none
  Ipv6Address : Option Str := none
  MacAddress : Option Str := none
  deriving DecidableEq

structure NetworkStats where
  Available : Bool := false
  Interfaces : List NetworkInterface := []
  ExternalIPv4 : Option Str := none
  deriving DecidableEq

structure ThermalSensor where
  Name : Str
  Label : Option Str := none
  TempCelsius : Option ℚ := none
  CriticalTemp : Option ℚ := none
  MaxTemp : Option ℚ := none
  deriving DecidableEq

structure ThermalStats where
  Available : Bool := false
  Sensors : List ThermalSensor := []
  deriving DecidableEq

structure GPUDevice where
  Name : Str
  UtilizationPercent : Option ℚ := none
  MemoryUsedBytes : Option Nat := none
  MemoryTotalBytes : Option Nat := none
  TempCelsius : Option ℚ := none
  deriving DecidableEq

structure GPUStats where
  Available : Bool := false
  Devices : List GPUDevice := []
  deriving DecidableEq

structure Features where
  SmartAvailable : Option Bool := none
  NvmeAvailable : Option Bool := none
  ThermalAvailable : Option Bool := none
  GpuAvailable : Option Bool := none
  deriving DecidableEq

structure RemoteLinuxStats where
  Schema : Str
  Timestamp : Int
  Hostname : Str
  AgentVersion : Str
  CPU : Option CPUStats := none
  Memory : Option MemoryStats := none
  Disk : Option DiskStats := none
  Network : Option NetworkStats := none
  Thermals : Option ThermalStats := none
  GPU : Option GPUStats := none
  Features : Option Features := none
  Errors : Option (List Str) := none
  deriving DecidableEq

/-! ## Disk device counters -/

/-- The test on the last byte of a device name (line 337). -/
def endsInDigit (name : Str) : Bool :=
  match name.getLast? with
  | none => false
  | some c => 48 ≤ c.toNat && c.toNat ≤ 57

/-- The local `isNvmeWholeDisk` of `collectDiskDevices` (lines 340-342). -/
def isNvmeWholeDisk (name : Str) : Bool :=
  strings.HasPrefix name (lit "nvme") && strings.Contains name (lit "n") &&
    !strings.Contains name (lit "p")

/-- The two `continue` guards on the device name (lines 331-346). -/
def skipDevice (name : Str) : Bool :=
  (strings.HasPrefix name (lit "loop") || strings.HasPrefix name (lit "ram")) ||
    (endsInDigit name && !isNvmeWholeDisk name)

/-- Subtraction of `uint64` values, wrapping modulo `2 ^ 64`. -/
def subU64 (a b : Nat) : Nat := (((a : Int) - (b : Int)) % (2 : Int) ^ 64).toNat

/-- The conversion `float64(cur - prev)` of a `uint64` difference. -/
def deltaU64 (cur prev : Nat) : ℚ := ((subU64 cur prev : Nat) : ℚ)

/-- The rate block of `collectDiskDevices` (lines 356-371): the device record, with
its four rates when a previous snapshot exists and the elapsed time is positive. -/
def diskRates (now : Int) (prev : Option diskSnapshot) (name : Str)
    (readBytes writeBytes readOps writeOps : Nat) : DiskDevice :=
  match prev with
  | some prev =>
    let elapsed := Seconds (timeSub now prev.timestamp)
    if elapsed > 0 then
      { Name := name
        ReadBytesPerSec := some (deltaU64 readBytes prev.readBytes / elapsed)
        WriteBytesPerSec := some (deltaU64 writeBytes prev.writeBytes / elapsed)
        ReadsPerSec := some (deltaU64 readOps prev.readOps / elapsed)
        WritesPerSec := some (deltaU64 writeOps prev.writeOps / elapsed) }
    else { Name := name }
  | none => { Name := name }

/-- One iteration of the line loop of `collectDiskDevices` (lines 323-382). -/
def diskLine (now : Int) (st : (Str → Option diskSnapshot) × List DiskDevice) (line : Str) :
    (Str → Option diskSnapshot) × List DiskDevice :=
  let fields := strings.Fields line
  if fields.length < 14 then st
  else
    let name := idx fields 2
    if skipDevice name then st
    else
      let readOps := (strconv.ParseUint (idx fields 3)).1
      let readSectors := (strconv.ParseUint (idx fields 5)).1
      let writeOps := (strconv.ParseUint (idx fields 7)).1
      let writeSectors := (strconv.ParseUint (idx fields 9)).1
      let readBytes := readSectors * 512 % u64
      let writeBytes := writeSectors * 512 % u64
      let device := diskRates now (st.1 name) name readBytes writeBytes readOps writeOps
      let snap : diskSnapshot :=
        { timestamp := now, readBytes := readBytes, writeBytes := writeBytes,
          readOps := readOps, writeOps := writeOps }
      (fun k => if k = name then some snap else st.1 k, st.2 ++ [device])

/-! ## Error recording -/

/-- The method `logError` (lines 765-772): log once per key, append to the errors of
the pass every time. -/
def logError (c : Collector) (component message : Str) : Collector :=
  let key := component ++ lit ":" ++ message
  let c1 : Collector :=
    if !c.loggedErrors key then
      { c with
        logOutput := c.logOutput ++ [lit "warning: " ++ component ++ lit ": " ++ message]
        loggedErrors := fun k => if k = key then true else c.loggedErrors k }
    else c
  { c1 with errors := c1.errors ++ [component ++ lit ": " ++ message] }

/-- The method `collectDiskDevices` (lines 312-385).  `file` is the result of reading
`diskstats` (the text of the error, or the contents), `now` the clock reading. -/
def collectDiskDevices (c : Collector) (file : Except Str Str) (now : Int) :
    List DiskDevice × Collector :=
  match file with
  | .error err => ([], logError c (lit "disk") (lit "failed to read /proc/diskstats: " ++ err))
  | .ok data =>
    let r := (strings.Split data '\n').foldl (diskLine now) (c.prevDisk, [])
    (r.2, { c with prevDisk := r.1 })

/-! ## CPU -/

/-- The eight counters of the `cpu ` line and their sum (lines 121-130). -/
structure cpuCounters where
  user : Nat
  nice : Nat
  system : Nat
  idle : Nat
  iowait : Nat
  irq : Nat
  softirq : Nat
  steal : Nat
  deriving DecidableEq

/-- The sum `total` of line 130, in `uint64` arithmetic. -/
def cpuCounters.total (k : cpuCounters) : Nat :=
  (k.user + k.nice + k.system + k.idle + k.iowait + k.irq + k.softirq + k.steal) % u64

/-- The line selected by the loop of `collectCPU` and its parsed counters: the first
line beginning with `cpu `, unless it has fewer than nine fields (lines 114-128). -/
def cpuLine (data : Str) : Option cpuCounters :=
  match (strings.Split data '\n').find? (fun l => strings.HasPrefix l (lit "cpu ")) with
  | none => none
  | some line =>
    let fields := strings.Fields line
    if fields.length < 9 then none
    else
      some
        { user := (strconv.ParseUint (idx fields 1)).1
          nice := (strconv.ParseUint (idx fields 2)).1
          system := (strconv.ParseUint (idx fields 3)).1
          idle := (strconv.ParseUint (idx fields 4)).1
          iowait := (strconv.ParseUint (idx fields 5)).1
          irq := (strconv.ParseUint (idx fields 6)).1
          softirq := (strconv.ParseUint (idx fields 7)).1
          steal := (strconv.ParseUint (idx fields 8)).1 }

/-- The rate block of `collectCPU` (lines 133-149): the three percentages, set when
a previous snapshot exists and `deltaTotal > 0`. -/
def cpuRates (prev : Option cpuSnapshot) (k : cpuCounters) (stats : CPUStats) : CPUStats :=
  match prev with
  | none => stats
  | some p =>
    let deltaTotal := deltaU64 k.total p.total
    let deltaIdle := deltaU64 k.idle p.idle
    let deltaIowait := deltaU64 k.iowait p.iowait
    let deltaSteal := deltaU64 k.steal p.steal
    if deltaTotal > 0 then
      { stats with
        UsagePercent := some (((deltaTotal - deltaIdle) / deltaTotal) * 100)
        IowaitPercent := some ((deltaIowait / deltaTotal) * 100)
        StealPercent := some ((deltaSteal / deltaTotal) * 100)
        Available := true }
    else stats

/-- The method `getCoreCount` (lines 187-201). -/
def getCoreCount (cpuinfo : Option Str) : Nat :=
  match cpuinfo with
  | none => 0
  | some data =>
    ((strings.Split data '\n').filter
      (fun l => strings.HasPrefix l (lit "processor"))).length

/-- The load-average block of `collectCPU` (lines 169-182).  `parseFloat` stands for
`strconv.ParseFloat(_, 64)`: the value, when the text parses. -/
def cpuLoadavg (parseFloat : Str → Option ℚ) (loadavg : Option Str) (stats : CPUStats) :
    CPUStats :=
  match loadavg with
  | none => stats
  | some loadData =>
    let fields := strings.Fields loadData
    if fields.length ≥ 3 then
      let s1 : CPUStats :=
        match parseFloat (idx fields 0) with
        | some v => { stats with Loadavg1 := some v }
        | none => stats
      let s2 : CPUStats :=
        match parseFloat (idx fields 1) with
        | some v => { s1 with Loadavg5 := some v }
        | none => s1
      match parseFloat (idx fields 2) with
      | some v => { s2 with Loadavg15 := some v }
      | none => s2
    else stats

/-- The loop over the lines of `stat` in `collectCPU` (lines 113-160): the rates of
the selected line and the replacement of the CPU snapshot. -/
def cpuStatBlock (c : Collector) (data : Str) (now : Int) : CPUStats × Collector :=
  match cpuLine data with
  | none => ({ Available := false }, c)
  | some k =>
    (cpuRates c.prevCPU k { Available := false },
      { c with
        prevCPU := some
          { timestamp := now, total := k.total, idle := k.idle, iowait := k.iowait,
            steal := k.steal } })

/-- The core-count block of `collectCPU` (lines 163-166). -/
def cpuCoreCount (cpuinfo : Option Str) (stats : CPUStats) : CPUStats :=
  let coreCount := getCoreCount cpuinfo
  if coreCount > 0 then { stats with CoreCount := some coreCount } else stats

/-- The method `collectCPU` (lines 103-185).  `stat`, `cpuinfo` and `loadavg` are the
results of reading the three files, `now` the clock reading of line 132. -/
def collectCPU (c : Collector) (stat : Except Str Str) (now : Int) (cpuinfo loadavg : Option Str)
    (parseFloat : Str → Option ℚ) : CPUStats × Collector :=
  match stat with
  | .error err =>
    ({ Available := false }, logError c (lit "cpu") (lit "failed to read /proc/stat: " ++ err))
  | .ok data =>
    let r := cpuStatBlock c data now
    (cpuLoadavg parseFloat loadavg (cpuCoreCount cpuinfo r.1), r.2)

/-! ## Memory -/

/-- One iteration of the line loop of `collectMemory` (lines 214-223): the update of
the map `memInfo`. -/
def memLine (memInfo : Str → Option Nat) (line : Str) : Str → Option Nat :=
  let fields := strings.Fields line
  if fields.length < 2 then memInfo
  else
    let key := strings.TrimSuffix (idx fields 0) (lit ":")
    let val := (strconv.ParseUint (idx fields 1)).1
    fun k => if k = key then some (val * 1024 % u64) else memInfo k

/-- The map `memInfo` after the line loop of `collectMemory`. -/
def memInfoOf (data : Str) : Str → Option Nat :=
  (strings.Split data '\n').foldl memLine (fun _ => none)

/-- The key lookups of `collectMemory` (lines 225-255). -/
def memFields (memInfo : Str → Option Nat) : MemoryStats :=
  let s1 : MemoryStats :=
    match memInfo (lit "MemTotal") with
    | some total => { Available := true, TotalBytes := some total }
    | none => { Available := false }
  let s2 : MemoryStats :=
    match memInfo (lit "MemAvailable") with
    | some avail => { s1 with AvailableBytes := some avail }
    | none => s1
  let s3 : MemoryStats :=
    match memInfo (lit "Buffers") with
    | some buffers => { s2 with BuffersBytes := some buffers }
    | none => s2
  let s4 : MemoryStats :=
    match memInfo (lit "Cached") with
    | some cached => { s3 with CachedBytes := some cached }
    | none => s3
  let s5 : MemoryStats :=
    match memInfo (lit "SwapTotal") with
    | some swapTotal => { s4 with SwapTotalBytes := some swapTotal }
    | none => s4
  let s6 : MemoryStats :=
    match memInfo (lit "SwapFree") with
    | some swapFree =>
      match memInfo (lit "SwapTotal") with
      | some swapTotal => { s5 with SwapUsedBytes := some (subU64 swapTotal swapFree) }
      | none => s5
    | none => s5
  let s7 : MemoryStats :=
    match memInfo (lit "SwapCached") with
    | some swapCached => { s6 with SwapCachedBytes := some swapCached }
    | none => s6
  match s7.TotalBytes, s7.AvailableBytes with
  | some total, some avail => { s7 with UsedBytes := some (subU64 total avail) }
  | _, _ => s7

/-- The handling of one token of a `some ` line in `collectPSI` (lines 273-287). -/
def psiPart (parseFloat : Str → Option ℚ) (stats : MemoryStats) (part : Str) : MemoryStats :=
  if strings.HasPrefix part (lit "avg10=") then
    match parseFloat (strings.TrimPrefix part (lit "avg10=")) with
    | some v => { stats with PsiMemAvg10 := some v }
    | none => stats
  else if strings.HasPrefix part (lit "avg60=") then
    match parseFloat (strings.TrimPrefix part (lit "avg60=")) with
    | some v => { stats with PsiMemAvg60 := some v }
    | none => stats
  else if strings.HasPrefix part (lit "avg300=") then
    match parseFloat (strings.TrimPrefix part (lit "avg300=")) with
    | some v => { stats with PsiMemAvg300 := some v }
    | none => stats
  else stats

/-- The method `collectPSI` (lines 263-290). -/
def collectPSI (parseFloat : Str → Option ℚ) (pressure : Option Str) (stats : MemoryStats) :
    MemoryStats :=
  match pressure with
  | none => stats
  | some data =>
    (strings.Split data '\n').foldl
      (fun st line =>
        if strings.HasPrefix line (lit "some ") then
          (strings.Fields line).foldl (psiPart parseFloat) st
        else st)
      stats

/-- The method `collectMemory` (lines 203-261). -/
def collectMemory (c : Collector) (meminfo : Except Str Str) (pressure : Option Str)
    (parseFloat : Str → Option ℚ) : MemoryStats × Collector :=
  match meminfo with
  | .error err =>
    ({ Available := false },
      logError c (lit "memory") (lit "failed to read /proc/meminfo: " ++ err))
  | .ok data => (collectPSI parseFloat pressure (memFields (memInfoOf data)), c)

/-! ## Filesystem usage -/

/-- The fields of `syscall.Statfs_t` read by the collector. -/
structure Statfs_t where
  Blocks : Nat
  Bfree : Nat
  Bavail : Nat
  Bsize : Int
  deriving DecidableEq

/-- The local type `mountEntry` of `collectFilesystems` (lines 395-401). -/
structure mountEntry where
  fs : Filesystem
  total : Nat
  available : Nat
  free : Nat
  used : Nat
  deriving DecidableEq

/-- The map `skipTypes` (lines 408-414). -/
def skipTypes : List Str :=
  [lit "proc", lit "sysfs", lit "tmpfs", lit "devtmpfs", lit "devpts",
   lit "cgroup", lit "cgroup2", lit "nsfs", lit "overlay", lit "squashfs",
   lit "autofs", lit "mqueue", lit "hugetlbfs", lit "debugfs", lit "tracefs",
   lit "securityfs", lit "pstore", lit "bpf", lit "configfs", lit "fusectl",
   lit "binfmt_misc", lit "ramfs", lit "efivarfs", lit "rpc_pipefs"]

/-- The length of a text in bytes of UTF-8. -/
def byteLen (s : Str) : Nat := (s.map Char.utf8Size).sum

/-- The lines delivered by a `bufio.Scanner` with the default split function and
buffer: the text is cut at newlines, a final empty line is not delivered, one
trailing carriage return is dropped, and the scan ends at the first line that
does not fit the buffer of 65536 bytes. -/
def scanLines (data : Str) : List Str :=
  let raw := strings.Split data '\n'
  let raw := if raw.getLast? = some [] then raw.dropLast else raw
  (raw.takeWhile (fun l => byteLen l < 65536)).map
    (fun l => if l.getLast? = some '\r' then l.dropLast else l)

/-- The conversion `uint64(x)` of an `int64`. -/
def uint64OfInt (x : Int) : Nat := (x % (2 : Int) ^ 64).toNat

/-- The `statfs` block of the first pass (lines 441-462). -/
def statEntry (fs : Filesystem) (st : Option Statfs_t) : mountEntry :=
  match st with
  | none => { fs := fs, total := 0, available := 0, free := 0, used := 0 }
  | some stat =>
    let total := stat.Blocks * uint64OfInt stat.Bsize % u64
    let available := stat.Bavail * uint64OfInt stat.Bsize % u64
    let free := stat.Bfree * uint64OfInt stat.Bsize % u64
    let used := if total > free then total - free else 0
    let fs1 : Filesystem :=
      { fs with TotalBytes := some total, AvailableBytes := some available,
                UsedBytes := some used }
    let fs2 : Filesystem :=
      if total > 0 then
        { fs1 with UsagePercent := some (((used : ℚ) / (total : ℚ)) * 100) }
      else fs1
    { fs := fs2, total := total, available := available, free := free, used := used }

/-- One iteration of the first pass of `collectFilesystems` (lines 416-463). -/
def mountLine (statfs : Str → Option Statfs_t) (st : (Str → Bool) × List mountEntry)
    (line : Str) : (Str → Bool) × List mountEntry :=
  let fields := strings.Fields line
  if fields.length < 3 then st
  else
    let device := idx fields 0
    let mountPoint := idx fields 1
    let fsType := idx fields 2
    if skipTypes.contains fsType then st
    else if st.1 mountPoint then st
    else
      let fs : Filesystem := { MountPoint := mountPoint, Device := device, FsType := some fsType }
      (fun k => if k = mountPoint then true else st.1 k,
        st.2 ++ [statEntry fs (statfs mountPoint)])

/-- The first pass of `collectFilesystems`: the retained mount entries. -/
def mountEntries (statfs : Str → Option Statfs_t) (data : Str) : List mountEntry :=
  ((scanLines data).foldl (mountLine statfs) (fun _ => false, [])).2

/-- Go `strings.ToLower`; `unicodeToLower` stands for `unicode.ToLower` on the
characters outside ASCII. -/
def ToLower (unicodeToLower : Char → Char) (s : Str) : Str :=
  s.map fun c =>
    if 65 ≤ c.toNat ∧ c.toNat ≤ 90 then Char.ofNat (c.toNat + 32)
    else if c.toNat < 128 then c
    else unicodeToLower c

/-- The function `isLikelyContainer` (lines 538-549): `dockerenv` tells whether
`/.dockerenv` exists, `cgroup` is the result of reading `/proc/1/cgroup`. -/
def isLikelyContainer (dockerenv : Bool) (cgroup : Option Str) : Bool :=
  if dockerenv then true
  else
    match cgroup with
    | some s =>
      strings.Contains s (lit "docker") || strings.Contains s (lit "containerd") ||
        strings.Contains s (lit "kubepods")
    | none => false

/-- The function `isLikelyTrueNAS` (lines 552-563). -/
def isLikelyTrueNAS (unicodeToLower : Char → Char) (release : Bool) (osRelease : Option Str) :
    Bool :=
  if release then true
  else
    match osRelease with
    | some data => strings.Contains (ToLower unicodeToLower data) (lit "truenas")
    | none => false

/-- The switch on `MENUBAR_TRUENAS_MNT_FIX` (lines 469-477). -/
def applyTruenasMntFix (unicodeToLower : Char → Char) (v : Str) (container truenas : Bool) :
    Bool :=
  let s := ToLower unicodeToLower (strings.TrimSpace v)
  if s = lit "on" ∨ s = lit "true" ∨ s = lit "1" then true
  else if s = lit "off" ∨ s = lit "false" ∨ s = lit "0" then false
  else container && truenas

/-- The inner loop over `entries` for a top-level mount `mp` (lines 490-504). -/
def usedSumOf (entries : List mountEntry) (mp : Str) : Nat :=
  entries.foldl
    (fun usedSum child =>
      if child.fs.MountPoint = mp then
        if child.used ≠ 0 then (usedSum + child.used) % u64 else usedSum
      else if strings.HasPrefix child.fs.MountPoint (mp ++ lit "/") then
        if child.used ≠ 0 then (usedSum + child.used) % u64 else usedSum
      else usedSum)
    0

/-- The entry emitted for a top-level mount under `/mnt/` (lines 489-526). -/
def mntFixed (entries : List mountEntry) (entry : mountEntry) : Filesystem :=
  let usedSum0 := usedSumOf entries entry.fs.MountPoint
  let usedSum := if usedSum0 = 0 then entry.used else usedSum0
  let avail := entry.available
  let total := (usedSum + avail) % u64
  let fs : Filesystem :=
    { entry.fs with UsedBytes := some usedSum, AvailableBytes := some avail,
                    TotalBytes := some total }
  if total > 0 then { fs with UsagePercent := some (((usedSum : ℚ) / (total : ℚ)) * 100) }
  else fs

/-- One iteration of the second pass of `collectFilesystems` (lines 478-532): the
entry appended to the output, if any. -/
def secondPass (apply : Bool) (entries : List mountEntry) (entry : mountEntry) :
    Option Filesystem :=
  let mp := entry.fs.MountPoint
  if apply && strings.HasPrefix mp (lit "/mnt/") then
    let rel := strings.TrimPrefix mp (lit "/mnt/")
    if strings.Contains rel (lit "/") then none
    else some (mntFixed entries entry)
  else some entry.fs

/-- The method `collectFilesystems` (lines 387-535).  `mounts` is the result of
opening and scanning `mounts`, `statfs` the answer of `syscall.Statfs` for each
mount point, `apply` the value of `applyTruenasMntFix`. -/
def collectFilesystems (c : Collector) (mounts : Except Str Str)
    (statfs : Str → Option Statfs_t) (apply : Bool) : List Filesystem × Collector :=
  match mounts with
  | .error err =>
    ([], logError c (lit "filesystem") (lit "failed to read /proc/mounts: " ++ err))
  | .ok data =>
    let entries := mountEntries statfs data
    (entries.filterMap (secondPass apply entries), c)

/-- The method `collectDisk` (lines 292-310). -/
def collectDisk (c : Collector) (diskstats : Except Str Str) (now : Int)
    (mounts : Except Str Str) (statfs : Str → Option Statfs_t) (apply : Bool) :
    DiskStats × Collector :=
  let d := collectDiskDevices c diskstats now
  let s1 : DiskStats :=
    if d.1.length > 0 then { Available := true, Devices := d.1 } else { Available := false }
  let f := collectFilesystems d.2 mounts statfs apply
  let s2 : DiskStats :=
    if f.1.length > 0 then { s1 with Filesystems := f.1, Available := true } else s1
  (s2, f.2)

/-! ## Network -/

/-- The method `enrichNetworkInterface` (lines 634-647): `mac` is the result of
reading the `address` file of the interface. -/
def enrichNetworkInterface (mac : Option Str) (iface : NetworkInterface) : NetworkInterface :=
  match mac with
  | some data =>
    let m := strings.TrimSpace data
    if m ≠ [] ∧ m ≠ lit "00:00:00:00:00:00" then { iface with MacAddress := some m } else iface
  | none => iface

/-- The rate block of `collectNetwork` (lines 601-612). -/
def netRates (now : Int) (prev : Option networkSnapshot) (name : Str) (rxBytes txBytes : Nat) :
    NetworkInterface :=
  match prev with
  | some prev =>
    let elapsed := Seconds (timeSub now prev.timestamp)
    if elapsed > 0 then
      { Name := name
        RxBytesPerSec := some (deltaU64 rxBytes prev.rxBytes / elapsed)
        TxBytesPerSec := some (deltaU64 txBytes prev.txBytes / elapsed) }
    else { Name := name }
  | none => { Name := name }

/-- One iteration of the line loop of `collectNetwork` after the two header lines
(lines 583-624). -/
def netLine (now : Int) (macFile : Str → Option Str)
    (st : (Str → Option networkSnapshot) × List NetworkInterface) (line : Str) :
    (Str → Option networkSnapshot) × List NetworkInterface :=
  let parts := strings.Split line ':'
  if parts.length ≠ 2 then st
  else
    let name := strings.TrimSpace (idx parts 0)
    if name = lit "lo" then st
    else
      let fields := strings.Fields (idx parts 1)
      if fields.length < 16 then st
      else
        let rxBytes := (strconv.ParseUint (idx fields 0)).1
        let txBytes := (strconv.ParseUint (idx fields 8)).1
        let iface := netRates now (st.1 name) name rxBytes txBytes
        let snap : networkSnapshot := { timestamp := now, rxBytes := rxBytes, txBytes := txBytes }
        (fun k => if k = name then some snap else st.1 k,
          st.2 ++ [enrichNetworkInterface (macFile name) iface])

/-- The method `collectNetwork` (lines 565-632).  `Available` is set at every append
to `interfaces` (line 624), so it is true iff the list is not empty. -/
def collectNetwork (c : Collector) (netdev : Except Str Str) (now : Int)
    (macFile : Str → Option Str) : NetworkStats × Collector :=
  match netdev with
  | .error err =>
    ({ Available := false },
      logError c (lit "network") (lit "failed to read /proc/net/dev: " ++ err))
  | .ok data =>
    let r := ((strings.Split data '\n').drop 2).foldl (netLine now macFile)
      (c.prevNetwork, [])
    ({ Available := decide (r.2.length > 0), Interfaces := r.2 }, { c with prevNetwork := r.1 })

/-! ## Thermal sensors -/

/-- One entry of the directory `class/hwmon`: its name, whether it is a directory,
the base names and read results of the files matching `temp*_input`, and the
read results of the other files of the directory by name. -/
structure HwmonEntry where
  Name : Str
  IsDir : Bool
  tempFiles : List (Str × Option Str)
  files : Str → Option Str

/-- The body of the loop over `tempFiles` in `collectThermals` (lines 668-717): the
sensor appended, if any. -/
def thermalSensor (entry : HwmonEntry) (tempFile : Str × Option Str) : Option ThermalSensor :=
  match tempFile.2 with
  | none => none
  | some data =>
    let r := strconv.ParseInt (strings.TrimSpace data)
    if r.2 ≠ none then none
    else
      let tempC : ℚ := (r.1 : ℚ) / 1000
      if tempC < -100 ∨ tempC > 200 then none
      else
        let sensorNum := strings.TrimSuffix (strings.TrimPrefix tempFile.1 (lit "temp")) (lit "_input")
        let s0 : ThermalSensor :=
          { Name := entry.Name ++ lit "_temp" ++ sensorNum, TempCelsius := some tempC }
        let s1 : ThermalSensor :=
          match entry.files (lit "temp" ++ sensorNum ++ lit "_label") with
          | some labelData => { s0 with Label := some (strings.TrimSpace labelData) }
          | none => s0
        let s2 : ThermalSensor :=
          match entry.files (lit "temp" ++ sensorNum ++ lit "_crit") with
          | some critData =>
            let p := strconv.ParseInt (strings.TrimSpace critData)
            if p.2 = none then { s1 with CriticalTemp := some ((p.1 : ℚ) / 1000) } else s1
          | none => s1
        let s3 : ThermalSensor :=
          match entry.files (lit "temp" ++ sensorNum ++ lit "_max") with
          | some maxData =>
            let p := strconv.ParseInt (strings.TrimSpace maxData)
            if p.2 = none then { s2 with MaxTemp := some ((p.1 : ℚ) / 1000) } else s2
          | none => s2
        some s3

/-- The method `collectThermals` (lines 649-727): `hwmon` is the result of reading
the directory `class/hwmon`.  `Available` is set at every append to `sensors`
(line 718), so it is true iff the list is not empty. -/
def collectThermals (hwmon : Option (List HwmonEntry)) : ThermalStats :=
  match hwmon with
  | none => { Available := false }
  | some entries =>
    let sensors := (entries.filter fun e => e.IsDir && strings.HasPrefix e.Name (lit "hwmon")).flatMap
      fun e => e.tempFiles.filterMap (thermalSensor e)
    { Available := decide (sensors.length > 0), Sensors := sensors }

/-- The method `collectGPU` (lines 729-733). -/
def collectGPU : GPUStats := { Available := false }

/-- The method `checkNVMeAvailable` (lines 757-763). -/
def checkNVMeAvailable (diskstats : Except Str Str) : Bool :=
  match diskstats with
  | .error _ => false
  | .ok data => strings.Contains data (lit "nvme")

/-- The method `collectFeatures` (lines 735-755). -/
def collectFeatures (diskstats : Except Str Str) (hwmon : Option (List HwmonEntry)) : Features :=
  { SmartAvailable := some false
    NvmeAvailable := some (checkNVMeAvailable diskstats)
    ThermalAvailable := some (collectThermals hwmon).Available
    GpuAvailable := some false }

/-! ## One collection pass -/

/-- What one pass reads from its environment: the host name, the clock, the kernel
interface files (the text of the error when a read fails and the error is
reported, `none` when it is not), the answers of `statfs`, the variable
`MENUBAR_TRUENAS_MNT_FIX` and the files of the container and platform checks.
`parseFloat` and `unicodeToLower` stand for the library functions
`strconv.ParseFloat` and `unicode.ToLower`. -/
structure Env where
  hostname : Str
  unixTime : Int
  stat : Except Str Str
  nowCPU : Int
  cpuinfo : Option Str
  loadavg : Option Str
  parseFloat : Str → Option ℚ
  meminfo : Except Str Str
  pressure : Option Str
  diskstats : Except Str Str
  nowDisk : Int
  mounts : Except Str Str
  statfs : Str → Option Statfs_t
  mntFixVar : Str
  unicodeToLower : Char → Char
  dockerenv : Bool
  cgroup : Option Str
  truenasRelease : Bool
  osRelease : Option Str
  netdev : Except Str Str
  nowNet : Int
  macFile : Str → Option Str
  hwmon : Option (List HwmonEntry)

/-- The value of `applyTruenasMntFix` in an environment. -/
def Env.applyFix (env : Env) : Bool :=
  applyTruenasMntFix env.unicodeToLower env.mntFixVar
    (isLikelyContainer env.dockerenv env.cgroup)
    (isLikelyTrueNAS env.unicodeToLower env.truenasRelease env.osRelease)

/-- The function `NewCollector` (lines 50-72): `hostProc` and `hostSys` tell whether
`/host/proc` and `/host/sys` exist. -/
def NewCollector (interval : Int) (hostProc hostSys : Bool) : Collector :=
  let procPath := if hostProc then lit "/host/proc" else lit "/proc"
  let sysPath := if hostSys then lit "/host/sys" else lit "/sys"
  { procPath := procPath
    sysPath := sysPath
    interval := interval
    prevCPU := none
    prevDisk := fun _ => none
    prevNetwork := fun _ => none
    errors := []
    loggedErrors := fun _ => false
    logOutput :=
      (if hostProc then [lit "info: using /host/proc for TrueNAS SCALE compatibility"] else []) ++
      (if hostSys then [lit "info: using /host/sys for TrueNAS SCALE compatibility"] else []) ++
      [lit "info: monitoring paths - proc: " ++ procPath ++ lit ", sys: " ++ sysPath] }

/-- The method `Collect` (lines 74-101): the document of the pass and the state
after it. -/
def Collect (c : Collector) (env : Env) : RemoteLinuxStats × Collector :=
  let c0 : Collector := { c with errors := [] }
  let cpu := collectCPU c0 env.stat env.nowCPU env.cpuinfo env.loadavg env.parseFloat
  let mem := collectMemory cpu.2 env.meminfo env.pressure env.parseFloat
  let disk := collectDisk mem.2 env.diskstats env.nowDisk env.mounts env.statfs env.applyFix
  let net := collectNetwork disk.2 env.netdev env.nowNet env.macFile
  let stats : RemoteLinuxStats :=
    { Schema := lit "v1"
      Timestamp := env.unixTime
      Hostname := env.hostname
      AgentVersion := lit "1.0.0"
      CPU := some cpu.1
      Memory := some mem.1
      Disk := some disk.1
      Network := some net.1
      Thermals := some (collectThermals env.hwmon)
      GPU := some collectGPU
      Features := some (collectFeatures env.diskstats env.hwmon)
      Errors := if net.2.errors.length > 0 then some net.2.errors else none }
  (stats, net.2)

/-! ## The HTTP front end (`linux-agent/main.go`) -/

namespace strings

/-- Go `strings.SplitN(s, sep, n)` for a one-character separator and `n ≥ 0`: at most
`n` pieces, the last one being the unsplit remainder. -/
def SplitN (s : Str) (sep : Char) : Nat → List Str
  | 0 => []
  | 1 => [s]
  | n + 2 =>
    if sep ∈ s then
      s.takeWhile (fun ch => ch ≠ sep) :: SplitN (s.dropWhile (fun ch => ch ≠ sep)).tail sep (n + 1)
    else [s]

end strings

/-- The part of `http.Request` read by the handlers: the method and the header, as
the values stored under each canonical key. -/
structure Request where
  Method : Str
  Header : Str → List Str

/-- Go `http.Header.Get` for a key in canonical form: the first value stored under
the key, the empty text when there is none. -/
def Request.Get (r : Request) (key : Str) : Str :=
  match r.Header key with
  | [] => []
  | v :: _ => v

/-- The function `authMiddleware` (`main.go`, lines 144-170).  `bearerToken` is the
package variable set from `AGENT_TOKEN`; the response writer is a value of the
type `W`, a handler maps the writer and the request to the writer after the
call, and `httpError` stands for `http.Error`. -/
def authMiddleware {W : Type} (bearerToken : Str) (httpError : W → Str → Nat → W)
    (next : W → Request → W) (w : W) (r : Request) : W :=
  if bearerToken = [] then next w r
  else
    let authHeader := r.Get (lit "Authorization")
    if authHeader = [] then httpError w (lit "Unauthorized") 401
    else
      let parts := strings.SplitN authHeader ' ' 2
      if parts.length ≠ 2 ∨ idx parts 0 ≠ lit "Bearer" then
        httpError w (lit "Unauthorized") 401
      else if idx parts 1 ≠ bearerToken then httpError w (lit "Unauthorized") 401
      else next w r

/-! ## The CPU rate block in `float64` arithmetic -/

/-- Rounding of a rational to the nearest integer, ties to the even one. -/
def roundHalfEven (t : ℚ) : Int :=
  if t - ⌊t⌋ < 1 / 2 then ⌊t⌋
  else if t - ⌊t⌋ > 1 / 2 then ⌊t⌋ + 1
  else if ⌊t⌋ % 2 = 0 then ⌊t⌋ else ⌊t⌋ + 1

/-- The `float64` nearest to a rational (IEEE 754 binary64, round to nearest, ties to
even): 53 significant bits in the binade of the value.  The exponent range is not
bounded here; the values met in the collector lie far inside it. -/
def roundF64 (q : ℚ) : ℚ :=
  if q = 0 then 0
  else
    let u : ℚ := (2 : ℚ) ^ (Int.log 2 |q| - 52)
    (if q < 0 then -1 else 1) * (roundHalfEven (|q| / u) : ℚ) * u
/-- The rate block of `collectCPU` (lines 133-149) in `float64` arithmetic: the four
deltas are the conversions of the `uint64` differences, and the subtraction, each
division and each multiplication by `100.0` round to the nearest `float64`.
`cpuRates` is this block with every rounding left out. -/
def cpuRatesF64 (prev : Option cpuSnapshot) (k : cpuCounters) (stats : CPUStats) : CPUStats :=
  match prev with
  | none => stats
  | some p =>
    let deltaTotal := roundF64 (subU64 k.total p.total : Nat)
    let deltaIdle := roundF64 (subU64 k.idle p.idle : Nat)
    let deltaIowait := roundF64 (subU64 k.iowait p.iowait : Nat)
    let deltaSteal := roundF64 (subU64 k.steal p.steal : Nat)
    if deltaTotal > 0 then
      { stats with
        UsagePercent :=
          some (roundF64 (roundF64 (roundF64 (deltaTotal - deltaIdle) / deltaTotal) * 100))
        IowaitPercent := some (roundF64 (roundF64 (deltaIowait / deltaTotal) * 100))
        StealPercent := some (roundF64 (roundF64 (deltaSteal / deltaTotal) * 100))
        Available := true }
    else stats

/-! ## Definitions used to state the properties -/

/-- The device name on a line of `diskstats`. -/
def diskName (line : Str) : Str := idx (strings.Fields line) 2

/-- A line of `diskstats` that passes the guards of the loop. -/
def diskRetained (line : Str) : Prop :=
  14 ≤ (strings.Fields line).length ∧ skipDevice (diskName line) = false

instance : DecidablePred diskRetained := fun line => by
  unfold diskRetained
  infer_instance

/-- The snapshot stored for a retained line of `diskstats`. -/
def diskSnap (now : Int) (line : Str) : diskSnapshot :=
  { timestamp := now
    readBytes := (strconv.ParseUint (idx (strings.Fields line) 5)).1 * 512 % u64
    writeBytes := (strconv.ParseUint (idx (strings.Fields line) 9)).1 * 512 % u64
    readOps := (strconv.ParseUint (idx (strings.Fields line) 3)).1
    writeOps := (strconv.ParseUint (idx (strings.Fields line) 7)).1 }

/-- The device record emitted for a retained line of `diskstats`. -/
def diskDev (now : Int) (prev : Option diskSnapshot) (line : Str) : DiskDevice :=
  diskRates now prev (diskName line) (diskSnap now line).readBytes (diskSnap now line).writeBytes
    (diskSnap now line).readOps (diskSnap now line).writeOps

/-- The rule the code applies to a device name: no virtual-device beginning, and
either no final decimal digit or a name that begins with `nvme` and has no letter
`p`. -/
def wholeDiskName (name : Str) : Prop :=
  ¬ (lit "loop" <+: name) ∧ ¬ (lit "ram" <+: name) ∧
    (¬ (∃ ch ∈ name.getLast?, ch.isDigit = true) ∨
      (lit "nvme" <+: name ∧ 'p' ∉ name))

/-- The rule of the specification for a device name: no virtual-device beginning, and
either no final decimal digit or a whole NVMe disk name, which begins with `nvme`,
has a namespace token (a letter `n` after that beginning) and has no partition
token (no letter `p`). -/
def namespacedDiskName (name : Str) : Prop :=
  ¬ (lit "loop" <+: name) ∧ ¬ (lit "ram" <+: name) ∧
    (¬ (∃ ch ∈ name.getLast?, ch.isDigit = true) ∨
      (lit "nvme" <+: name ∧ 'n' ∈ name.drop 4 ∧ 'p' ∉ name))

instance : DecidablePred namespacedDiskName := fun name => by
  unfold namespacedDiskName
  infer_instance

/-- A `diskstats` text naming the NVMe controller nvme0 and the namespace nvme0n1. -/
def diskTextController : Str :=
  lit (" 259       0 nvme0 1 2 3 4 5 6 7 8 9 10 11\n" ++
       " 259       1 nvme0n1 1 2 3 4 5 6 7 8 9 10 11\n")

instance : DecidablePred wholeDiskName := fun name => by
  unfold wholeDiskName
  infer_instance

/-- The diskstats text of the partition-filter scenario. -/
def partitionFilterInput : Str :=
  lit ("   8       0 sda 1 2 3 4 5 6 7 8 9 10 11\n" ++
       "   8       1 sda1 1 2 3 4 5 6 7 8 9 10 11\n" ++
       " 259       0 nvme0n1 1 2 3 4 5 6 7 8 9 10 11\n" ++
       " 259       1 nvme0n1p1 1 2 3 4 5 6 7 8 9 10 11\n" ++
       "   7       0 loop0 1 2 3 4 5 6 7 8 9 10 11\n")

/-- A mount record that passes the guards on the field count and the type. -/
def mountRetained (line : Str) : Prop :=
  3 ≤ (strings.Fields line).length ∧ idx (strings.Fields line) 2 ∉ skipTypes

instance : DecidablePred mountRetained := fun line => by
  unfold mountRetained
  infer_instance

/-- The entry built for a retained mount record. -/
def mountEntryOf (statfs : Str → Option Statfs_t) (line : Str) : mountEntry :=
  statEntry
    { MountPoint := idx (strings.Fields line) 1, Device := idx (strings.Fields line) 0,
      FsType := some (idx (strings.Fields line) 2) }
    (statfs (idx (strings.Fields line) 1))

/-- A top-level mount under `/mnt/`: the mount point begins with `/mnt/` and has no
further slash. -/
def topLevelMnt (mp : Str) : Prop := lit "/mnt/" <+: mp ∧ '/' ∉ mp.drop 5

instance : DecidablePred topLevelMnt := fun mp => by
  unfold topLevelMnt
  infer_instance

/-- The sum of the used bytes of the entries nested under the mount point `mp`. -/
def childUsedSum (entries : List mountEntry) (mp : Str) : Nat :=
  ((entries.filter (fun e => decide ((mp ++ lit "/") <+: e.fs.MountPoint))).map
    (fun e => e.used)).sum

/-- The value left in `usedSum` for a top-level mount whose own used bytes are `own`
and whose children sum to `children`: their 64-bit sum, or `own` when that is zero. -/
def foldedUsed (own children : Nat) : Nat :=
  if (own + children) % u64 = 0 then own else (own + children) % u64

/-- The mounts text of the mount-fix scenario. -/
def mntFixInput : Str :=
  lit ("pool /mnt/pool zfs rw 0 0\n" ++
       "pool/dataset1 /mnt/pool/dataset1 zfs rw 0 0\n" ++
       "pool/dataset2 /mnt/pool/dataset2 zfs rw 0 0\n")

/-- The `statfs` answers of the mount-fix scenario, in blocks of one byte:
`/mnt/pool` has used 100 and available 50, the datasets have used 30 and 20. -/
def mntFixStatfs (mp : Str) : Option Statfs_t :=
  if mp = lit "/mnt/pool" then some { Blocks := 150, Bfree := 50, Bavail := 50, Bsize := 1 }
  else if mp = lit "/mnt/pool/dataset1" then
    some { Blocks := 30, Bfree := 0, Bavail := 0, Bsize := 1 }
  else if mp = lit "/mnt/pool/dataset2" then
    some { Blocks := 20, Bfree := 0, Bavail := 0, Bsize := 1 }
  else none

/-- The first-pass entry of `/mnt/pool` in the mount-fix scenario. -/
def mntFixPool : mountEntry :=
  mountEntryOf mntFixStatfs (lit "pool /mnt/pool zfs rw 0 0")

/-- The shape shared by the line loops over the snapshot store: a retained line `a`
overwrites the entry of its key with its snapshot and appends the record built
from the entry found; other lines change nothing. -/
def keyedStep {α S D : Type} (R : α → Prop) [DecidablePred R] (key : α → Str) (snap : α → S)
    (emit : Option S → α → D) (st : (Str → Option S) × List D) (a : α) :
    (Str → Option S) × List D :=
  if R a then
    (fun k => if k = key a then some (snap a) else st.1 k, st.2 ++ [emit (st.1 (key a)) a])
  else st

/-- The interface name on a line of `net/dev`. -/
def netName (line : Str) : Str := strings.TrimSpace (idx (strings.Split line ':') 0)

/-- A line of `net/dev` that passes the guards of the loop. -/
def netRetained (line : Str) : Prop :=
  (strings.Split line ':').length = 2 ∧ netName line ≠ lit "lo" ∧
    16 ≤ (strings.Fields (idx (strings.Split line ':') 1)).length

instance : DecidablePred netRetained := fun line => by
  unfold netRetained
  infer_instance

/-- The snapshot stored for a retained line of `net/dev`. -/
def netSnap (now : Int) (line : Str) : networkSnapshot :=
  { timestamp := now
    rxBytes := (strconv.ParseUint
      (idx (strings.Fields (idx (strings.Split line ':') 1)) 0)).1
    txBytes := (strconv.ParseUint
      (idx (strings.Fields (idx (strings.Split line ':') 1)) 8)).1 }

/-- The interface record emitted for a retained line of `net/dev`. -/
def netDev (now : Int) (macFile : Str → Option Str) (prev : Option networkSnapshot)
    (line : Str) : NetworkInterface :=
  enrichNetworkInterface (macFile (netName line))
    (netRates now prev (netName line) (netSnap now line).rxBytes (netSnap now line).txBytes)

/-- The device names on the retained lines of a `diskstats` text, in order. -/
def diskNames (data : Str) : List Str :=
  ((strings.Split data '\n').filter (fun l => decide (diskRetained l))).map diskName

/-- The interface names on the retained lines of a `net/dev` text, in order. -/
def netNames (data : Str) : List Str :=
  (((strings.Split data '\n').drop 2).filter (fun l => decide (netRetained l))).map
    netName

/-- The disk devices of a document. -/
def RemoteLinuxStats.devices (doc : RemoteLinuxStats) : List DiskDevice :=
  match doc.Disk with
  | some disk => disk.Devices
  | none => []

/-- The network interfaces of a document. -/
def RemoteLinuxStats.interfaces (doc : RemoteLinuxStats) : List NetworkInterface :=
  match doc.Network with
  | some net => net.Interfaces
  | none => []

/-- A collector just built, on a host without `/host/proc` and `/host/sys`. -/
def freshCollector : Collector := NewCollector 5000000000 false false

/-- An environment in which nothing can be read. -/
def emptyEnv : Env :=
  { hostname := lit "host", unixTime := 0, stat := .error (lit "no such file"), nowCPU := 0,
    cpuinfo := none, loadavg := none, parseFloat := fun _ => none,
    meminfo := .error (lit "no such file"), pressure := none,
    diskstats := .error (lit "no such file"), nowDisk := 0,
    mounts := .error (lit "no such file"), statfs := fun _ => none, mntFixVar := [],
    unicodeToLower := fun ch => ch, dockerenv := false, cgroup := none, truenasRelease := false,
    osRelease := none, netdev := .error (lit "no such file"), nowNet := 0,
    macFile := fun _ => none, hwmon := none }

/-- An environment with one CPU line, one disk device and one interface, read at the
clock value `t`; its counters do not depend on `t`. -/
def steadyEnv (t : Int) : Env :=
  { emptyEnv with
    stat := .ok (lit "cpu  100 0 50 800 20 0 5 0 0 0\ncpu0 100 0 50 800 20 0 5 0 0 0\n")
    nowCPU := t
    diskstats := .ok (lit "   8       0 sda 100 0 2000 0 50 0 1000 0 0 0 0\n")
    nowDisk := t
    netdev := .ok (lit ("Inter-|   Receive    |  Transmit\n" ++
      " face |bytes packets|bytes packets\n" ++
      "  eth0: 1000 10 0 0 0 0 0 0 2000 20 0 0 0 0 0 0\n"))
    nowNet := t }

/-- An environment whose `diskstats` names the device sda on two lines. -/
def repeatedEnv (t : Int) : Env :=
  { emptyEnv with
    diskstats := .ok (lit ("   8       0 sda 1 0 10 0 1 0 10 0 0 0 0\n" ++
      "   8       0 sda 2 0 20 0 2 0 20 0 0 0 0\n"))
    nowDisk := t }

/-- The rate `(current - previous) / elapsed_seconds` computed over the integers;
`elapsed` is in nanoseconds. -/
def integerRate (current previous : Nat) (elapsed : Int) : ℚ :=
  (((current : Int) - (previous : Int) : Int) : ℚ) / Seconds elapsed

/-- A `diskstats` text with the device sda. -/
def diskTextA : Str := lit "   8       0 sda 100 0 2000 0 50 0 1000 0 0 0 0\n"

/-- The text `diskTextA` after more reads and writes. -/
def diskTextGrown : Str := lit "   8       0 sda 150 0 4000 0 80 0 3000 0 0 0 0\n"

/-- A `diskstats` text in which sda has read 4096 sectors. -/
def diskTextBefore : Str := lit "   8       0 sda 100 0 4096 0 50 0 1000 0 0 0 0\n"

/-- A `diskstats` text in which the counters of sda have restarted from zero. -/
def diskTextRestarted : Str := lit "   8       0 sda 0 0 0 0 0 0 0 0 0 0 0\n"

/-- A `net/dev` text with the interface eth0. -/
def netTextA : Str :=
  lit ("Inter-|   Receive    |  Transmit\n" ++
    " face |bytes packets|bytes packets\n" ++
    "  eth0: 1000 10 0 0 0 0 0 0 2000 20 0 0 0 0 0 0\n")

/-- The text `netTextA` after more traffic. -/
def netTextGrown : Str :=
  lit ("Inter-|   Receive    |  Transmit\n" ++
    " face |bytes packets|bytes packets\n" ++
    "  eth0: 5000 50 0 0 0 0 0 0 2500 25 0 0 0 0 0 0\n")

/-- The snapshot stored for a reading of the `cpu ` line. -/
def cpuSnap (now : Int) (k : cpuCounters) : cpuSnapshot :=
  { timestamp := now, total := k.total, idle := k.idle, iowait := k.iowait, steal := k.steal }

/-- The plain sum of the eight counters of a reading. -/
def cpuCounters.sum (k : cpuCounters) : Nat :=
  k.user + k.nice + k.system + k.idle + k.iowait + k.irq + k.softirq + k.steal

/-- Every one of the eight counters is strictly greater in `k2` than in `k1`. -/
def cpuCounters.strictlyBelow (k1 k2 : cpuCounters) : Prop :=
  k1.user < k2.user ∧ k1.nice < k2.nice ∧ k1.system < k2.system ∧ k1.idle < k2.idle ∧
    k1.iowait < k2.iowait ∧ k1.irq < k2.irq ∧ k1.softirq < k2.softirq ∧ k1.steal < k2.steal

instance (k1 k2 : cpuCounters) : Decidable (k1.strictlyBelow k2) := by
  unfold cpuCounters.strictlyBelow
  infer_instance

/-- A `stat` text. -/
def cpuTextA : Str := lit "cpu  100 0 50 800 20 0 5 0 0 0\ncpu0 100 0 50 800 20 0 5 0 0 0\n"

/-- The text `cpuTextA` after every one of the eight counters has grown. -/
def cpuTextGrown : Str :=
  lit "cpu  150 1 60 1000 25 1 6 1 0 0\ncpu0 150 1 60 1000 25 1 6 1 0 0\n"

/-- A `stat` text with small counters. -/
def cpuTextSmall : Str := lit "cpu  1 1 1 1 1 1 1 1\n"

/-- A `stat` text in which every counter is greater than in `cpuTextSmall` and the
sum of the eight exceeds `2 ^ 64`. -/
def cpuTextHuge : Str :=
  lit "cpu  9223372036854775809 2 2 9223372036854775809 2 2 2 2\n"

/-- The key of a line of `meminfo`, when the line has at least two fields. -/
def memKey (line : Str) : Option Str :=
  if 2 ≤ (strings.Fields line).length then
    some (strings.TrimSuffix (idx (strings.Fields line) 0) (lit ":"))
  else none

/-- The value field of the last line of a `meminfo` text with the key `key`. -/
def memLast (data : Str) (key : Str) : Option Str :=
  (((strings.Split data '\n').filter
    (fun l => decide (memKey l = some key))).getLast?).map (fun l => idx (strings.Fields l) 1)

/-- The fields of the memory report other than the three pressure averages. -/
def MemoryStats.core (s : MemoryStats) :
    Bool × Option Nat × Option Nat × Option Nat × Option Nat × Option Nat × Option Nat ×
      Option Nat × Option Nat :=
  (s.Available, s.TotalBytes, s.AvailableBytes, s.UsedBytes, s.BuffersBytes, s.CachedBytes,
    s.SwapTotalBytes, s.SwapUsedBytes, s.SwapCachedBytes)

/-- The `meminfo` text of the round-trip scenario. -/
def meminfoRoundTrip : Str :=
  lit ("MemTotal:       16777216 kB\n" ++
       "MemFree:         1000000 kB\n" ++
       "MemAvailable:    8388608 kB\n")

/-- A `meminfo` text whose `MemTotal` is `2 ^ 54` kB. -/
def meminfoHuge : Str :=
  lit ("MemTotal:       18014398509481984 kB\n" ++
       "MemAvailable:    8388608 kB\n")

/-- A `meminfo` text with two `MemTotal` lines. -/
def meminfoRepeated : Str :=
  lit ("MemTotal:       5 kB\n" ++
       "MemTotal:       7 kB\n" ++
       "MemAvailable:   1 kB\n")

/-- The entry appended to the errors of a pass by `logError` (line 771). -/
def errorEntry (component message : Str) : Str := component ++ lit ": " ++ message

/-- The line written to the log by `logError` (line 768). -/
def warningLine (component message : Str) : Str :=
  lit "warning: " ++ component ++ lit ": " ++ message

/-- The key of the error-log memo (line 766). -/
def errorKey (component message : Str) : Str := component ++ lit ":" ++ message

/-- The entries of the error list of a pass, in the order of the collectors: one for
each of the five files that cannot be read. -/
def readErrors (env : Env) : List Str :=
  (match env.stat with
    | .error e => [errorEntry (lit "cpu") (lit "failed to read /proc/stat: " ++ e)]
    | .ok _ => []) ++
  (match env.meminfo with
    | .error e => [errorEntry (lit "memory") (lit "failed to read /proc/meminfo: " ++ e)]
    | .ok _ => []) ++
  (match env.diskstats with
    | .error e => [errorEntry (lit "disk") (lit "failed to read /proc/diskstats: " ++ e)]
    | .ok _ => []) ++
  (match env.mounts with
    | .error e => [errorEntry (lit "filesystem") (lit "failed to read /proc/mounts: " ++ e)]
    | .ok _ => []) ++
  (match env.netdev with
    | .error e => [errorEntry (lit "network") (lit "failed to read /proc/net/dev: " ++ e)]
    | .ok _ => [])

/-- A step of the collector that writes no copy of the line `L` to the log and
forgets no key of the memo. -/
def quietFor (L : Str) (c c2 : Collector) : Prop :=
  c2.logOutput.count L = c.logOutput.count L ∧
    ∀ k, c.loggedErrors k = true → c2.loggedErrors k = true

/-- A `meminfo` text without a `MemTotal` line. -/
def meminfoNoTotal : Str := lit "MemAvailable:    8388608 kB\nBuffers:          100 kB\n"

/-- A `cpuinfo` text of two processors. -/
def cpuinfoTwo : Str := lit "processor\t: 0\nmodel name\t: x\n\nprocessor\t: 1\nmodel name\t: x\n"

/-- The decimal numeral of a natural number. -/
def decimal (n : Nat) : Str := Nat.toDigits 10 n

/-- The value read by the digit loop of `ParseUint` from the digits `cs`, starting at
`acc`, when nothing overflows. -/
def digitsValue (acc : Nat) (cs : Str) : Nat :=
  cs.foldl (fun n ch => n * 10 + (ch.toNat - 48)) acc

/-- A `meminfo` text whose `MemTotal` value is not a number. -/
def meminfoGarbled : Str :=
  lit ("MemTotal:       abc kB\n" ++
       "MemAvailable:    8388608 kB\n")

/-- A `meminfo` text with swap lines. -/
def meminfoSwap : Str :=
  lit ("MemTotal:       16777216 kB\n" ++
       "SwapCached:            0 kB\n" ++
       "SwapTotal:       2097152 kB\n" ++
       "SwapFree:        1048576 kB\n")

/-- The key `key` occurs in a `meminfo` text: some line with at least two fields has
it as first field, up to a final colon. -/
def memHasKey (data : Str) (key : Str) : Prop :=
  ∃ l ∈ strings.Split data '\n', memKey l = some key

/-- A mount point nested under a mount below `/mnt/`: it begins with `/mnt/` and has a
further slash, the form `/mnt/<a>/<rest>`. -/
def nestedMnt (mp : Str) : Prop := lit "/mnt/" <+: mp ∧ '/' ∈ mp.drop 5

instance : DecidablePred nestedMnt := fun mp => by
  unfold nestedMnt
  infer_instance

/-- A mounts text with a denied type, a repeated mount point and a short line. -/
def mountsRepeated : Str :=
  lit ("proc /proc proc rw 0 0\n" ++
       "/dev/sda1 / ext4 rw 0 0\n" ++
       "tmpfs /run tmpfs rw 0 0\n" ++
       "short line\n" ++
       "overlay /data overlay rw 0 0\n" ++
       "/dev/sdb1 / xfs rw 0 0\n" ++
       "/dev/sdb1 /data xfs rw 0 0\n" ++
       "/dev/sdc1 /data ext4 rw 0 0\n")

/-- A directory of `hwmon` with one channel reading 45.0 degrees and one reading
250.0 degrees. -/
def hwmonTwo : HwmonEntry :=
  { Name := lit "hwmon0", IsDir := true,
    tempFiles := [(lit "temp1_input", some (lit "45000\n")),
                  (lit "temp2_input", some (lit "250000\n"))],
    files := fun _ => none }

/-- A `net/dev` text whose first two lines look like interface lines, followed by the
loopback interface and eth0. -/
def netTextLo : Str :=
  lit ("  eth8: 1 1 0 0 0 0 0 0 1 1 0 0 0 0 0 0\n" ++
    "  eth9: 2 2 0 0 0 0 0 0 2 2 0 0 0 0 0 0\n" ++
    "    lo: 3000 30 0 0 0 0 0 0 3000 30 0 0 0 0 0 0\n" ++
    "  eth0: 1000 10 0 0 0 0 0 0 2000 20 0 0 0 0 0 0\n")

/-- A request with the method GET and the given values of the `Authorization` header. -/
def requestWith (auth : List Str) : Request :=
  { Method := lit "GET"
    Header := fun key => if key = lit "Authorization" then auth else [] }

/-- The state after a sequence of passes. -/
def passes (c : Collector) (envs : List Env) : Collector :=
  envs.foldl (fun c env => (Collect c env).2) c

/-- A `diskstats` text with the device sdb only. -/
def diskTextOther : Str := lit "   8      16 sdb 7 0 70 0 7 0 70 0 0 0 0\n"

/-- No counter of the reading `k2` is below its value in `k1`. -/
def cpuCounters.noneAbove (k1 k2 : cpuCounters) : Prop :=
  k1.user ≤ k2.user ∧ k1.nice ≤ k2.nice ∧ k1.system ≤ k2.system ∧ k1.idle ≤ k2.idle ∧
    k1.iowait ≤ k2.iowait ∧ k1.irq ≤ k2.irq ∧ k1.softirq ≤ k2.softirq ∧ k1.steal ≤ k2.steal

instance (k1 k2 : cpuCounters) : Decidable (k1.noneAbove k2) := by
  unfold cpuCounters.noneAbove
  infer_instance

/-- A mounts text with one top-level mount under `/mnt/` and one mount elsewhere. -/
def mountsFailing : Str :=
  lit ("pool /mnt/pool zfs rw 0 0\n" ++
       "/dev/sda1 /data ext4 rw 0 0\n")

/-- An environment read at the clock value `t` in which the counters of `steadyEnv`
have grown. -/
def grownEnv (t : Int) : Env :=
  { emptyEnv with
    stat := .ok cpuTextGrown
    nowCPU := t
    diskstats := .ok diskTextGrown
    nowDisk := t
    netdev := .ok netTextGrown
    nowNet := t }

/-- A `stat` text with all counters zero. -/
def cpuTextZero : Str := lit "cpu  0 0 0 0 0 0 0 0 0 0\n"

/-- A `stat` text with iowait 2 and steal 9, the other counters zero. -/
def cpuTextEleven : Str := lit "cpu  0 0 0 0 2 0 0 9 0 0\n"

/-! ## Facts about the library functions -/

theorem hasPrefix_iff (s p : Str) : strings.HasPrefix s p = true ↔ p <+: s := by
  induction p generalizing s with
  | nil => simp [strings.HasPrefix]
  | cons d p ih =>
    cases s with
    | nil => simp [strings.HasPrefix]
    | cons c s =>
      simp [strings.HasPrefix, ih, List.cons_prefix_cons]
      intro _
      exact eq_comm

theorem contains_char_iff (s : Str) (ch : Char) : strings.Contains s [ch] = true ↔ ch ∈ s := by
  induction s with
  | nil => simp [strings.Contains]
  | cons c s ih =>
    simp only [strings.Contains, Bool.or_eq_true, ih, List.mem_cons]
    have : strings.HasPrefix (c :: s) [ch] = true ↔ ch = c := by
      simp [strings.HasPrefix]
      exact eq_comm
    rw [this]

theorem char_isDigit_iff (c : Char) : c.isDigit = true ↔ 48 ≤ c.toNat ∧ c.toNat ≤ 57 := by
  simp only [Char.isDigit, Char.toNat, Bool.and_eq_true, decide_eq_true_eq, ge_iff_le]
  rfl

theorem endsInDigit_iff (name : Str) :
    endsInDigit name = true ↔ ∃ ch ∈ name.getLast?, ch.isDigit = true := by
  unfold endsInDigit
  cases h : name.getLast? with
  | none => simp
  | some c => simp [char_isDigit_iff]

theorem nvme_has_n (name : Str) (h : lit "nvme" <+: name) : 'n' ∈ name := by
  obtain ⟨rest, hr⟩ := h
  rw [← hr]
  exact List.mem_append_left _ (by decide)

theorem skipDevice_iff (name : Str) : skipDevice name = false ↔ wholeDiskName name := by
  have hn : lit "n" = ['n'] := by decide
  have hp : lit "p" = ['p'] := by decide
  have hv : lit "nvme" <+: name → 'n' ∈ name := nvme_has_n name
  rw [← Bool.not_eq_true]
  simp only [skipDevice, isNvmeWholeDisk, Bool.or_eq_true, Bool.and_eq_true, Bool.not_eq_true',
    hasPrefix_iff, endsInDigit_iff, hn, hp, contains_char_iff, wholeDiskName,
    ← Bool.not_eq_true]
  generalize (∃ ch ∈ name.getLast?, ch.isDigit = true) = E at *
  tauto

theorem diskRates_name (now : Int) (prev : Option diskSnapshot) (name : Str) (a b c d : Nat) :
    (diskRates now prev name a b c d).Name = name := by
  cases prev with
  | none => rfl
  | some p =>
    simp only [diskRates]
    split <;> rfl

theorem diskLine_eq (now : Int) (st : (Str → Option diskSnapshot) × List DiskDevice)
    (line : Str) :
    diskLine now st line =
      if diskRetained line then
        (fun k => if k = diskName line then some (diskSnap now line) else st.1 k,
          st.2 ++ [diskDev now (st.1 (diskName line)) line])
      else st := by
  unfold diskLine diskRetained
  by_cases h14 : (strings.Fields line).length < 14
  · have : ¬ 14 ≤ (strings.Fields line).length := by omega
    simp [h14, this]
  · have h14b : 14 ≤ (strings.Fields line).length := by omega
    by_cases hs : skipDevice (idx (strings.Fields line) 2) = true
    · simp [h14, hs, diskName]
    · have hs2 : skipDevice (idx (strings.Fields line) 2) = false := by simpa using hs
      simp only [h14, hs2, h14b, if_false, and_self, if_true, Bool.false_eq_true, diskName]
      rfl

theorem foldl_diskLine_names (now : Int) (lines : List Str)
    (st : (Str → Option diskSnapshot) × List DiskDevice) :
    (lines.foldl (diskLine now) st).2.map DiskDevice.Name =
      st.2.map DiskDevice.Name ++
        (((lines.map strings.Fields).filter (fun f => decide (14 ≤ f.length))).map
          (fun f => idx f 2)).filter (fun n => decide (wholeDiskName n)) := by
  induction lines generalizing st with
  | nil => simp
  | cons l ls ih =>
    rw [List.foldl_cons, ih, diskLine_eq]
    by_cases h14 : 14 ≤ (strings.Fields l).length
    · by_cases hw : wholeDiskName (idx (strings.Fields l) 2)
      · have hr : diskRetained l := ⟨h14, (skipDevice_iff _).2 hw⟩
        simp [h14, hw, hr, List.filter_cons, diskDev, diskRates_name, diskName]
      · have hr : ¬ diskRetained l := fun h => hw ((skipDevice_iff _).1 h.2)
        simp [h14, hw, hr, List.filter_cons]
    · have hr : ¬ diskRetained l := fun h => h14 h.1
      simp [h14, hr, List.filter_cons]

/-- C2 (amended): the devices emitted by `collectDiskDevices` are, in input order, the
names in field 2 of the lines with at least 14 fields that satisfy the rule of the
code (no `loop` or `ram` beginning, and no final digit unless the name begins with
`nvme` and has no letter `p`); so the name on such a line is emitted iff it
satisfies that rule. -/
theorem collectDiskDevices_partition_filter (c : Collector) (data : Str) (now : Int) :
    (collectDiskDevices c (.ok data) now).1.map DiskDevice.Name =
      ((((strings.Split data '\n').map strings.Fields).filter
        (fun f => decide (14 ≤ f.length))).map (fun f => idx f 2)).filter
          (fun n => decide (wholeDiskName n)) ∧
    (∀ line ∈ strings.Split data '\n', 14 ≤ (strings.Fields line).length →
      (idx (strings.Fields line) 2 ∈
          (collectDiskDevices c (.ok data) now).1.map DiskDevice.Name ↔
        wholeDiskName (idx (strings.Fields line) 2))) := by
  have key : (collectDiskDevices c (.ok data) now).1.map DiskDevice.Name =
      ((((strings.Split data '\n').map strings.Fields).filter
        (fun f => decide (14 ≤ f.length))).map (fun f => idx f 2)).filter
          (fun n => decide (wholeDiskName n)) := by
    simp only [collectDiskDevices]
    rw [foldl_diskLine_names]
    simp
  refine ⟨key, ?_⟩
  intro line hl h14
  rw [key]
  simp only [List.mem_filter, List.mem_map, decide_eq_true_eq]
  constructor
  · intro h; exact h.2
  · intro h; exact ⟨⟨strings.Fields line, ⟨⟨line, hl, rfl⟩, h14⟩, rfl⟩, h⟩

/-- C2 at the partition-filter scenario: the names sda, sda1, nvme0n1, nvme0n1p1 and
loop0 yield the devices sda and nvme0n1 only. -/
theorem collectDiskDevices_partition_filter_witness :
    (collectDiskDevices freshCollector (.ok partitionFilterInput) 0).1.map DiskDevice.Name =
      [lit "sda", lit "nvme0n1"] ∧
    (lit "nvme0n1" ∈
        (collectDiskDevices freshCollector (.ok partitionFilterInput) 0).1.map DiskDevice.Name ↔
      wholeDiskName (lit "nvme0n1")) ∧
    ¬ wholeDiskName (lit "nvme0n1p1") ∧ ¬ wholeDiskName (lit "sda1") ∧
    ¬ wholeDiskName (lit "loop0") :=
  ⟨(collectDiskDevices_partition_filter freshCollector partitionFilterInput 0).1.trans
      (by decide),
    (collectDiskDevices_partition_filter freshCollector partitionFilterInput 0).2
      (lit " 259       0 nvme0n1 1 2 3 4 5 6 7 8 9 10 11") (by decide) (by decide),
    by decide, by decide, by decide⟩

theorem statEntry_mountPoint (fs : Filesystem) (st : Option Statfs_t) :
    (statEntry fs st).fs.MountPoint = fs.MountPoint := by
  cases st with
  | none => rfl
  | some s =>
    simp only [statEntry]
    split <;> rfl

theorem mountLine_eq (statfs : Str → Option Statfs_t) (st : (Str → Bool) × List mountEntry)
    (line : Str) :
    mountLine statfs st line =
      if mountRetained line ∧ st.1 (idx (strings.Fields line) 1) = false then
        (fun k => if k = idx (strings.Fields line) 1 then true else st.1 k,
          st.2 ++ [mountEntryOf statfs line])
      else st := by
  unfold mountLine mountRetained
  by_cases h3 : (strings.Fields line).length < 3
  · have : ¬ 3 ≤ (strings.Fields line).length := by omega
    simp [h3, this]
  · have h3b : 3 ≤ (strings.Fields line).length := by omega
    by_cases hs : idx (strings.Fields line) 2 ∈ skipTypes
    · simp [h3, hs]
    · by_cases hseen : st.1 (idx (strings.Fields line) 1) = true
      · simp [h3, hs, hseen]
      · have hseen2 : st.1 (idx (strings.Fields line) 1) = false := by simpa using hseen
        have hc : skipTypes.contains (idx (strings.Fields line) 2) = false := by simpa using hs
        simp only [h3, hs, hc, hseen2, h3b, if_false, and_self, if_true, Bool.false_eq_true,
          not_false_eq_true]
        rfl

/-- The invariant of the first pass: `seen` holds exactly the mount points of the
entries, and no mount point occurs twice. -/
theorem foldl_mountLine_inv (statfs : Str → Option Statfs_t) (lines : List Str)
    (st : (Str → Bool) × List mountEntry)
    (hseen : ∀ k, st.1 k = true ↔ k ∈ st.2.map (fun e => e.fs.MountPoint))
    (hnd : (st.2.map (fun e => e.fs.MountPoint)).Nodup) :
    (∀ k, (lines.foldl (mountLine statfs) st).1 k = true ↔
      k ∈ (lines.foldl (mountLine statfs) st).2.map (fun e => e.fs.MountPoint)) ∧
    ((lines.foldl (mountLine statfs) st).2.map (fun e => e.fs.MountPoint)).Nodup := by
  induction lines generalizing st with
  | nil => exact ⟨hseen, hnd⟩
  | cons l ls ih =>
    rw [List.foldl_cons]
    apply ih
    · intro k
      rw [mountLine_eq]
      split
      · rename_i h
        simp only [List.map_append, List.map_cons, List.map_nil, List.mem_append,
          List.mem_singleton, mountEntryOf, statEntry_mountPoint]
        by_cases hk : k = idx (strings.Fields l) 1
        · simp [hk]
        · simp [hk, hseen]
      · exact hseen k
    · rw [mountLine_eq]
      split
      · rename_i h
        simp only [List.map_append, List.map_cons, List.map_nil, mountEntryOf,
          statEntry_mountPoint]
        rw [List.nodup_append]
        refine ⟨hnd, List.nodup_singleton _, ?_⟩
        rw [List.disjoint_singleton]
        intro hmem
        have := (hseen _).2 hmem
        rw [h.2] at this
        exact Bool.noConfusion this
      · exact hnd

theorem mountEntries_nodup (statfs : Str → Option Statfs_t) (data : Str) :
    ((mountEntries statfs data).map (fun e => e.fs.MountPoint)).Nodup := by
  unfold mountEntries
  exact (foldl_mountLine_inv statfs (scanLines data) (fun _ => false, []) (by simp) (by simp)).2

theorem usedSumOf_foldl (mp : Str) (entries : List mountEntry) (acc : Nat) (hacc : acc < u64) :
    entries.foldl
      (fun usedSum child =>
        if child.fs.MountPoint = mp then
          if child.used ≠ 0 then (usedSum + child.used) % u64 else usedSum
        else if strings.HasPrefix child.fs.MountPoint (mp ++ lit "/") then
          if child.used ≠ 0 then (usedSum + child.used) % u64 else usedSum
        else usedSum) acc =
      (acc + (entries.map (fun e =>
        if e.fs.MountPoint = mp ∨ (mp ++ lit "/") <+: e.fs.MountPoint then e.used else 0)).sum)
        % u64 := by
  induction entries generalizing acc with
  | nil => simp [Nat.mod_eq_of_lt hacc]
  | cons e es ih =>
    rw [List.foldl_cons, List.map_cons, List.sum_cons]
    have hu : 0 < u64 := by unfold u64; norm_num
    by_cases h1 : e.fs.MountPoint = mp
    · by_cases h0 : e.used = 0
      · simp only [h1, h0, if_true, true_or, ne_eq, not_true_eq_false, if_false, Nat.zero_add]
        exact ih acc hacc
      · simp only [h1, if_true, true_or, ne_eq, h0, not_false_eq_true]
        rw [ih _ (Nat.mod_lt _ hu), Nat.mod_add_mod, Nat.add_assoc]
    · by_cases h2 : strings.HasPrefix e.fs.MountPoint (mp ++ lit "/") = true
      · have h2b : (mp ++ lit "/") <+: e.fs.MountPoint := (hasPrefix_iff _ _).1 h2
        by_cases h0 : e.used = 0
        · simp only [h1, h2, h2b, h0, if_true, if_false, or_true, ne_eq, not_true_eq_false,
            Nat.zero_add]
          exact ih acc hacc
        · simp only [h1, h2, h2b, if_true, if_false, or_true, ne_eq, h0, not_false_eq_true]
          rw [ih _ (Nat.mod_lt _ hu), Nat.mod_add_mod, Nat.add_assoc]
      · have h2b : ¬ (mp ++ lit "/") <+: e.fs.MountPoint := fun h => h2 ((hasPrefix_iff _ _).2 h)
        simp only [h1, h2, h2b, if_false, or_self, Nat.zero_add]
        exact ih acc hacc

theorem not_prefix_self_slash (mp : Str) : ¬ (mp ++ lit "/") <+: mp := by
  intro h
  have := h.length_le
  simp [lit] at this

theorem sum_own_children (mp : Str) (entries : List mountEntry) (e : mountEntry)
    (he : e ∈ entries) (hmp : e.fs.MountPoint = mp)
    (hnd : (entries.map (fun e => e.fs.MountPoint)).Nodup) :
    (entries.map (fun e =>
        if e.fs.MountPoint = mp ∨ (mp ++ lit "/") <+: e.fs.MountPoint then e.used else 0)).sum =
      e.used + childUsedSum entries mp := by
  unfold childUsedSum
  subst hmp
  induction entries with
  | nil => cases he
  | cons x xs ih =>
    rw [List.map_cons, List.nodup_cons] at hnd
    rw [List.map_cons, List.sum_cons]
    rcases List.mem_cons.1 he with rfl | hin
    · have hnp : ¬ (e.fs.MountPoint ++ lit "/") <+: e.fs.MountPoint :=
        not_prefix_self_slash _
      have hrest : ∀ y ∈ xs, y.fs.MountPoint ≠ e.fs.MountPoint := by
        intro y hy hy2
        exact hnd.1 (List.mem_map.2 ⟨y, hy, hy2⟩)
      have hsum : ∀ (l : List mountEntry), (∀ y ∈ l, y.fs.MountPoint ≠ e.fs.MountPoint) →
          (l.map (fun c =>
            if c.fs.MountPoint = e.fs.MountPoint ∨ (e.fs.MountPoint ++ lit "/") <+: c.fs.MountPoint
              then c.used else 0)).sum
            = ((l.filter (fun c => decide ((e.fs.MountPoint ++ lit "/") <+: c.fs.MountPoint))).map
                (fun c => c.used)).sum := by
        intro l
        induction l with
        | nil => intro _; rfl
        | cons y ys ihy =>
          intro hall
          have hy : y.fs.MountPoint ≠ e.fs.MountPoint := hall y (List.mem_cons_self _ _)
          have := ihy (fun z hz => hall z (List.mem_cons_of_mem _ hz))
          by_cases hp : (e.fs.MountPoint ++ lit "/") <+: y.fs.MountPoint
          · simp [hy, hp, List.filter_cons, this]
          · simp [hy, hp, List.filter_cons, this]
      simp only [true_or, if_true, List.filter_cons, hnp, decide_False, Bool.false_eq_true,
        if_false]
      rw [hsum xs hrest]
    · have hx : x.fs.MountPoint ≠ e.fs.MountPoint := by
        intro hx
        exact hnd.1 (List.mem_map.2 ⟨e, hin, hx.symm⟩)
      have := ih hin hnd.2
      by_cases hp : (e.fs.MountPoint ++ lit "/") <+: x.fs.MountPoint
      · simp only [hx, hp, false_or, if_true, List.filter_cons, decide_True, List.map_cons,
          List.sum_cons, this]
        omega
      · simp only [hx, hp, or_self, if_false, List.filter_cons, decide_False,
          Bool.false_eq_true, this, Nat.zero_add]

theorem usedSumOf_eq (entries : List mountEntry) (e : mountEntry)
    (he : e ∈ entries) (hnd : (entries.map (fun e => e.fs.MountPoint)).Nodup) :
    usedSumOf entries e.fs.MountPoint = (e.used + childUsedSum entries e.fs.MountPoint) % u64 := by
  unfold usedSumOf
  rw [usedSumOf_foldl _ _ 0 (by unfold u64; norm_num), Nat.zero_add,
    sum_own_children _ entries e he rfl hnd]

theorem topLevelMnt_secondPass (entries : List mountEntry) (e : mountEntry)
    (htop : topLevelMnt e.fs.MountPoint) :
    secondPass true entries e = some (mntFixed entries e) := by
  have hs : lit "/" = ['/'] := by decide
  have hp : strings.HasPrefix e.fs.MountPoint (lit "/mnt/") = true := (hasPrefix_iff _ _).2 htop.1
  have hc : strings.Contains (strings.TrimPrefix e.fs.MountPoint (lit "/mnt/")) (lit "/") = false := by
    rw [← Bool.not_eq_true, hs, contains_char_iff, strings.TrimPrefix, if_pos hp]
    exact htop.2
  simp [secondPass, hp, hc]

theorem mntFixed_mountPoint (entries : List mountEntry) (e : mountEntry) :
    (mntFixed entries e).MountPoint = e.fs.MountPoint := by
  simp only [mntFixed]
  split_ifs <;> rfl

theorem mntFixed_used (entries : List mountEntry) (e : mountEntry) :
    (mntFixed entries e).UsedBytes =
      some (if usedSumOf entries e.fs.MountPoint = 0 then e.used
        else usedSumOf entries e.fs.MountPoint) := by
  simp only [mntFixed]
  split_ifs <;> rfl

theorem secondPass_mountPoint (apply : Bool) (entries : List mountEntry) (e : mountEntry)
    (fs : Filesystem) (h : secondPass apply entries e = some fs) :
    fs.MountPoint = e.fs.MountPoint := by
  simp only [secondPass] at h
  split_ifs at h
  · cases h
    exact mntFixed_mountPoint entries e
  · cases h
    rfl

/-- C1 (amended): with the correction enabled, a retained top-level mount under
`/mnt/` is emitted, and the emitted entry has as `UsedBytes` the 64-bit sum of the
mount's own raw used bytes and the used bytes of the entries nested under it (the
mount's own raw used bytes when that sum is zero); without overflow this is the
plain sum of the two. -/
theorem collectFilesystems_mntfix_used (c : Collector) (data : Str)
    (statfs : Str → Option Statfs_t) (e : mountEntry)
    (he : e ∈ mountEntries statfs data) (htop : topLevelMnt e.fs.MountPoint) :
    (∃ fs ∈ (collectFilesystems c (.ok data) statfs true).1,
      fs.MountPoint = e.fs.MountPoint) ∧
    (∀ fs ∈ (collectFilesystems c (.ok data) statfs true).1,
      fs.MountPoint = e.fs.MountPoint →
        fs.UsedBytes =
          some (foldedUsed e.used (childUsedSum (mountEntries statfs data) e.fs.MountPoint))) ∧
    (e.used + childUsedSum (mountEntries statfs data) e.fs.MountPoint < u64 →
      foldedUsed e.used (childUsedSum (mountEntries statfs data) e.fs.MountPoint) =
        e.used + childUsedSum (mountEntries statfs data) e.fs.MountPoint) := by
  have hnd := mountEntries_nodup statfs data
  refine ⟨?_, ?_, ?_⟩
  · refine ⟨mntFixed (mountEntries statfs data) e, ?_, mntFixed_mountPoint _ _⟩
    simp only [collectFilesystems, List.mem_filterMap]
    exact ⟨e, he, topLevelMnt_secondPass _ e htop⟩
  · intro fs hfs hmp
    simp only [collectFilesystems, List.mem_filterMap] at hfs
    obtain ⟨e2, he2, hsp⟩ := hfs
    have hmp2 := secondPass_mountPoint _ _ _ _ hsp
    have heq : e2 = e :=
      List.inj_on_of_nodup_map hnd he2 he (by rw [← hmp2, hmp])
    subst heq
    rw [topLevelMnt_secondPass _ e2 htop] at hsp
    cases hsp
    rw [mntFixed_used, usedSumOf_eq _ e2 he hnd]
    rfl
  · intro hlt
    unfold foldedUsed
    rw [Nat.mod_eq_of_lt hlt]
    split
    · omega
    · rfl

/-- C1 at the mount-fix scenario: the emitted `/mnt/pool` entry has 150 used bytes,
its own 100 and the 30 and 20 of the two datasets. -/
theorem collectFilesystems_mntfix_used_witness :
    (∃ fs ∈ (collectFilesystems freshCollector (.ok mntFixInput) mntFixStatfs true).1,
      fs.MountPoint = lit "/mnt/pool") ∧
    (∀ fs ∈ (collectFilesystems freshCollector (.ok mntFixInput) mntFixStatfs true).1,
      fs.MountPoint = lit "/mnt/pool" → fs.UsedBytes = some 150) :=
  have h := collectFilesystems_mntfix_used freshCollector mntFixInput mntFixStatfs mntFixPool
    (List.mem_of_mem_head? (show (mountEntries mntFixStatfs mntFixInput).head? = some mntFixPool
      from rfl)) (by decide)
  ⟨h.1, h.2.1⟩

/-- C1 as stated fails at the mount-fix scenario: the children of `/mnt/pool` sum to
50 used bytes, but the only emitted entry is `/mnt/pool` with used 150, available
50 and total 200, not used 50 and total 100. -/
theorem mntfix_scenario_counterexample :
    childUsedSum (mountEntries mntFixStatfs mntFixInput) (lit "/mnt/pool") = 50 ∧
    (collectFilesystems freshCollector (.ok mntFixInput) mntFixStatfs true).1.map
        (fun fs => (fs.MountPoint, fs.UsedBytes, fs.AvailableBytes, fs.TotalBytes)) =
      [(lit "/mnt/pool", some 150, some 50, some 200)] ∧
    ¬ (∃ fs ∈ (collectFilesystems freshCollector (.ok mntFixInput) mntFixStatfs true).1,
      fs.MountPoint = lit "/mnt/pool" ∧ fs.UsedBytes = some 50 ∧
        fs.AvailableBytes = some 50 ∧ fs.TotalBytes = some 100) := by
  refine ⟨by decide, by decide, by decide⟩

theorem keyedStep_store_other {α S D : Type} (R : α → Prop) [DecidablePred R] (key : α → Str)
    (snap : α → S) (emit : Option S → α → D) (st : (Str → Option S) × List D) (l : List α) (k : Str)
    (h : ∀ a ∈ l, R a → key a ≠ k) :
    (l.foldl (keyedStep R key snap emit) st).1 k = st.1 k := by
  induction l generalizing st with
  | nil => rfl
  | cons a as ih =>
    rw [List.foldl_cons, ih _ (fun b hb => h b (List.mem_cons_of_mem _ hb))]
    unfold keyedStep
    by_cases hr : R a
    · have : k ≠ key a := fun hk => h a (List.mem_cons_self _ _) hr hk.symm
      simp [hr, this]
    · simp [hr]

theorem keyedStep_store_last {α S D : Type} (R : α → Prop) [DecidablePred R] (key : α → Str)
    (snap : α → S) (emit : Option S → α → D) (st : (Str → Option S) × List D) (pre post : List α) (a : α)
    (hr : R a) (h : ∀ b ∈ post, R b → key b ≠ key a) :
    ((pre ++ a :: post).foldl (keyedStep R key snap emit) st).1 (key a) = some (snap a) := by
  rw [List.foldl_append, List.foldl_cons, keyedStep_store_other R key snap emit _ post _ h]
  simp [keyedStep, hr]

theorem keyedStep_store_cases {α S D : Type} (R : α → Prop) [DecidablePred R] (key : α → Str)
    (snap : α → S) (emit : Option S → α → D) (st : (Str → Option S) × List D) (l : List α) (k : Str) :
    (l.foldl (keyedStep R key snap emit) st).1 k = st.1 k ∨
      ∃ a ∈ l, R a ∧ key a = k ∧ (l.foldl (keyedStep R key snap emit) st).1 k = some (snap a) := by
  induction l using List.reverseRecOn with
  | nil => exact Or.inl rfl
  | append_singleton as a ih =>
    rw [List.foldl_append, List.foldl_cons, List.foldl_nil]
    by_cases hr : R a
    · by_cases hk : k = key a
      · right
        exact ⟨a, by simp, hr, hk.symm, by simp [keyedStep, hr, hk]⟩
      · have : (keyedStep R key snap emit (as.foldl (keyedStep R key snap emit) st) a).1 k =
            (as.foldl (keyedStep R key snap emit) st).1 k := by
          simp [keyedStep, hr, hk]
        rw [this]
        rcases ih with h | ⟨b, hb, hrb, hkb, hs⟩
        · exact Or.inl h
        · exact Or.inr ⟨b, by simp [hb], hrb, hkb, hs⟩
    · have : keyedStep R key snap emit (as.foldl (keyedStep R key snap emit) st) a =
          as.foldl (keyedStep R key snap emit) st := by
        simp [keyedStep, hr]
      rw [this]
      rcases ih with h | ⟨b, hb, hrb, hkb, hs⟩
      · exact Or.inl h
      · exact Or.inr ⟨b, by simp [hb], hrb, hkb, hs⟩

theorem keyedStep_store_some {α S D : Type} (R : α → Prop) [DecidablePred R] (key : α → Str)
    (snap : α → S) (emit : Option S → α → D) (st : (Str → Option S) × List D) (l : List α) (k : Str)
    (h : st.1 k ≠ none) : (l.foldl (keyedStep R key snap emit) st).1 k ≠ none := by
  rcases keyedStep_store_cases R key snap emit st l k with h1 | ⟨a, _, _, _, h2⟩
  · rw [h1]; exact h
  · rw [h2]; simp

theorem keyedStep_out {α S D : Type} (R : α → Prop) [DecidablePred R] (key : α → Str)
    (snap : α → S) (emit : Option S → α → D) (st : (Str → Option S) × List D) (l : List α) (d : D) :
    d ∈ (l.foldl (keyedStep R key snap emit) st).2 ↔
      d ∈ st.2 ∨ ∃ pre a post, l = pre ++ a :: post ∧ R a ∧
        d = emit ((pre.foldl (keyedStep R key snap emit) st).1 (key a)) a := by
  induction l using List.reverseRecOn with
  | nil => simp
  | append_singleton as a ih =>
    rw [List.foldl_append, List.foldl_cons, List.foldl_nil]
    by_cases hr : R a
    · have : (keyedStep R key snap emit (as.foldl (keyedStep R key snap emit) st) a).2 =
          (as.foldl (keyedStep R key snap emit) st).2 ++
            [emit ((as.foldl (keyedStep R key snap emit) st).1 (key a)) a] := by
        simp [keyedStep, hr]
      rw [this, List.mem_append, ih, List.mem_singleton]
      constructor
      · rintro ((h | ⟨pre, b, post, hl, hb, hd⟩) | h)
        · exact Or.inl h
        · exact Or.inr ⟨pre, b, post ++ [a], by simp [hl], hb, hd⟩
        · exact Or.inr ⟨as, a, [], rfl, hr, h⟩
      · rintro (h | ⟨pre, b, post, hl, hb, hd⟩)
        · exact Or.inl (Or.inl h)
        · rcases List.eq_nil_or_concat post with rfl | ⟨post2, x, rfl⟩
          · have := List.append_inj' hl rfl
            obtain ⟨h1, h2⟩ := this
            cases h2
            subst h1
            exact Or.inr hd
          · rw [List.concat_eq_append, ← List.cons_append, ← List.append_assoc] at hl
            have := List.append_inj' hl rfl
            exact Or.inl (Or.inr ⟨pre, b, post2, this.1, hb, hd⟩)
    · have : keyedStep R key snap emit (as.foldl (keyedStep R key snap emit) st) a =
          as.foldl (keyedStep R key snap emit) st := by
        simp [keyedStep, hr]
      rw [this, ih]
      constructor
      · rintro (h | ⟨pre, b, post, hl, hb, hd⟩)
        · exact Or.inl h
        · exact Or.inr ⟨pre, b, post ++ [a], by simp [hl], hb, hd⟩
      · rintro (h | ⟨pre, b, post, hl, hb, hd⟩)
        · exact Or.inl h
        · rcases List.eq_nil_or_concat post with rfl | ⟨post2, x, rfl⟩
          · have := List.append_inj' hl rfl
            obtain ⟨h1, h2⟩ := this
            cases h2
            exact absurd hb hr
          · rw [List.concat_eq_append, ← List.cons_append, ← List.append_assoc] at hl
            have := List.append_inj' hl rfl
            exact Or.inr ⟨pre, b, post2, this.1, hb, hd⟩

/-- When a key stands on exactly one retained element, no other retained element of a
decomposition around that element carries it. -/
theorem count_one_split {α : Type} (R : α → Prop) [DecidablePred R] (key : α → Str)
    (pre post : List α) (a : α) (hr : R a)
    (hc : (((pre ++ a :: post).filter (fun x => decide (R x))).map key).count (key a) = 1) :
    (∀ b ∈ pre, R b → key b ≠ key a) ∧ (∀ b ∈ post, R b → key b ≠ key a) := by
  rw [List.filter_append, List.filter_cons] at hc
  simp only [hr, decide_True, if_true, List.map_append, List.map_cons, List.count_append,
    List.count_cons_self] at hc
  have h1 : ((pre.filter (fun x => decide (R x))).map key).count (key a) = 0 := by omega
  have h2 : ((post.filter (fun x => decide (R x))).map key).count (key a) = 0 := by omega
  rw [List.count_eq_zero] at h1 h2
  constructor
  · intro b hb hrb hk
    exact h1 (List.mem_map.2 ⟨b, List.mem_filter.2 ⟨hb, by simpa using hrb⟩, hk⟩)
  · intro b hb hrb hk
    exact h2 (List.mem_map.2 ⟨b, List.mem_filter.2 ⟨hb, by simpa using hrb⟩, hk⟩)

theorem diskLine_keyed (now : Int) :
    diskLine now = keyedStep diskRetained diskName (diskSnap now) (diskDev now) := by
  funext st line
  rw [diskLine_eq]
  rfl

theorem netLine_keyed (now : Int) (macFile : Str → Option Str) :
    netLine now macFile = keyedStep netRetained netName (netSnap now) (netDev now macFile) := by
  funext st line
  unfold netLine keyedStep netRetained
  by_cases h2 : (strings.Split line ':').length = 2
  · by_cases hlo : netName line = lit "lo"
    · have hlo2 : strings.TrimSpace (idx (strings.Split line ':') 0) = lit "lo" := hlo
      simp [h2, hlo, hlo2]
    · have hlo2 : ¬ strings.TrimSpace (idx (strings.Split line ':') 0) = lit "lo" := hlo
      by_cases h16 : (strings.Fields (idx (strings.Split line ':') 1)).length < 16
      · have : ¬ 16 ≤ (strings.Fields (idx (strings.Split line ':') 1)).length := by
          omega
        simp [h2, hlo2, h16, this]
      · have h16b : 16 ≤ (strings.Fields (idx (strings.Split line ':') 1)).length := by
          omega
        simp only [h2, hlo, hlo2, h16, h16b, ne_eq, not_true_eq_false, not_false_eq_true,
          if_false, and_self, if_true]
        rfl
  · simp [h2]

theorem timeSub_pos (t u : Int) : 0 < timeSub t u ↔ u < t := by
  unfold timeSub
  split_ifs <;> constructor <;> intro h <;> omega

theorem Seconds_pos (d : Int) : Seconds d > 0 ↔ 0 < d := by
  unfold Seconds
  constructor
  · intro h
    have h2 : (0 : ℚ) < (d : ℚ) := by
      have := (div_pos_iff_of_pos_right (by norm_num : (0 : ℚ) < 1000000000)).1 h
      exact this
    exact_mod_cast h2
  · intro h
    have h2 : (0 : ℚ) < (d : ℚ) := by exact_mod_cast h
    positivity

theorem elapsed_pos (t u : Int) : Seconds (timeSub t u) > 0 ↔ u < t := by
  rw [Seconds_pos, timeSub_pos]

theorem subU64_self (a : Nat) : subU64 a a = 0 := by
  simp [subU64]

theorem subU64_of_le (a b : Nat) (hab : b ≤ a) (ha : a < 2 ^ 64) : subU64 a b = a - b := by
  unfold subU64
  have h1 : ((a : Int) - (b : Int)) = ((a - b : Nat) : Int) := by omega
  rw [h1]
  have h2 : ((a - b : Nat) : Int) % (2 : Int) ^ 64 = ((a - b : Nat) : Int) := by
    apply Int.emod_eq_of_lt
    · omega
    · have : (a - b : Nat) < 2 ^ 64 := by omega
      exact_mod_cast this
  rw [h2]
  simp

theorem deltaU64_self (a : Nat) : deltaU64 a a = 0 := by
  simp [deltaU64, subU64_self]

theorem deltaU64_nonneg (a b : Nat) : 0 ≤ deltaU64 a b := by
  unfold deltaU64
  exact Nat.cast_nonneg _

theorem diskRates_none (now : Int) (name : Str) (a b c d : Nat) :
    diskRates now none name a b c d = { Name := name } := rfl

theorem diskRates_stale (now : Int) (p : diskSnapshot) (name : Str) (a b c d : Nat)
    (h : ¬ p.timestamp < now) : diskRates now (some p) name a b c d = { Name := name } := by
  have : ¬ Seconds (timeSub now p.timestamp) > 0 := by rwa [elapsed_pos]
  simp [diskRates, this]

theorem diskRates_some (now : Int) (p : diskSnapshot) (name : Str) (a b c d : Nat)
    (h : p.timestamp < now) :
    diskRates now (some p) name a b c d =
      { Name := name
        ReadBytesPerSec := some (deltaU64 a p.readBytes / Seconds (timeSub now p.timestamp))
        WriteBytesPerSec := some (deltaU64 b p.writeBytes / Seconds (timeSub now p.timestamp))
        ReadsPerSec := some (deltaU64 c p.readOps / Seconds (timeSub now p.timestamp))
        WritesPerSec := some (deltaU64 d p.writeOps / Seconds (timeSub now p.timestamp)) } := by
  have : Seconds (timeSub now p.timestamp) > 0 := by rwa [elapsed_pos]
  simp [diskRates, this]

theorem netRates_none (now : Int) (name : Str) (a b : Nat) :
    netRates now none name a b = { Name := name } := rfl

theorem netRates_stale (now : Int) (p : networkSnapshot) (name : Str) (a b : Nat)
    (h : ¬ p.timestamp < now) : netRates now (some p) name a b = { Name := name } := by
  have : ¬ Seconds (timeSub now p.timestamp) > 0 := by rwa [elapsed_pos]
  simp [netRates, this]

theorem netRates_some (now : Int) (p : networkSnapshot) (name : Str) (a b : Nat)
    (h : p.timestamp < now) :
    netRates now (some p) name a b =
      { Name := name
        RxBytesPerSec := some (deltaU64 a p.rxBytes / Seconds (timeSub now p.timestamp))
        TxBytesPerSec := some (deltaU64 b p.txBytes / Seconds (timeSub now p.timestamp)) } := by
  have : Seconds (timeSub now p.timestamp) > 0 := by rwa [elapsed_pos]
  simp [netRates, this]

theorem enrich_rates (mac : Option Str) (i : NetworkInterface) :
    (enrichNetworkInterface mac i).Name = i.Name ∧
    (enrichNetworkInterface mac i).RxBytesPerSec = i.RxBytesPerSec ∧
    (enrichNetworkInterface mac i).TxBytesPerSec = i.TxBytesPerSec := by
  cases mac with
  | none => exact ⟨rfl, rfl, rfl⟩
  | some m =>
    simp only [enrichNetworkInterface]
    split_ifs <;> exact ⟨rfl, rfl, rfl⟩

theorem logError_store (c : Collector) (a b : Str) :
    (logError c a b).prevCPU = c.prevCPU ∧ (logError c a b).prevDisk = c.prevDisk ∧
      (logError c a b).prevNetwork = c.prevNetwork := by
  simp only [logError]
  split_ifs <;> exact ⟨rfl, rfl, rfl⟩

theorem cpuLoadavg_rates (pf : Str → Option ℚ) (la : Option Str) (s : CPUStats) :
    (cpuLoadavg pf la s).Available = s.Available ∧
    (cpuLoadavg pf la s).UsagePercent = s.UsagePercent ∧
    (cpuLoadavg pf la s).IowaitPercent = s.IowaitPercent ∧
    (cpuLoadavg pf la s).StealPercent = s.StealPercent ∧
    (cpuLoadavg pf la s).CoreCount = s.CoreCount := by
  cases la with
  | none => exact ⟨rfl, rfl, rfl, rfl, rfl⟩
  | some d =>
    simp only [cpuLoadavg]
    split_ifs
    · cases pf (idx (strings.Fields d) 0) <;> cases pf (idx (strings.Fields d) 1) <;>
        cases pf (idx (strings.Fields d) 2) <;> exact ⟨rfl, rfl, rfl, rfl, rfl⟩
    · exact ⟨rfl, rfl, rfl, rfl, rfl⟩

theorem cpuCoreCount_rates (ci : Option Str) (s : CPUStats) :
    (cpuCoreCount ci s).Available = s.Available ∧
    (cpuCoreCount ci s).UsagePercent = s.UsagePercent ∧
    (cpuCoreCount ci s).IowaitPercent = s.IowaitPercent ∧
    (cpuCoreCount ci s).StealPercent = s.StealPercent := by
  simp only [cpuCoreCount]
  split_ifs <;> exact ⟨rfl, rfl, rfl, rfl⟩

/-- The three percentages and the flag of `collectCPU` on a readable `stat` file are
those of the loop over its lines. -/
theorem collectCPU_rates (c : Collector) (data : Str) (now : Int) (ci la : Option Str)
    (pf : Str → Option ℚ) :
    (collectCPU c (.ok data) now ci la pf).1.Available = (cpuStatBlock c data now).1.Available ∧
    (collectCPU c (.ok data) now ci la pf).1.UsagePercent =
      (cpuStatBlock c data now).1.UsagePercent ∧
    (collectCPU c (.ok data) now ci la pf).1.IowaitPercent =
      (cpuStatBlock c data now).1.IowaitPercent ∧
    (collectCPU c (.ok data) now ci la pf).1.StealPercent =
      (cpuStatBlock c data now).1.StealPercent := by
  obtain ⟨h1, h2, h3, h4, _⟩ := cpuLoadavg_rates pf la (cpuCoreCount ci (cpuStatBlock c data now).1)
  obtain ⟨g1, g2, g3, g4⟩ := cpuCoreCount_rates ci (cpuStatBlock c data now).1
  simp only [collectCPU]
  exact ⟨h1.trans g1, h2.trans g2, h3.trans g3, h4.trans g4⟩

theorem cpuRates_first (k : cpuCounters) (s : CPUStats) : cpuRates none k s = s := rfl

/-- The percentages are all present or all absent, and `Available` follows them. -/
theorem cpuRates_cases (prev : Option cpuSnapshot) (k : cpuCounters) :
    (cpuRates prev k { Available := false } = { Available := false }) ∨
    (∃ p, prev = some p ∧ deltaU64 k.total p.total > 0 ∧
      cpuRates prev k { Available := false } =
        { Available := true
          UsagePercent := some (((deltaU64 k.total p.total - deltaU64 k.idle p.idle) /
            deltaU64 k.total p.total) * 100)
          IowaitPercent := some ((deltaU64 k.iowait p.iowait / deltaU64 k.total p.total) * 100)
          StealPercent := some ((deltaU64 k.steal p.steal / deltaU64 k.total p.total) * 100) }) := by
  cases prev with
  | none => exact Or.inl rfl
  | some p =>
    by_cases h : deltaU64 k.total p.total > 0
    · right
      exact ⟨p, rfl, h, by simp [cpuRates, h]⟩
    · left
      simp [cpuRates, h]

theorem collectCPU_store (c : Collector) (stat : Except Str Str) (now : Int) (ci la : Option Str)
    (pf : Str → Option ℚ) :
    (collectCPU c stat now ci la pf).2.prevDisk = c.prevDisk ∧
    (collectCPU c stat now ci la pf).2.prevNetwork = c.prevNetwork ∧
    (collectCPU c stat now ci la pf).2.prevCPU =
      (match stat with
        | .error _ => c.prevCPU
        | .ok data =>
          match cpuLine data with
          | none => c.prevCPU
          | some k =>
            some { timestamp := now, total := k.total, idle := k.idle, iowait := k.iowait,
                   steal := k.steal }) := by
  cases stat with
  | error e =>
    obtain ⟨h1, h2, h3⟩ := logError_store c (lit "cpu") (lit "failed to read /proc/stat: " ++ e)
    exact ⟨h2, h3, h1⟩
  | ok data =>
    simp only [collectCPU, cpuStatBlock]
    cases cpuLine data <;> exact ⟨rfl, rfl, rfl⟩

theorem collectMemory_store (c : Collector) (meminfo : Except Str Str) (pr : Option Str)
    (pf : Str → Option ℚ) :
    (collectMemory c meminfo pr pf).2.prevCPU = c.prevCPU ∧
    (collectMemory c meminfo pr pf).2.prevDisk = c.prevDisk ∧
    (collectMemory c meminfo pr pf).2.prevNetwork = c.prevNetwork := by
  cases meminfo with
  | error e => exact logError_store c _ _
  | ok data => exact ⟨rfl, rfl, rfl⟩

theorem collectDiskDevices_store (c : Collector) (file : Except Str Str) (now : Int) :
    (collectDiskDevices c file now).2.prevCPU = c.prevCPU ∧
    (collectDiskDevices c file now).2.prevNetwork = c.prevNetwork := by
  cases file with
  | error e =>
    obtain ⟨h1, _, h3⟩ := logError_store c (lit "disk") (lit "failed to read /proc/diskstats: " ++ e)
    exact ⟨h1, h3⟩
  | ok data => exact ⟨rfl, rfl⟩

theorem collectFilesystems_store (c : Collector) (mounts : Except Str Str)
    (statfs : Str → Option Statfs_t) (apply : Bool) :
    (collectFilesystems c mounts statfs apply).2.prevCPU = c.prevCPU ∧
    (collectFilesystems c mounts statfs apply).2.prevDisk = c.prevDisk ∧
    (collectFilesystems c mounts statfs apply).2.prevNetwork = c.prevNetwork := by
  cases mounts with
  | error e => exact logError_store c _ _
  | ok data => exact ⟨rfl, rfl, rfl⟩

/-- The devices and the disk store of `collectDiskDevices` depend on the state only
through the disk store. -/
theorem collectDiskDevices_congr (c c2 : Collector) (file : Except Str Str) (now : Int)
    (h : c.prevDisk = c2.prevDisk) :
    (collectDiskDevices c file now).1 = (collectDiskDevices c2 file now).1 ∧
    (collectDiskDevices c file now).2.prevDisk = (collectDiskDevices c2 file now).2.prevDisk := by
  cases file with
  | error e =>
    refine ⟨rfl, ?_⟩
    simp only [collectDiskDevices]
    rw [(logError_store c _ _).2.1, (logError_store c2 _ _).2.1, h]
  | ok data =>
    simp only [collectDiskDevices, h]
    exact ⟨trivial, trivial⟩

theorem collectNetwork_congr (c c2 : Collector) (file : Except Str Str) (now : Int)
    (mac : Str → Option Str) (h : c.prevNetwork = c2.prevNetwork) :
    (collectNetwork c file now mac).1 = (collectNetwork c2 file now mac).1 ∧
    (collectNetwork c file now mac).2.prevNetwork =
      (collectNetwork c2 file now mac).2.prevNetwork := by
  cases file with
  | error e =>
    refine ⟨rfl, ?_⟩
    simp only [collectNetwork]
    rw [(logError_store c _ _).2.2, (logError_store c2 _ _).2.2, h]
  | ok data =>
    simp only [collectNetwork, h]
    exact ⟨trivial, trivial⟩

theorem collectNetwork_store (c : Collector) (file : Except Str Str) (now : Int)
    (mac : Str → Option Str) :
    (collectNetwork c file now mac).2.prevCPU = c.prevCPU ∧
    (collectNetwork c file now mac).2.prevDisk = c.prevDisk := by
  cases file with
  | error e =>
    obtain ⟨h1, h2, _⟩ := logError_store c (lit "network") (lit "failed to read /proc/net/dev: " ++ e)
    exact ⟨h1, h2⟩
  | ok data => exact ⟨rfl, rfl⟩

theorem collectDisk_devices (c : Collector) (diskstats : Except Str Str) (now : Int)
    (mounts : Except Str Str) (statfs : Str → Option Statfs_t) (apply : Bool) :
    (collectDisk c diskstats now mounts statfs apply).1.Devices =
      (collectDiskDevices c diskstats now).1 := by
  simp only [collectDisk]
  cases h : (collectDiskDevices c diskstats now).1 with
  | nil => split_ifs <;> simp_all
  | cons d ds => split_ifs <;> simp_all

theorem collectDisk_store (c : Collector) (diskstats : Except Str Str) (now : Int)
    (mounts : Except Str Str) (statfs : Str → Option Statfs_t) (apply : Bool) :
    (collectDisk c diskstats now mounts statfs apply).2.prevCPU = c.prevCPU ∧
    (collectDisk c diskstats now mounts statfs apply).2.prevDisk =
      (collectDiskDevices c diskstats now).2.prevDisk ∧
    (collectDisk c diskstats now mounts statfs apply).2.prevNetwork = c.prevNetwork := by
  simp only [collectDisk]
  obtain ⟨h1, h2, h3⟩ := collectFilesystems_store (collectDiskDevices c diskstats now).2 mounts
    statfs apply
  obtain ⟨g1, g3⟩ := collectDiskDevices_store c diskstats now
  exact ⟨h1.trans g1, h2, h3.trans g3⟩

theorem Collect_cpu (c : Collector) (env : Env) :
    (Collect c env).1.CPU =
      some (collectCPU { c with errors := [] } env.stat env.nowCPU env.cpuinfo env.loadavg
        env.parseFloat).1 ∧
    (Collect c env).2.prevCPU =
      (collectCPU { c with errors := [] } env.stat env.nowCPU env.cpuinfo env.loadavg
        env.parseFloat).2.prevCPU := by
  refine ⟨rfl, ?_⟩
  simp only [Collect]
  rw [(collectNetwork_store _ _ _ _).1, (collectDisk_store _ _ _ _ _ _).1,
    (collectMemory_store _ _ _ _).1]

theorem Collect_disk (c : Collector) (env : Env) :
    (∃ disk, (Collect c env).1.Disk = some disk ∧
      disk.Devices = (collectDiskDevices c env.diskstats env.nowDisk).1) ∧
    (Collect c env).2.prevDisk = (collectDiskDevices c env.diskstats env.nowDisk).2.prevDisk := by
  have hpre : (collectMemory (collectCPU { c with errors := [] } env.stat env.nowCPU env.cpuinfo
      env.loadavg env.parseFloat).2 env.meminfo env.pressure env.parseFloat).2.prevDisk =
      c.prevDisk := by
    rw [(collectMemory_store _ _ _ _).2.1, (collectCPU_store _ _ _ _ _ _).1]
  obtain ⟨h1, h2⟩ := collectDiskDevices_congr _ c env.diskstats env.nowDisk hpre
  constructor
  · refine ⟨_, rfl, ?_⟩
    rw [collectDisk_devices, h1]
  · simp only [Collect]
    rw [(collectNetwork_store _ _ _ _).2, (collectDisk_store _ _ _ _ _ _).2.1, h2]

theorem Collect_net (c : Collector) (env : Env) :
    (∃ net, (Collect c env).1.Network = some net ∧
      net = (collectNetwork c env.netdev env.nowNet env.macFile).1) ∧
    (Collect c env).2.prevNetwork =
      (collectNetwork c env.netdev env.nowNet env.macFile).2.prevNetwork := by
  have hpre : (collectDisk (collectMemory (collectCPU { c with errors := [] } env.stat env.nowCPU
      env.cpuinfo env.loadavg env.parseFloat).2 env.meminfo env.pressure env.parseFloat).2
      env.diskstats env.nowDisk env.mounts env.statfs env.applyFix).2.prevNetwork =
      c.prevNetwork := by
    rw [(collectDisk_store _ _ _ _ _ _).2.2, (collectMemory_store _ _ _ _).2.2,
      (collectCPU_store _ _ _ _ _ _).2.1]
  obtain ⟨h1, h2⟩ := collectNetwork_congr _ c env.netdev env.nowNet env.macFile hpre
  constructor
  · exact ⟨_, rfl, h1⟩
  · simp only [Collect]
    exact h2

theorem zero_rate (a : Nat) (e : ℚ) : deltaU64 a a / e = 0 := by
  rw [deltaU64_self, zero_div]

theorem disk_second_pass (m : Str → Option diskSnapshot) (lines : List Str) (now1 now2 : Int)
    (ht : now1 < now2) (d : DiskDevice)
    (hd : d ∈ (lines.foldl (diskLine now2) ((lines.foldl (diskLine now1) (m, [])).1, [])).2)
    (hc : ((lines.filter (fun l => decide (diskRetained l))).map diskName).count d.Name = 1) :
    d.ReadBytesPerSec = some 0 ∧ d.WriteBytesPerSec = some 0 ∧ d.ReadsPerSec = some 0 ∧
      d.WritesPerSec = some 0 := by
  rw [diskLine_keyed, diskLine_keyed] at hd
  rw [keyedStep_out] at hd
  rcases hd with hd | ⟨pre, a, post, hl, hr, hde⟩
  · cases hd
  · have hname : d.Name = diskName a := by rw [hde]; exact diskRates_name _ _ _ _ _ _ _
    rw [hname, hl] at hc
    obtain ⟨hpre, hpost⟩ := count_one_split diskRetained diskName pre post a hr hc
    rw [keyedStep_store_other _ _ _ _ _ pre _ hpre] at hde
    simp only at hde
    rw [hl, keyedStep_store_last _ _ _ _ _ pre post a hr hpost] at hde
    rw [hde, diskDev, diskRates_some now2 (diskSnap now1 a) _ _ _ _ _ ht]
    simp only [diskSnap, zero_rate, and_self]

theorem net_second_pass (m : Str → Option networkSnapshot) (lines : List Str) (now1 now2 : Int)
    (mac1 mac2 : Str → Option Str) (ht : now1 < now2) (i : NetworkInterface)
    (hi : i ∈ (lines.foldl (netLine now2 mac2)
      ((lines.foldl (netLine now1 mac1) (m, [])).1, [])).2)
    (hc : ((lines.filter (fun l => decide (netRetained l))).map netName).count i.Name = 1) :
    i.RxBytesPerSec = some 0 ∧ i.TxBytesPerSec = some 0 := by
  rw [netLine_keyed, netLine_keyed] at hi
  rw [keyedStep_out] at hi
  rcases hi with hi | ⟨pre, a, post, hl, hr, hie⟩
  · cases hi
  · have hname : i.Name = netName a := by
      rw [hie, netDev, (enrich_rates _ _).1]
      cases (List.foldl (keyedStep netRetained netName (netSnap now2) (netDev now2 mac2))
        ((List.foldl (keyedStep netRetained netName (netSnap now1) (netDev now1 mac1))
          (m, []) lines).1, []) pre).1 (netName a) with
      | none => rfl
      | some p =>
        simp only [netRates]
        split_ifs <;> rfl
    rw [hname, hl] at hc
    obtain ⟨hpre, hpost⟩ := count_one_split netRetained netName pre post a hr hc
    rw [keyedStep_store_other _ _ _ _ _ pre _ hpre] at hie
    simp only at hie
    rw [hl, keyedStep_store_last _ _ _ _ _ pre post a hr hpost] at hie
    rw [hie, netDev, (enrich_rates _ _).2.1, (enrich_rates _ _).2.2,
      netRates_some now2 (netSnap now1 a) _ _ _ ht]
    simp only [netSnap, zero_rate, and_self]

theorem cpu_second_pass (k : cpuCounters) (now : Int) :
    cpuRates
        (some
          { timestamp := now, total := k.total, idle := k.idle, iowait := k.iowait,
            steal := k.steal })
        k { Available := false } = { Available := false } := by
  simp [cpuRates, deltaU64_self]

theorem collect_twice_cpu (c : Collector) (env1 env2 : Env) (hstat : env2.stat = env1.stat) :
    ∃ cpu, (Collect (Collect c env1).2 env2).1.CPU = some cpu ∧ cpu.UsagePercent = none ∧
      cpu.IowaitPercent = none ∧ cpu.StealPercent = none := by
  refine ⟨_, (Collect_cpu _ _).1, ?_⟩
  rw [hstat]
  cases hs : env1.stat with
  | error e => exact ⟨rfl, rfl, rfl⟩
  | ok data =>
    obtain ⟨_, h2, h3, h4⟩ := collectCPU_rates { (Collect c env1).2 with errors := [] } data
      env2.nowCPU env2.cpuinfo env2.loadavg env2.parseFloat
    rw [h2, h3, h4]
    cases hk : cpuLine data with
    | none =>
      simp only [cpuStatBlock, hk, and_self]
    | some k =>
      have hprev : (Collect c env1).2.prevCPU =
          some { timestamp := env1.nowCPU, total := k.total, idle := k.idle, iowait := k.iowait,
                 steal := k.steal } := by
        rw [(Collect_cpu c env1).2, hs]
        simp only [collectCPU, cpuStatBlock, hk]
      simp only [cpuStatBlock, hk, hprev, cpu_second_pass, and_self]

theorem collect_twice_disk (c : Collector) (env1 env2 : Env) (data : Str)
    (h1 : env1.diskstats = .ok data) (h2 : env2.diskstats = .ok data)
    (ht : env1.nowDisk < env2.nowDisk) (d : DiskDevice)
    (hd : d ∈ (Collect (Collect c env1).2 env2).1.devices)
    (hc : (diskNames data).count d.Name = 1) :
    d.ReadBytesPerSec = some 0 ∧ d.WriteBytesPerSec = some 0 ∧ d.ReadsPerSec = some 0 ∧
      d.WritesPerSec = some 0 := by
  obtain ⟨⟨disk, hdisk, hdev⟩, _⟩ := Collect_disk (Collect c env1).2 env2
  have hstore := (Collect_disk c env1).2
  simp only [RemoteLinuxStats.devices, hdisk, hdev] at hd
  rw [h2] at hd
  rw [h1] at hstore
  simp only [collectDiskDevices] at hd hstore
  rw [hstore] at hd
  exact disk_second_pass c.prevDisk _ _ _ ht d hd hc

theorem collect_twice_net (c : Collector) (env1 env2 : Env) (data : Str)
    (h1 : env1.netdev = .ok data) (h2 : env2.netdev = .ok data)
    (ht : env1.nowNet < env2.nowNet) (i : NetworkInterface)
    (hi : i ∈ (Collect (Collect c env1).2 env2).1.interfaces)
    (hc : (netNames data).count i.Name = 1) :
    i.RxBytesPerSec = some 0 ∧ i.TxBytesPerSec = some 0 := by
  obtain ⟨⟨net, hnet, hdev⟩, _⟩ := Collect_net (Collect c env1).2 env2
  have hstore := (Collect_net c env1).2
  simp only [RemoteLinuxStats.interfaces, hnet, hdev] at hi
  rw [h2] at hi
  rw [h1] at hstore
  simp only [collectNetwork] at hi hstore
  rw [hstore] at hi
  exact net_second_pass c.prevNetwork _ _ _ _ _ ht i hi hc

/-- C3 (amended): over two successive passes of `Collect` with the same `stat`,
`diskstats` and `net/dev` texts and a later clock reading in the second, the second
document has no CPU percentage (the guard `deltaTotal > 0` fails on a zero delta),
and every disk device and network interface named on exactly one retained line has
all its rates present and equal to zero. -/
theorem collect_twice_same_input (c : Collector) (env1 env2 : Env)
    (hstat : env2.stat = env1.stat) (hdisk : env2.diskstats = env1.diskstats)
    (hnet : env2.netdev = env1.netdev)
    (htd : env1.nowDisk < env2.nowDisk) (htn : env1.nowNet < env2.nowNet) :
    (∃ cpu, (Collect (Collect c env1).2 env2).1.CPU = some cpu ∧ cpu.UsagePercent = none ∧
      cpu.IowaitPercent = none ∧ cpu.StealPercent = none) ∧
    (∀ data, env1.diskstats = .ok data →
      ∀ d ∈ (Collect (Collect c env1).2 env2).1.devices, (diskNames data).count d.Name = 1 →
        d.ReadBytesPerSec = some 0 ∧ d.WriteBytesPerSec = some 0 ∧ d.ReadsPerSec = some 0 ∧
          d.WritesPerSec = some 0) ∧
    (∀ data, env1.netdev = .ok data →
      ∀ i ∈ (Collect (Collect c env1).2 env2).1.interfaces, (netNames data).count i.Name = 1 →
        i.RxBytesPerSec = some 0 ∧ i.TxBytesPerSec = some 0) := by
  refine ⟨collect_twice_cpu c env1 env2 hstat, ?_, ?_⟩
  · intro data h1 d hd hc
    exact collect_twice_disk c env1 env2 data h1 (hdisk.trans h1) htd d hd hc
  · intro data h1 i hi hc
    exact collect_twice_net c env1 env2 data h1 (hnet.trans h1) htn i hi hc

theorem keyedStep_names {α S D : Type} (R : α → Prop) [DecidablePred R] (key : α → Str)
    (snap : α → S) (emit : Option S → α → D) (nm : D → Str)
    (hnm : ∀ p a, nm (emit p a) = key a) (st : (Str → Option S) × List D) (l : List α) :
    (l.foldl (keyedStep R key snap emit) st).2.map nm =
      st.2.map nm ++ (l.filter (fun a => decide (R a))).map key := by
  induction l generalizing st with
  | nil => simp
  | cons a as ih =>
    rw [List.foldl_cons, ih]
    by_cases hr : R a
    · simp [keyedStep, hr, hnm, List.filter_cons]
    · simp [keyedStep, hr, List.filter_cons]

theorem diskDev_name (now : Int) (p : Option diskSnapshot) (a : Str) :
    (diskDev now p a).Name = diskName a := diskRates_name _ _ _ _ _ _ _

theorem netDev_name (now : Int) (mac : Str → Option Str) (p : Option networkSnapshot) (a : Str) :
    (netDev now mac p a).Name = netName a := by
  rw [netDev, (enrich_rates _ _).1]
  cases p with
  | none => rfl
  | some p =>
    simp only [netRates]
    split_ifs <;> rfl

theorem Collect_device_names (c : Collector) (env : Env) (data : Str)
    (h : env.diskstats = .ok data) :
    (Collect c env).1.devices.map DiskDevice.Name = diskNames data := by
  obtain ⟨⟨disk, hdisk, hdev⟩, _⟩ := Collect_disk c env
  simp only [RemoteLinuxStats.devices, hdisk, hdev, h, collectDiskDevices, diskLine_keyed]
  rw [keyedStep_names _ _ _ _ DiskDevice.Name (diskDev_name _)]
  rfl

theorem Collect_interface_names (c : Collector) (env : Env) (data : Str)
    (h : env.netdev = .ok data) :
    (Collect c env).1.interfaces.map NetworkInterface.Name = netNames data := by
  obtain ⟨⟨net, hnet, hdev⟩, _⟩ := Collect_net c env
  simp only [RemoteLinuxStats.interfaces, hnet, hdev, h, collectNetwork, netLine_keyed]
  rw [keyedStep_names _ _ _ _ NetworkInterface.Name (netDev_name _ _)]
  rfl

/-- C3 at a concrete pair of passes one second apart over the same texts: no CPU
percentage, and zero rates for the device sda and the interface eth0. -/
theorem collect_twice_same_input_witness :
    (∃ cpu, (Collect (Collect freshCollector (steadyEnv 0)).2 (steadyEnv 1000000000)).1.CPU
        = some cpu ∧
      cpu.UsagePercent = none ∧ cpu.IowaitPercent = none ∧ cpu.StealPercent = none) ∧
    (∃ d ∈ (Collect (Collect freshCollector (steadyEnv 0)).2 (steadyEnv 1000000000)).1.devices,
      d.Name = lit "sda" ∧ d.ReadBytesPerSec = some 0 ∧ d.WriteBytesPerSec = some 0 ∧
        d.ReadsPerSec = some 0 ∧ d.WritesPerSec = some 0) ∧
    (∃ i ∈ (Collect (Collect freshCollector (steadyEnv 0)).2 (steadyEnv 1000000000)).1.interfaces,
      i.Name = lit "eth0" ∧ i.RxBytesPerSec = some 0 ∧ i.TxBytesPerSec = some 0) := by
  have h := collect_twice_same_input freshCollector (steadyEnv 0) (steadyEnv 1000000000)
    rfl rfl rfl (by decide) (by decide)
  refine ⟨h.1, ?_, ?_⟩
  · have hn := Collect_device_names (Collect freshCollector (steadyEnv 0)).2
      (steadyEnv 1000000000) _ rfl
    have hm : lit "sda" ∈
        (Collect (Collect freshCollector (steadyEnv 0)).2 (steadyEnv 1000000000)).1.devices.map
          DiskDevice.Name := by
      rw [hn]; decide
    obtain ⟨d, hd, hdn⟩ := List.mem_map.1 hm
    exact ⟨d, hd, hdn, h.2.1 _ rfl d hd (by rw [hdn]; decide)⟩
  · have hn := Collect_interface_names (Collect freshCollector (steadyEnv 0)).2
      (steadyEnv 1000000000) _ rfl
    have hm : lit "eth0" ∈
        (Collect (Collect freshCollector (steadyEnv 0)).2
          (steadyEnv 1000000000)).1.interfaces.map NetworkInterface.Name := by
      rw [hn]; decide
    obtain ⟨i, hi, hin⟩ := List.mem_map.1 hm
    exact ⟨i, hi, hin, h.2.2 _ rfl i hi (by rw [hin]; decide)⟩

/-- C3 as stated fails: over two passes one second apart with the same `cpu ` line
(a line with all eight counters), the second document has no `UsagePercent`,
`IowaitPercent` or `StealPercent`, rather than zeros; and when a device is named
on two lines, the record of its second line in the second pass has no rates. -/
theorem collect_twice_counterexample :
    cpuLine (lit "cpu  100 0 50 800 20 0 5 0 0 0\ncpu0 100 0 50 800 20 0 5 0 0 0\n") =
      some { user := 100, nice := 0, system := 50, idle := 800, iowait := 20, irq := 0,
             softirq := 5, steal := 0 } ∧
    (∃ cpu, (Collect (Collect freshCollector (steadyEnv 0)).2 (steadyEnv 1000000000)).1.CPU
        = some cpu ∧
      cpu.UsagePercent = none ∧ cpu.IowaitPercent = none ∧ cpu.StealPercent = none) ∧
    (∃ d1 d2,
      (Collect (Collect freshCollector (repeatedEnv 0)).2 (repeatedEnv 1000000000)).1.devices
        = [d1, d2] ∧
      d2.Name = lit "sda" ∧ d2.ReadBytesPerSec = none ∧ d2.WriteBytesPerSec = none ∧
        d2.ReadsPerSec = none ∧ d2.WritesPerSec = none) := by
  refine ⟨by decide, collect_twice_cpu _ _ _ rfl, ?_⟩
  refine ⟨_, diskDev 1000000000
    (some (diskSnap 1000000000 (lit "   8       0 sda 1 0 10 0 1 0 10 0 0 0 0")))
    (lit "   8       0 sda 2 0 20 0 2 0 20 0 0 0 0"), rfl, ?_⟩
  rw [diskDev, diskRates_stale _ _ _ _ _ _ _ (by decide)]
  exact ⟨by decide, rfl, rfl, rfl, rfl⟩

theorem parseUintLoop_le (s : Str) (n : Nat) (hn : n ≤ maxUint64) :
    (strconv.parseUintLoop s n).1 ≤ maxUint64 := by
  induction s generalizing n with
  | nil => exact hn
  | cons c cs ih =>
    simp only [strconv.parseUintLoop]
    split_ifs with h1 h2 h3
    · exact le_refl _
    · exact le_refl _
    · exact ih _ (by omega)
    · exact Nat.zero_le _

theorem ParseUint_lt (s : Str) : (strconv.ParseUint s).1 < 2 ^ 64 := by
  have hm : maxUint64 < 2 ^ 64 := by unfold maxUint64; norm_num
  unfold strconv.ParseUint
  split_ifs
  · norm_num
  · exact lt_of_le_of_lt (parseUintLoop_le s 0 (Nat.zero_le _)) hm

theorem deltaU64_of_le (a b : Nat) (hab : b ≤ a) (ha : a < 2 ^ 64) (e : Int) :
    deltaU64 a b / Seconds e = integerRate a b e := by
  unfold deltaU64 integerRate
  rw [subU64_of_le a b hab ha]
  congr 1
  have : (((a - b : Nat) : Int)) = (a : Int) - (b : Int) := by omega
  rw [← this]
  norm_cast

theorem rate_nonneg (a b : Nat) (t u : Int) (h : u < t) :
    0 ≤ deltaU64 a b / Seconds (timeSub t u) :=
  div_nonneg (deltaU64_nonneg a b) (le_of_lt ((elapsed_pos t u).2 h))

theorem diskSnap_lt (now : Int) (line : Str) :
    (diskSnap now line).readBytes < 2 ^ 64 ∧ (diskSnap now line).writeBytes < 2 ^ 64 ∧
    (diskSnap now line).readOps < 2 ^ 64 ∧ (diskSnap now line).writeOps < 2 ^ 64 := by
  have hu : 0 < u64 := by unfold u64; norm_num
  refine ⟨?_, ?_, ParseUint_lt _, ParseUint_lt _⟩
  · exact Nat.mod_lt _ hu
  · exact Nat.mod_lt _ hu

theorem netSnap_lt (now : Int) (line : Str) :
    (netSnap now line).rxBytes < 2 ^ 64 ∧ (netSnap now line).txBytes < 2 ^ 64 :=
  ⟨ParseUint_lt _, ParseUint_lt _⟩

/-- C4 (amended): when the loop reaches a retained line of a disk device or network
interface and finds in the snapshot store an entry `p` older than the clock
reading, all rate fields of the emitted record are present, whatever the direction
of the counters; each reported rate is non-negative, and for a counter that is not
smaller than the stored one it is `(current - previous) / elapsed_seconds`
computed over the integers. -/
theorem rates_against_stored_snapshot :
    (∀ (c : Collector) (data : Str) (now : Int) (pre post : List Str) (line : Str)
      (p : diskSnapshot),
      strings.Split data '\n' = pre ++ line :: post → diskRetained line →
      (pre.foldl (diskLine now) (c.prevDisk, [])).1 (diskName line) = some p →
      p.timestamp < now →
      ∃ d ∈ (collectDiskDevices c (.ok data) now).1, d.Name = diskName line ∧
        (∃ v, d.ReadBytesPerSec = some v ∧ 0 ≤ v ∧
          (p.readBytes ≤ (diskSnap now line).readBytes →
            v = integerRate (diskSnap now line).readBytes p.readBytes
              (timeSub now p.timestamp))) ∧
        (∃ v, d.WriteBytesPerSec = some v ∧ 0 ≤ v ∧
          (p.writeBytes ≤ (diskSnap now line).writeBytes →
            v = integerRate (diskSnap now line).writeBytes p.writeBytes
              (timeSub now p.timestamp))) ∧
        (∃ v, d.ReadsPerSec = some v ∧ 0 ≤ v ∧
          (p.readOps ≤ (diskSnap now line).readOps →
            v = integerRate (diskSnap now line).readOps p.readOps
              (timeSub now p.timestamp))) ∧
        (∃ v, d.WritesPerSec = some v ∧ 0 ≤ v ∧
          (p.writeOps ≤ (diskSnap now line).writeOps →
            v = integerRate (diskSnap now line).writeOps p.writeOps
              (timeSub now p.timestamp)))) ∧
    (∀ (c : Collector) (data : Str) (now : Int) (mac : Str → Option Str) (pre post : List Str)
      (line : Str) (p : networkSnapshot),
      (strings.Split data '\n').drop 2 = pre ++ line :: post → netRetained line →
      (pre.foldl (netLine now mac) (c.prevNetwork, [])).1 (netName line) = some p →
      p.timestamp < now →
      ∃ i ∈ (collectNetwork c (.ok data) now mac).1.Interfaces, i.Name = netName line ∧
        (∃ v, i.RxBytesPerSec = some v ∧ 0 ≤ v ∧
          (p.rxBytes ≤ (netSnap now line).rxBytes →
            v = integerRate (netSnap now line).rxBytes p.rxBytes (timeSub now p.timestamp))) ∧
        (∃ v, i.TxBytesPerSec = some v ∧ 0 ≤ v ∧
          (p.txBytes ≤ (netSnap now line).txBytes →
            v = integerRate (netSnap now line).txBytes p.txBytes
              (timeSub now p.timestamp)))) := by
  constructor
  · intro c data now pre post line p hsplit hret hprev hel
    refine ⟨diskDev now (some p) line, ?_, diskDev_name _ _ _, ?_⟩
    · simp only [collectDiskDevices, hsplit, diskLine_keyed]
      rw [keyedStep_out]
      right
      refine ⟨pre, line, post, rfl, hret, ?_⟩
      rw [← diskLine_keyed, hprev]
    · obtain ⟨h1, h2, h3, h4⟩ := diskSnap_lt now line
      rw [diskDev, diskRates_some _ _ _ _ _ _ _ hel]
      exact ⟨⟨_, rfl, rate_nonneg _ _ _ _ hel, fun h => deltaU64_of_le _ _ h h1 _⟩,
        ⟨_, rfl, rate_nonneg _ _ _ _ hel, fun h => deltaU64_of_le _ _ h h2 _⟩,
        ⟨_, rfl, rate_nonneg _ _ _ _ hel, fun h => deltaU64_of_le _ _ h h3 _⟩,
        ⟨_, rfl, rate_nonneg _ _ _ _ hel, fun h => deltaU64_of_le _ _ h h4 _⟩⟩
  · intro c data now mac pre post line p hsplit hret hprev hel
    refine ⟨netDev now mac (some p) line, ?_, netDev_name _ _ _ _, ?_⟩
    · simp only [collectNetwork, hsplit, netLine_keyed]
      rw [keyedStep_out]
      right
      refine ⟨pre, line, post, rfl, hret, ?_⟩
      rw [← netLine_keyed, hprev]
    · obtain ⟨h1, h2⟩ := netSnap_lt now line
      rw [netDev, (enrich_rates _ _).2.1, (enrich_rates _ _).2.2, netRates_some _ _ _ _ _ hel]
      exact ⟨⟨_, rfl, rate_nonneg _ _ _ _ hel, fun h => deltaU64_of_le _ _ h h1 _⟩,
        ⟨_, rfl, rate_nonneg _ _ _ _ hel, fun h => deltaU64_of_le _ _ h h2 _⟩⟩

/-- C4 at a concrete pair of passes one second apart in which the counters of sda and
eth0 have grown: the rates are the integer differences per second. -/
theorem rates_against_stored_snapshot_witness :
    (∃ d ∈ (collectDiskDevices (collectDiskDevices freshCollector (.ok diskTextA) 0).2
        (.ok diskTextGrown) 1000000000).1, d.Name = lit "sda" ∧
      d.ReadBytesPerSec = some (integerRate 2048000 1024000 1000000000) ∧
      d.WriteBytesPerSec = some (integerRate 1536000 512000 1000000000) ∧
      d.ReadsPerSec = some (integerRate 150 100 1000000000) ∧
      d.WritesPerSec = some (integerRate 80 50 1000000000)) ∧
    (∃ i ∈ (collectNetwork (collectNetwork freshCollector (.ok netTextA) 0 (fun _ => none)).2
        (.ok netTextGrown) 1000000000 (fun _ => none)).1.Interfaces, i.Name = lit "eth0" ∧
      i.RxBytesPerSec = some (integerRate 5000 1000 1000000000) ∧
      i.TxBytesPerSec = some (integerRate 2500 2000 1000000000)) := by
  constructor
  · obtain ⟨d, hd, hn, ⟨v1, h1, _, e1⟩, ⟨v2, h2, _, e2⟩, ⟨v3, h3, _, e3⟩, ⟨v4, h4, _, e4⟩⟩ :=
      rates_against_stored_snapshot.1 (collectDiskDevices freshCollector (.ok diskTextA) 0).2
        diskTextGrown 1000000000 [] [[]]
        (lit "   8       0 sda 150 0 4000 0 80 0 3000 0 0 0 0")
        { timestamp := 0, readBytes := 1024000, writeBytes := 512000, readOps := 100,
          writeOps := 50 }
        (by decide) (by decide) (by decide) (by decide)
    refine ⟨d, hd, hn, ?_, ?_, ?_, ?_⟩
    · rw [h1, e1 (by decide)]; rfl
    · rw [h2, e2 (by decide)]; rfl
    · rw [h3, e3 (by decide)]; rfl
    · rw [h4, e4 (by decide)]; rfl
  · obtain ⟨i, hi, hn, ⟨v1, h1, _, e1⟩, ⟨v2, h2, _, e2⟩⟩ :=
      rates_against_stored_snapshot.2
        (collectNetwork freshCollector (.ok netTextA) 0 (fun _ => none)).2
        netTextGrown 1000000000 (fun _ => none) [] [[]]
        (lit "  eth0: 5000 50 0 0 0 0 0 0 2500 25 0 0 0 0 0 0")
        { timestamp := 0, rxBytes := 1000, txBytes := 2000 }
        (by decide) (by decide) (by decide) (by decide)
    refine ⟨i, hi, hn, ?_, ?_⟩
    · rw [h1, e1 (by decide)]; rfl
    · rw [h2, e2 (by decide)]; rfl

/-- C4 as stated fails: after a pass that stored 2097152 read bytes for sda, a pass
one second later that reads 0 (the counter restarted) reports a read rate, and the
rate is the wrapped difference `2 ^ 64 - 2097152`, not the integer quotient
`-2097152`. -/
theorem counter_restart_counterexample :
    ((collectDiskDevices freshCollector (.ok diskTextBefore) 0).2.prevDisk (lit "sda")).map
        (fun p => p.readBytes) = some 2097152 ∧
    (diskSnap 1000000000 (lit "   8       0 sda 0 0 0 0 0 0 0 0 0 0 0")).readBytes = 0 ∧
    (∃ d, (collectDiskDevices (collectDiskDevices freshCollector (.ok diskTextBefore) 0).2
        (.ok diskTextRestarted) 1000000000).1 = [d] ∧ d.Name = lit "sda" ∧
      d.ReadBytesPerSec = some 18446744073707454464) ∧
    integerRate 0 2097152 1000000000 = -2097152 := by
  refine ⟨by decide, by decide, ?_, ?_⟩
  · refine ⟨diskDev 1000000000
      (some { timestamp := 0, readBytes := 2097152, writeBytes := 512000, readOps := 100,
              writeOps := 50 })
      (lit "   8       0 sda 0 0 0 0 0 0 0 0 0 0 0"), rfl, diskDev_name _ _ _, ?_⟩
    rw [diskDev, diskRates_some _ _ _ _ _ _ _ (by decide)]
    have h1 : (diskSnap 1000000000 (lit "   8       0 sda 0 0 0 0 0 0 0 0 0 0 0")).readBytes
        = 0 := by decide
    have h2 : subU64 0 2097152 = 18446744073707454464 := by decide
    have h3 : timeSub 1000000000 0 = 1000000000 := by decide
    simp only [h1, deltaU64, h2, h3, Seconds]
    norm_num
  · unfold integerRate Seconds
    norm_num

theorem cpuStatBlock_some (c : Collector) (data : Str) (now : Int) (k : cpuCounters)
    (hk : cpuLine data = some k) :
    cpuStatBlock c data now =
      (cpuRates c.prevCPU k { Available := false }, { c with prevCPU := some (cpuSnap now k) }) := by
  simp only [cpuStatBlock, hk, cpuSnap]

theorem collectCPU_first (c : Collector) (stat : Except Str Str) (now : Int) (ci la : Option Str)
    (pf : Str → Option ℚ) (h : c.prevCPU = none) :
    (collectCPU c stat now ci la pf).1.UsagePercent = none ∧
    (collectCPU c stat now ci la pf).1.IowaitPercent = none ∧
    (collectCPU c stat now ci la pf).1.StealPercent = none := by
  cases stat with
  | error e => exact ⟨rfl, rfl, rfl⟩
  | ok data =>
    obtain ⟨_, h2, h3, h4⟩ := collectCPU_rates c data now ci la pf
    rw [h2, h3, h4]
    cases hk : cpuLine data with
    | none => simp only [cpuStatBlock, hk, and_self]
    | some k => simp only [cpuStatBlock_some c data now k hk, h, cpuRates_first, and_self]

theorem disk_first_seen (c : Collector) (file : Except Str Str) (now : Int) (d : DiskDevice)
    (hd : d ∈ (collectDiskDevices c file now).1) (h : c.prevDisk d.Name = none) :
    d.ReadBytesPerSec = none ∧ d.WriteBytesPerSec = none ∧ d.ReadsPerSec = none ∧
      d.WritesPerSec = none := by
  cases file with
  | error e => cases hd
  | ok data =>
    simp only [collectDiskDevices, diskLine_keyed] at hd
    rw [keyedStep_out] at hd
    rcases hd with hd | ⟨pre, a, post, _, _, hde⟩
    · cases hd
    · have hname : d.Name = diskName a := by rw [hde]; exact diskDev_name _ _ _
      rw [hname] at h
      rcases keyedStep_store_cases diskRetained diskName (diskSnap now) (diskDev now)
        (c.prevDisk, []) pre (diskName a) with h1 | ⟨b, _, _, _, h2⟩
      · rw [h1] at hde
        simp only at hde
        rw [h] at hde
        rw [hde]
        exact ⟨rfl, rfl, rfl, rfl⟩
      · rw [h2] at hde
        rw [hde, diskDev, diskRates_stale _ (diskSnap now b) _ _ _ _ _ (lt_irrefl now)]
        exact ⟨rfl, rfl, rfl, rfl⟩

theorem net_first_seen (c : Collector) (file : Except Str Str) (now : Int)
    (mac : Str → Option Str) (i : NetworkInterface)
    (hi : i ∈ (collectNetwork c file now mac).1.Interfaces) (h : c.prevNetwork i.Name = none) :
    i.RxBytesPerSec = none ∧ i.TxBytesPerSec = none := by
  cases file with
  | error e => cases hi
  | ok data =>
    simp only [collectNetwork, netLine_keyed] at hi
    rw [keyedStep_out] at hi
    rcases hi with hi | ⟨pre, a, post, _, _, hie⟩
    · cases hi
    · have hname : i.Name = netName a := by rw [hie]; exact netDev_name _ _ _ _
      rw [hname] at h
      rcases keyedStep_store_cases netRetained netName (netSnap now) (netDev now mac)
        (c.prevNetwork, []) pre (netName a) with h1 | ⟨b, _, _, _, h2⟩
      · rw [h1] at hie
        simp only at hie
        rw [h] at hie
        rw [hie, netDev, (enrich_rates _ _).2.1, (enrich_rates _ _).2.2]
        exact ⟨rfl, rfl⟩
      · rw [h2] at hie
        rw [hie, netDev, (enrich_rates _ _).2.1, (enrich_rates _ _).2.2,
          netRates_stale _ (netSnap now b) _ _ _ (lt_irrefl now)]
        exact ⟨rfl, rfl⟩

theorem cpu_growing (k1 k2 : cpuCounters) (now : Int) (hlt : k1.strictlyBelow k2)
    (hsum : k2.sum < 2 ^ 64) :
    ∃ u i s,
      cpuRates (some (cpuSnap now k1)) k2 { Available := false } =
        { Available := true, UsagePercent := some u, IowaitPercent := some i,
          StealPercent := some s } ∧ 0 ≤ u ∧ 0 ≤ i ∧ 0 ≤ s := by
  obtain ⟨h1, h2, h3, h4, h5, h6, h7, h8⟩ := hlt
  unfold cpuCounters.sum at hsum
  have ht2 : k2.total = k2.user + k2.nice + k2.system + k2.idle + k2.iowait + k2.irq +
      k2.softirq + k2.steal := by
    unfold cpuCounters.total u64
    exact Nat.mod_eq_of_lt hsum
  have ht1 : k1.total = k1.user + k1.nice + k1.system + k1.idle + k1.iowait + k1.irq +
      k1.softirq + k1.steal := by
    unfold cpuCounters.total u64
    exact Nat.mod_eq_of_lt (by omega)
  have hT : subU64 k2.total k1.total = k2.total - k1.total :=
    subU64_of_le _ _ (by omega) (by omega)
  have hI : subU64 k2.idle k1.idle = k2.idle - k1.idle :=
    subU64_of_le _ _ (by omega) (by omega)
  have hTpos : (0 : ℚ) < ((k2.total - k1.total : Nat) : ℚ) := by
    have : 0 < k2.total - k1.total := by omega
    exact_mod_cast this
  have hIT : ((k2.idle - k1.idle : Nat) : ℚ) ≤ ((k2.total - k1.total : Nat) : ℚ) := by
    have : k2.idle - k1.idle ≤ k2.total - k1.total := by omega
    exact_mod_cast this
  have hpos : deltaU64 k2.total k1.total > 0 := by
    simp only [deltaU64, hT]
    exact hTpos
  refine ⟨((deltaU64 k2.total k1.total - deltaU64 k2.idle k1.idle) / deltaU64 k2.total k1.total)
      * 100, (deltaU64 k2.iowait k1.iowait / deltaU64 k2.total k1.total) * 100,
    (deltaU64 k2.steal k1.steal / deltaU64 k2.total k1.total) * 100, ?_, ?_, ?_, ?_⟩
  · simp only [cpuRates, cpuSnap, hpos, if_true]
  · simp only [deltaU64, hT, hI]
    exact mul_nonneg (div_nonneg (sub_nonneg.2 hIT) (le_of_lt hTpos)) (by norm_num)
  · exact mul_nonneg (div_nonneg (deltaU64_nonneg _ _) (deltaU64_nonneg _ _)) (by norm_num)
  · exact mul_nonneg (div_nonneg (deltaU64_nonneg _ _) (deltaU64_nonneg _ _)) (by norm_num)

theorem collectDiskDevices_names (c : Collector) (data : Str) (now : Int) :
    (collectDiskDevices c (.ok data) now).1.map DiskDevice.Name = diskNames data := by
  simp only [collectDiskDevices, diskLine_keyed]
  rw [keyedStep_names _ _ _ _ DiskDevice.Name (diskDev_name _)]
  rfl

theorem collectNetwork_names (c : Collector) (data : Str) (now : Int) (mac : Str → Option Str) :
    (collectNetwork c (.ok data) now mac).1.Interfaces.map NetworkInterface.Name =
      netNames data := by
  simp only [collectNetwork, netLine_keyed]
  rw [keyedStep_names _ _ _ _ NetworkInterface.Name (netDev_name _ _)]
  rfl

theorem collectCPU_second (c : Collector) (data1 data2 : Str) (now1 now2 : Int)
    (ci1 la1 ci2 la2 : Option Str) (pf1 pf2 : Str → Option ℚ) (k1 k2 : cpuCounters)
    (h1 : cpuLine data1 = some k1) (h2 : cpuLine data2 = some k2) :
    (collectCPU (collectCPU c (.ok data1) now1 ci1 la1 pf1).2 (.ok data2) now2 ci2 la2 pf2).1.UsagePercent
      = (cpuRates (some (cpuSnap now1 k1)) k2 { Available := false }).UsagePercent ∧
    (collectCPU (collectCPU c (.ok data1) now1 ci1 la1 pf1).2 (.ok data2) now2 ci2 la2 pf2).1.IowaitPercent
      = (cpuRates (some (cpuSnap now1 k1)) k2 { Available := false }).IowaitPercent ∧
    (collectCPU (collectCPU c (.ok data1) now1 ci1 la1 pf1).2 (.ok data2) now2 ci2 la2 pf2).1.StealPercent
      = (cpuRates (some (cpuSnap now1 k1)) k2 { Available := false }).StealPercent := by
  obtain ⟨_, g2, g3, g4⟩ := collectCPU_rates (collectCPU c (.ok data1) now1 ci1 la1 pf1).2 data2
    now2 ci2 la2 pf2
  have hp : (collectCPU c (.ok data1) now1 ci1 la1 pf1).2.prevCPU = some (cpuSnap now1 k1) := by
    simp only [collectCPU, cpuStatBlock_some c data1 now1 k1 h1]
  rw [g2, g3, g4, cpuStatBlock_some _ data2 now2 k2 h2, hp]
  exact ⟨rfl, rfl, rfl⟩

/-- C5 (amended): a counter identity without an entry in the snapshot store has all
its rate fields absent; the CPU percentages of a reading in which each of the eight
counters is strictly greater than in the stored reading, and whose sum fits in 64
bits, are present and non-negative; the rates of a disk device or network interface
whose counters are strictly greater than those of the stored snapshot, read after
a positive elapsed time, are present and non-negative. -/
theorem rates_first_and_later :
    (∀ (c : Collector) (stat : Except Str Str) (now : Int) (ci la : Option Str)
      (pf : Str → Option ℚ), c.prevCPU = none →
      (collectCPU c stat now ci la pf).1.UsagePercent = none ∧
      (collectCPU c stat now ci la pf).1.IowaitPercent = none ∧
      (collectCPU c stat now ci la pf).1.StealPercent = none) ∧
    (∀ (c : Collector) (file : Except Str Str) (now : Int),
      ∀ d ∈ (collectDiskDevices c file now).1, c.prevDisk d.Name = none →
        d.ReadBytesPerSec = none ∧ d.WriteBytesPerSec = none ∧ d.ReadsPerSec = none ∧
          d.WritesPerSec = none) ∧
    (∀ (c : Collector) (file : Except Str Str) (now : Int) (mac : Str → Option Str),
      ∀ i ∈ (collectNetwork c file now mac).1.Interfaces, c.prevNetwork i.Name = none →
        i.RxBytesPerSec = none ∧ i.TxBytesPerSec = none) ∧
    (∀ (c : Collector) (data1 data2 : Str) (now1 now2 : Int) (ci1 la1 ci2 la2 : Option Str)
      (pf1 pf2 : Str → Option ℚ) (k1 k2 : cpuCounters),
      cpuLine data1 = some k1 → cpuLine data2 = some k2 → k1.strictlyBelow k2 →
      k2.sum < 2 ^ 64 →
      ∃ u i s,
        (collectCPU (collectCPU c (.ok data1) now1 ci1 la1 pf1).2 (.ok data2) now2 ci2 la2
          pf2).1.UsagePercent = some u ∧ 0 ≤ u ∧
        (collectCPU (collectCPU c (.ok data1) now1 ci1 la1 pf1).2 (.ok data2) now2 ci2 la2
          pf2).1.IowaitPercent = some i ∧ 0 ≤ i ∧
        (collectCPU (collectCPU c (.ok data1) now1 ci1 la1 pf1).2 (.ok data2) now2 ci2 la2
          pf2).1.StealPercent = some s ∧ 0 ≤ s) ∧
    (∀ (c : Collector) (data : Str) (now : Int) (pre post : List Str) (line : Str)
      (p : diskSnapshot),
      strings.Split data '\n' = pre ++ line :: post → diskRetained line →
      (pre.foldl (diskLine now) (c.prevDisk, [])).1 (diskName line) = some p →
      p.timestamp < now →
      p.readBytes < (diskSnap now line).readBytes →
      p.writeBytes < (diskSnap now line).writeBytes →
      p.readOps < (diskSnap now line).readOps →
      p.writeOps < (diskSnap now line).writeOps →
      ∃ d ∈ (collectDiskDevices c (.ok data) now).1, d.Name = diskName line ∧
        ∃ v1 v2 v3 v4, d.ReadBytesPerSec = some v1 ∧ 0 ≤ v1 ∧ d.WriteBytesPerSec = some v2 ∧
          0 ≤ v2 ∧ d.ReadsPerSec = some v3 ∧ 0 ≤ v3 ∧ d.WritesPerSec = some v4 ∧ 0 ≤ v4) ∧
    (∀ (c : Collector) (data : Str) (now : Int) (mac : Str → Option Str) (pre post : List Str)
      (line : Str) (p : networkSnapshot),
      (strings.Split data '\n').drop 2 = pre ++ line :: post → netRetained line →
      (pre.foldl (netLine now mac) (c.prevNetwork, [])).1 (netName line) = some p →
      p.timestamp < now →
      p.rxBytes < (netSnap now line).rxBytes → p.txBytes < (netSnap now line).txBytes →
      ∃ i ∈ (collectNetwork c (.ok data) now mac).1.Interfaces, i.Name = netName line ∧
        ∃ v1 v2, i.RxBytesPerSec = some v1 ∧ 0 ≤ v1 ∧ i.TxBytesPerSec = some v2 ∧ 0 ≤ v2) := by
  refine ⟨collectCPU_first, ?_, ?_, ?_, ?_, ?_⟩
  · intro c file now d hd h
    exact disk_first_seen c file now d hd h
  · intro c file now mac i hi h
    exact net_first_seen c file now mac i hi h
  · intro c data1 data2 now1 now2 ci1 la1 ci2 la2 pf1 pf2 k1 k2 h1 h2 hlt hsum
    obtain ⟨g1, g2, g3⟩ := collectCPU_second c data1 data2 now1 now2 ci1 la1 ci2 la2 pf1 pf2
      k1 k2 h1 h2
    obtain ⟨u, i, s, hr, hu, hi, hs⟩ := cpu_growing k1 k2 now1 hlt hsum
    rw [g1, g2, g3, hr]
    exact ⟨u, i, s, rfl, hu, rfl, hi, rfl, hs⟩
  · intro c data now pre post line p hsplit hret hprev hel _ _ _ _
    refine ⟨diskDev now (some p) line, ?_, diskDev_name _ _ _, ?_⟩
    · simp only [collectDiskDevices, hsplit, diskLine_keyed]
      rw [keyedStep_out]
      right
      refine ⟨pre, line, post, rfl, hret, ?_⟩
      rw [← diskLine_keyed, hprev]
    · rw [diskDev, diskRates_some _ _ _ _ _ _ _ hel]
      exact ⟨_, _, _, _, rfl, rate_nonneg _ _ _ _ hel, rfl, rate_nonneg _ _ _ _ hel, rfl,
        rate_nonneg _ _ _ _ hel, rfl, rate_nonneg _ _ _ _ hel⟩
  · intro c data now mac pre post line p hsplit hret hprev hel _ _
    refine ⟨netDev now mac (some p) line, ?_, netDev_name _ _ _ _, ?_⟩
    · simp only [collectNetwork, hsplit, netLine_keyed]
      rw [keyedStep_out]
      right
      refine ⟨pre, line, post, rfl, hret, ?_⟩
      rw [← netLine_keyed, hprev]
    · rw [netDev, (enrich_rates _ _).2.1, (enrich_rates _ _).2.2, netRates_some _ _ _ _ _ hel]
      exact ⟨_, _, rfl, rate_nonneg _ _ _ _ hel, rfl, rate_nonneg _ _ _ _ hel⟩

/-- C5 at concrete inputs: a first pass over `cpuTextA`, `diskTextA` and `netTextA`
reports no rate, and a pass one second later over the grown texts reports
non-negative rates. -/
theorem rates_first_and_later_witness :
    ((collectCPU freshCollector (.ok cpuTextA) 0 none none (fun _ => none)).1.UsagePercent
        = none) ∧
    (∃ d ∈ (collectDiskDevices freshCollector (.ok diskTextA) 0).1, d.Name = lit "sda" ∧
      d.ReadBytesPerSec = none ∧ d.WriteBytesPerSec = none ∧ d.ReadsPerSec = none ∧
        d.WritesPerSec = none) ∧
    (∃ i ∈ (collectNetwork freshCollector (.ok netTextA) 0 (fun _ => none)).1.Interfaces,
      i.Name = lit "eth0" ∧ i.RxBytesPerSec = none ∧ i.TxBytesPerSec = none) ∧
    (∃ u, (collectCPU (collectCPU freshCollector (.ok cpuTextA) 0 none none (fun _ => none)).2
        (.ok cpuTextGrown) 1000000000 none none (fun _ => none)).1.UsagePercent = some u ∧
      0 ≤ u) ∧
    (∃ d ∈ (collectDiskDevices (collectDiskDevices freshCollector (.ok diskTextA) 0).2
        (.ok diskTextGrown) 1000000000).1, d.Name = lit "sda" ∧
      ∃ v, d.ReadBytesPerSec = some v ∧ 0 ≤ v) ∧
    (∃ i ∈ (collectNetwork (collectNetwork freshCollector (.ok netTextA) 0 (fun _ => none)).2
        (.ok netTextGrown) 1000000000 (fun _ => none)).1.Interfaces, i.Name = lit "eth0" ∧
      ∃ v, i.RxBytesPerSec = some v ∧ 0 ≤ v) := by
  obtain ⟨a1, a2, a3, b1, b2, b3⟩ := rates_first_and_later
  refine ⟨(a1 freshCollector (.ok cpuTextA) 0 none none (fun _ => none) rfl).1, ?_, ?_, ?_, ?_, ?_⟩
  · have hm : lit "sda" ∈
        (collectDiskDevices freshCollector (.ok diskTextA) 0).1.map DiskDevice.Name := by
      rw [collectDiskDevices_names]; decide
    obtain ⟨d, hd, hdn⟩ := List.mem_map.1 hm
    exact ⟨d, hd, hdn, a2 freshCollector (.ok diskTextA) 0 d hd rfl⟩
  · have hm : lit "eth0" ∈
        (collectNetwork freshCollector (.ok netTextA) 0 (fun _ => none)).1.Interfaces.map
          NetworkInterface.Name := by
      rw [collectNetwork_names]; decide
    obtain ⟨i, hi, hin⟩ := List.mem_map.1 hm
    exact ⟨i, hi, hin, a3 freshCollector (.ok netTextA) 0 (fun _ => none) i hi rfl⟩
  · obtain ⟨u, _, _, hu, hu0, _⟩ := b1 freshCollector cpuTextA cpuTextGrown 0 1000000000 none none
      none none (fun _ => none) (fun _ => none)
      { user := 100, nice := 0, system := 50, idle := 800, iowait := 20, irq := 0,
        softirq := 5, steal := 0 }
      { user := 150, nice := 1, system := 60, idle := 1000, iowait := 25, irq := 1,
        softirq := 6, steal := 1 }
      (by decide) (by decide) (by decide) (by decide)
    exact ⟨u, hu, hu0⟩
  · obtain ⟨d, hd, hn, v1, _, _, _, h1, h10, _⟩ :=
      b2 (collectDiskDevices freshCollector (.ok diskTextA) 0).2 diskTextGrown 1000000000 [] [[]]
        (lit "   8       0 sda 150 0 4000 0 80 0 3000 0 0 0 0")
        { timestamp := 0, readBytes := 1024000, writeBytes := 512000, readOps := 100,
          writeOps := 50 }
        (by decide) (by decide) (by decide) (by decide) (by decide) (by decide) (by decide)
        (by decide)
    exact ⟨d, hd, hn, v1, h1, h10⟩
  · obtain ⟨i, hi, hn, v1, _, h1, h10, _⟩ :=
      b3 (collectNetwork freshCollector (.ok netTextA) 0 (fun _ => none)).2 netTextGrown
        1000000000 (fun _ => none) [] [[]]
        (lit "  eth0: 5000 50 0 0 0 0 0 0 2500 25 0 0 0 0 0 0")
        { timestamp := 0, rxBytes := 1000, txBytes := 2000 }
        (by decide) (by decide) (by decide) (by decide) (by decide) (by decide)
    exact ⟨i, hi, hn, v1, h1, h10⟩

/-- C5 as stated fails: from the reading `1 1 1 1 1 1 1 1` to a reading in which each
of the eight counters is strictly greater but whose sum wraps around `2 ^ 64` (the
stored total goes from 8 to 14, idle from 1 to `2 ^ 63 + 1`), the reported
`UsagePercent` is negative. -/
theorem cpu_wrapped_sum_counterexample :
    cpuLine cpuTextSmall =
      some { user := 1, nice := 1, system := 1, idle := 1, iowait := 1, irq := 1,
             softirq := 1, steal := 1 } ∧
    cpuLine cpuTextHuge =
      some { user := 9223372036854775809, nice := 2, system := 2, idle := 9223372036854775809,
             iowait := 2, irq := 2, softirq := 2, steal := 2 } ∧
    cpuCounters.strictlyBelow
      { user := 1, nice := 1, system := 1, idle := 1, iowait := 1, irq := 1, softirq := 1,
        steal := 1 }
      { user := 9223372036854775809, nice := 2, system := 2, idle := 9223372036854775809,
        iowait := 2, irq := 2, softirq := 2, steal := 2 } ∧
    (∃ u, (collectCPU (collectCPU freshCollector (.ok cpuTextSmall) 0 none none (fun _ => none)).2
        (.ok cpuTextHuge) 1000000000 none none (fun _ => none)).1.UsagePercent = some u ∧
      u < 0) := by
  refine ⟨by decide, by decide, by decide, ?_⟩
  obtain ⟨g1, _, _⟩ := collectCPU_second freshCollector cpuTextSmall cpuTextHuge 0 1000000000
    none none none none (fun _ => none) (fun _ => none) _ _
    (by decide :
      cpuLine cpuTextSmall =
        some { user := 1, nice := 1, system := 1, idle := 1, iowait := 1, irq := 1,
               softirq := 1, steal := 1 })
    (by decide :
      cpuLine cpuTextHuge =
        some { user := 9223372036854775809, nice := 2, system := 2,
               idle := 9223372036854775809, iowait := 2, irq := 2, softirq := 2, steal := 2 })
  rw [g1]
  have hT : subU64 14 8 = 6 := by decide
  have hI : subU64 9223372036854775809 1 = 9223372036854775808 := by decide
  refine ⟨((6 : ℚ) - 9223372036854775808) / 6 * 100, ?_, by norm_num⟩
  have hpos : deltaU64 14 8 > 0 := by
    simp only [deltaU64, hT]; norm_num
  have ht1 : cpuCounters.total
      { user := 1, nice := 1, system := 1, idle := 1, iowait := 1, irq := 1,
        softirq := 1, steal := 1 } = 8 := by decide
  have ht2 : cpuCounters.total
      { user := 9223372036854775809, nice := 2, system := 2,
        idle := 9223372036854775809, iowait := 2, irq := 2, softirq := 2, steal := 2 } = 14 := by
    decide
  simp only [cpuRates, ht1, ht2, hpos, if_true, cpuSnap, deltaU64, hT, hI]
  norm_num

theorem digitsValue_ge (cs : Str) (acc : Nat) : acc ≤ digitsValue acc cs := by
  induction cs generalizing acc with
  | nil => exact le_refl _
  | cons ch cs ih =>
    simp only [digitsValue, List.foldl_cons]
    exact le_trans (by omega) (ih _)

theorem parseUintLoop_digits (cs : Str) (acc : Nat)
    (hd : ∀ ch ∈ cs, 48 ≤ ch.toNat ∧ ch.toNat ≤ 57)
    (hv : digitsValue acc cs ≤ maxUint64) :
    strconv.parseUintLoop cs acc = (digitsValue acc cs, none) := by
  induction cs generalizing acc with
  | nil => rfl
  | cons ch cs ih =>
    have hch := hd ch (List.mem_cons_self _ _)
    have hstep : acc * 10 + (ch.toNat - 48) ≤ maxUint64 := by
      have := digitsValue_ge cs (acc * 10 + (ch.toNat - 48))
      simp only [digitsValue, List.foldl_cons] at hv
      exact le_trans this hv
    have hm : maxUint64 = 18446744073709551615 := by decide
    simp only [strconv.parseUintLoop, hch, and_self, if_true]
    have h1 : ¬ acc ≥ maxUint64 / 10 + 1 := by rw [hm] at hstep ⊢; omega
    have h2 : ¬ acc * 10 + (ch.toNat - 48) > maxUint64 := by omega
    simp only [h1, h2, if_false]
    exact ih _ (fun x hx => hd x (List.mem_cons_of_mem _ hx)) hv

theorem digitChar_toNat (m : Nat) (hm : m < 10) : (Nat.digitChar m).toNat = 48 + m := by
  interval_cases m <;> rfl

theorem toDigitsCore_value (fuel n : Nat) (ds : Str) (hf : n < fuel) :
    digitsValue 0 (Nat.toDigitsCore 10 fuel n ds) = digitsValue n ds := by
  induction fuel generalizing n ds with
  | zero => omega
  | succ fuel ih =>
    have hd : (Nat.digitChar (n % 10)).toNat - 48 = n % 10 := by
      rw [digitChar_toNat _ (Nat.mod_lt _ (by norm_num))]; omega
    simp only [Nat.toDigitsCore]
    split_ifs with h0
    · simp only [digitsValue, List.foldl_cons, hd]
      have : n % 10 = n := Nat.mod_eq_of_lt (by omega)
      rw [this]; simp
    · rw [ih (n / 10) _ (by omega)]
      simp only [digitsValue, List.foldl_cons, hd]
      have : n / 10 * 10 + n % 10 = n := by omega
      rw [this]

theorem toDigitsCore_digits (fuel n : Nat) (ds : Str)
    (hds : ∀ ch ∈ ds, 48 ≤ ch.toNat ∧ ch.toNat ≤ 57) :
    ∀ ch ∈ Nat.toDigitsCore 10 fuel n ds, 48 ≤ ch.toNat ∧ ch.toNat ≤ 57 := by
  induction fuel generalizing n ds with
  | zero => exact hds
  | succ fuel ih =>
    have hd : ∀ ch ∈ Nat.digitChar (n % 10) :: ds, 48 ≤ ch.toNat ∧ ch.toNat ≤ 57 := by
      intro ch hch
      rcases List.mem_cons.1 hch with rfl | h
      · rw [digitChar_toNat _ (Nat.mod_lt _ (by norm_num))]
        have := Nat.mod_lt n (by norm_num : 10 > 0)
        omega
      · exact hds ch h
    simp only [Nat.toDigitsCore]
    split_ifs
    · exact hd
    · exact ih _ _ hd

theorem toDigitsCore_ne_nil (fuel n : Nat) (ds : Str) (hf : 0 < fuel) :
    Nat.toDigitsCore 10 fuel n ds ≠ [] := by
  induction fuel generalizing n ds with
  | zero => omega
  | succ fuel ih =>
    simp only [Nat.toDigitsCore]
    split_ifs with h0
    · simp
    · cases fuel with
      | zero => simp [Nat.toDigitsCore]
      | succ f => exact ih _ _ (by omega)

/-- `ParseUint` reads the decimal numeral of every `uint64` value back. -/
theorem ParseUint_decimal (n : Nat) (hn : n < 2 ^ 64) :
    strconv.ParseUint (decimal n) = (n, none) := by
  have hne : decimal n ≠ [] := toDigitsCore_ne_nil (n + 1) n [] (by omega)
  have hval : digitsValue 0 (decimal n) = n := by
    unfold decimal Nat.toDigits
    rw [toDigitsCore_value _ _ _ (by omega)]
    rfl
  have hm : maxUint64 = 18446744073709551615 := by decide
  unfold strconv.ParseUint
  have he : (decimal n).isEmpty = false := by
    cases h : decimal n with
    | nil => exact absurd h hne
    | cons x xs => rfl
  rw [he]
  simp only [Bool.false_eq_true, if_false]
  have hdig : ∀ ch ∈ decimal n, 48 ≤ ch.toNat ∧ ch.toNat ≤ 57 :=
    toDigitsCore_digits (n + 1) n [] (fun _ h => by cases h)
  rw [parseUintLoop_digits (decimal n) 0 hdig (by rw [hval, hm]; omega), hval]

theorem memLine_eq (m : Str → Option Nat) (line : Str) (k : Str) :
    memLine m line k =
      if memKey line = some k then
        some ((strconv.ParseUint (idx (strings.Fields line) 1)).1 * 1024 % u64)
      else m k := by
  unfold memLine memKey
  by_cases h2 : (strings.Fields line).length < 2
  · have : ¬ 2 ≤ (strings.Fields line).length := by omega
    simp [h2, this]
  · have h2b : 2 ≤ (strings.Fields line).length := by omega
    simp only [h2, h2b, if_false, if_true, Option.some.injEq]
    by_cases hk : k = strings.TrimSuffix (idx (strings.Fields line) 0) (lit ":")
    · simp [hk]
    · have : ¬ strings.TrimSuffix (idx (strings.Fields line) 0) (lit ":") = k :=
        fun h => hk h.symm
      simp [hk, this]

theorem foldl_memLine (lines : List Str) (m : Str → Option Nat) (k : Str) :
    lines.foldl memLine m k =
      match (lines.filter (fun l => decide (memKey l = some k))).getLast? with
      | some l => some ((strconv.ParseUint (idx (strings.Fields l) 1)).1 * 1024 % u64)
      | none => m k := by
  induction lines using List.reverseRecOn with
  | nil => rfl
  | append_singleton ls l ih =>
    rw [List.foldl_append, List.foldl_cons, List.foldl_nil, memLine_eq, List.filter_append]
    by_cases hk : memKey l = some k
    · simp [hk, List.filter_cons]
    · simp [hk, List.filter_cons, ih]

/-- The map `memInfo` holds, for each key, the value of the last line with that key,
scaled to bytes in `uint64` arithmetic. -/
theorem memInfoOf_eq (data : Str) (k : Str) :
    memInfoOf data k =
      (memLast data k).map (fun v => (strconv.ParseUint v).1 * 1024 % u64) := by
  unfold memInfoOf memLast
  rw [foldl_memLine]
  cases ((strings.Split data '\n').filter
    (fun l => decide (memKey l = some k))).getLast? <;> rfl

theorem memFields_eq (info : Str → Option Nat) :
    (memFields info).Available = (info (lit "MemTotal")).isSome ∧
    (memFields info).TotalBytes = info (lit "MemTotal") ∧
    (memFields info).AvailableBytes = info (lit "MemAvailable") ∧
    (memFields info).BuffersBytes = info (lit "Buffers") ∧
    (memFields info).CachedBytes = info (lit "Cached") ∧
    (memFields info).SwapTotalBytes = info (lit "SwapTotal") ∧
    (memFields info).SwapCachedBytes = info (lit "SwapCached") ∧
    (memFields info).SwapUsedBytes =
      (match info (lit "SwapFree"), info (lit "SwapTotal") with
        | some swapFree, some swapTotal => some (subU64 swapTotal swapFree)
        | _, _ => none) ∧
    (memFields info).UsedBytes =
      (match info (lit "MemTotal"), info (lit "MemAvailable") with
        | some total, some avail => some (subU64 total avail)
        | _, _ => none) ∧
    (memFields info).PsiMemAvg10 = none ∧ (memFields info).PsiMemAvg60 = none ∧
    (memFields info).PsiMemAvg300 = none := by
  unfold memFields
  cases info (lit "MemTotal") <;> cases info (lit "MemAvailable") <;>
    cases info (lit "Buffers") <;> cases info (lit "Cached") <;>
    cases info (lit "SwapTotal") <;> cases info (lit "SwapFree") <;>
    cases info (lit "SwapCached") <;>
    exact ⟨rfl, rfl, rfl, rfl, rfl, rfl, rfl, rfl, rfl, rfl, rfl, rfl⟩

theorem psiPart_core (pf : Str → Option ℚ) (s : MemoryStats) (part : Str) :
    (psiPart pf s part).core = s.core := by
  unfold psiPart
  split_ifs
  · cases pf (strings.TrimPrefix part (lit "avg10=")) <;> rfl
  · cases pf (strings.TrimPrefix part (lit "avg60=")) <;> rfl
  · cases pf (strings.TrimPrefix part (lit "avg300=")) <;> rfl
  · rfl

theorem foldl_psiPart_core (pf : Str → Option ℚ) (parts : List Str) (s : MemoryStats) :
    (parts.foldl (psiPart pf) s).core = s.core := by
  induction parts generalizing s with
  | nil => rfl
  | cons p ps ih => rw [List.foldl_cons, ih, psiPart_core]

theorem collectPSI_core (pf : Str → Option ℚ) (pr : Option Str) (s : MemoryStats) :
    (collectPSI pf pr s).core = s.core := by
  cases pr with
  | none => rfl
  | some data =>
    simp only [collectPSI]
    generalize strings.Split data '\n' = lines
    induction lines generalizing s with
    | nil => rfl
    | cons l ls ih =>
      rw [List.foldl_cons, ih]
      split_ifs
      · exact foldl_psiPart_core pf _ s
      · rfl

/-- The fields of the report of `collectMemory` on a readable `meminfo`, in terms of
the last line of each key. -/
theorem collectMemory_fields (c : Collector) (data : Str) (pr : Option Str)
    (pf : Str → Option ℚ) :
    (collectMemory c (.ok data) pr pf).1.core = (memFields (memInfoOf data)).core := by
  simp only [collectMemory]
  exact collectPSI_core pf pr _

theorem collectMemory_eq (c : Collector) (data : Str) (pr : Option Str) (pf : Str → Option ℚ) :
    (collectMemory c (.ok data) pr pf).1.Available = (memInfoOf data (lit "MemTotal")).isSome ∧
    (collectMemory c (.ok data) pr pf).1.TotalBytes = memInfoOf data (lit "MemTotal") ∧
    (collectMemory c (.ok data) pr pf).1.AvailableBytes = memInfoOf data (lit "MemAvailable") ∧
    (collectMemory c (.ok data) pr pf).1.BuffersBytes = memInfoOf data (lit "Buffers") ∧
    (collectMemory c (.ok data) pr pf).1.CachedBytes = memInfoOf data (lit "Cached") ∧
    (collectMemory c (.ok data) pr pf).1.SwapTotalBytes = memInfoOf data (lit "SwapTotal") ∧
    (collectMemory c (.ok data) pr pf).1.SwapCachedBytes = memInfoOf data (lit "SwapCached") ∧
    (collectMemory c (.ok data) pr pf).1.SwapUsedBytes =
      (match memInfoOf data (lit "SwapFree"), memInfoOf data (lit "SwapTotal") with
        | some swapFree, some swapTotal => some (subU64 swapTotal swapFree)
        | _, _ => none) ∧
    (collectMemory c (.ok data) pr pf).1.UsedBytes =
      (match memInfoOf data (lit "MemTotal"), memInfoOf data (lit "MemAvailable") with
        | some total, some avail => some (subU64 total avail)
        | _, _ => none) := by
  have h := collectMemory_fields c data pr pf
  simp only [MemoryStats.core, Prod.mk.injEq] at h
  obtain ⟨h1, h2, h3, h4, h5, h6, h7, h8, h9⟩ := h
  obtain ⟨g1, g2, g3, g4, g5, g6, g7, g8, g9, _⟩ := memFields_eq (memInfoOf data)
  exact ⟨h1.trans g1, h2.trans g2, h3.trans g3, h5.trans g4, h6.trans g5, h7.trans g6,
    h9.trans g7, h8.trans g8, h4.trans g9⟩

/-- C6 (amended): when the last `MemTotal` line of a readable `meminfo` carries the
decimal numeral of `t` and the last `MemAvailable` line that of `a`, both below
`2 ^ 54` (so that the byte counts fit in 64 bits), the report has
`TotalBytes = 1024 * t`, `AvailableBytes = 1024 * a` and `UsedBytes` their 64-bit
difference, which is `1024 * t - 1024 * a` when `a ≤ t`; `UsedBytes` is absent when
either key is absent. -/
theorem collectMemory_total_available :
    (∀ (c : Collector) (data : Str) (pr : Option Str) (pf : Str → Option ℚ) (t a : Nat),
      memLast data (lit "MemTotal") = some (decimal t) →
      memLast data (lit "MemAvailable") = some (decimal a) →
      t < 2 ^ 54 → a < 2 ^ 54 →
      (collectMemory c (.ok data) pr pf).1.TotalBytes = some (1024 * t) ∧
      (collectMemory c (.ok data) pr pf).1.AvailableBytes = some (1024 * a) ∧
      (collectMemory c (.ok data) pr pf).1.UsedBytes = some (subU64 (1024 * t) (1024 * a)) ∧
      (a ≤ t → (collectMemory c (.ok data) pr pf).1.UsedBytes = some (1024 * t - 1024 * a))) ∧
    (∀ (c : Collector) (data : Str) (pr : Option Str) (pf : Str → Option ℚ),
      memLast data (lit "MemTotal") = none ∨ memLast data (lit "MemAvailable") = none →
      (collectMemory c (.ok data) pr pf).1.UsedBytes = none) := by
  constructor
  · intro c data pr pf t a ht ha htb hab
    have hpt : strconv.ParseUint (decimal t) = (t, none) := ParseUint_decimal t (by omega)
    have hpa : strconv.ParseUint (decimal a) = (a, none) := ParseUint_decimal a (by omega)
    obtain ⟨_, h2, h3, _, _, _, _, _, h9⟩ := collectMemory_eq c data pr pf
    have e1 : memInfoOf data (lit "MemTotal") = some (1024 * t) := by
      rw [memInfoOf_eq, ht]
      simp only [Option.map_some', hpt, Option.some.injEq]
      unfold u64
      rw [Nat.mod_eq_of_lt (by omega)]
      ring
    have e2 : memInfoOf data (lit "MemAvailable") = some (1024 * a) := by
      rw [memInfoOf_eq, ha]
      simp only [Option.map_some', hpa, Option.some.injEq]
      unfold u64
      rw [Nat.mod_eq_of_lt (by omega)]
      ring
    rw [e1, e2] at h9
    have h9b : (collectMemory c (.ok data) pr pf).1.UsedBytes =
        some (subU64 (1024 * t) (1024 * a)) := h9
    refine ⟨h2.trans e1, h3.trans e2, h9b, ?_⟩
    intro hle
    rw [h9b, subU64_of_le (1024 * t) (1024 * a) (by omega) (by omega)]
  · intro c data pr pf h
    obtain ⟨_, _, _, _, _, _, _, _, h9⟩ := collectMemory_eq c data pr pf
    rw [h9, memInfoOf_eq, memInfoOf_eq]
    rcases h with h | h
    · rw [h]; rfl
    · rw [h]
      cases memLast data (lit "MemTotal") <;> rfl

/-- C6 at the round-trip scenario: `MemTotal` 16777216 kB and `MemAvailable` 8388608
kB give 17179869184, 8589934592 and 8589934592 bytes. -/
theorem collectMemory_total_available_witness :
    (collectMemory freshCollector (.ok meminfoRoundTrip) none (fun _ => none)).1.TotalBytes
      = some 17179869184 ∧
    (collectMemory freshCollector (.ok meminfoRoundTrip) none (fun _ => none)).1.AvailableBytes
      = some 8589934592 ∧
    (collectMemory freshCollector (.ok meminfoRoundTrip) none (fun _ => none)).1.UsedBytes
      = some 8589934592 := by
  obtain ⟨h1, h2, _, h4⟩ := collectMemory_total_available.1 freshCollector meminfoRoundTrip none
    (fun _ => none) 16777216 8388608 (by decide) (by decide) (by decide) (by decide)
  exact ⟨h1, h2, h4 (by decide)⟩

/-- C6 as stated fails: a `MemTotal` line of `2 ^ 54` kB gives `TotalBytes = 0`, not
`1024 * 2 ^ 54` (and `UsedBytes` is then the wrapped difference); and of two
`MemTotal` lines, 5 kB then 7 kB, the report follows the last one. -/
theorem memory_scaling_counterexample :
    memLast meminfoHuge (lit "MemTotal") = some (decimal (2 ^ 54)) ∧
    strconv.ParseUint (decimal (2 ^ 54)) = (2 ^ 54, none) ∧
    (collectMemory freshCollector (.ok meminfoHuge) none (fun _ => none)).1.TotalBytes = some 0 ∧
    (collectMemory freshCollector (.ok meminfoHuge) none (fun _ => none)).1.TotalBytes
      ≠ some (1024 * 2 ^ 54) ∧
    (collectMemory freshCollector (.ok meminfoHuge) none (fun _ => none)).1.UsedBytes
      = some (2 ^ 64 - 8589934592) ∧
    lit "MemTotal:       5 kB" ∈ strings.Split meminfoRepeated '\n' ∧
    memLast meminfoRepeated (lit "MemTotal") = some (decimal 7) ∧
    (collectMemory freshCollector (.ok meminfoRepeated) none (fun _ => none)).1.TotalBytes
      = some 7168 := by
  refine ⟨by decide, by decide, by decide, by decide, by decide, by decide, by decide,
    by decide⟩

theorem logError_errors (c : Collector) (a b : Str) :
    (logError c a b).errors = c.errors ++ [errorEntry a b] := by
  simp only [logError, errorEntry]
  split_ifs <;> rfl

theorem logError_log (c : Collector) (a b : Str) :
    (logError c a b).logOutput =
      c.logOutput ++ (if c.loggedErrors (errorKey a b) = true then [] else [warningLine a b]) := by
  simp only [logError, errorKey, warningLine]
  cases h : c.loggedErrors (a ++ lit ":" ++ b) <;> simp

theorem logError_memo (c : Collector) (a b : Str) (k : Str) :
    (logError c a b).loggedErrors k = (decide (k = errorKey a b) || c.loggedErrors k) := by
  simp only [logError, errorKey]
  cases h : c.loggedErrors (a ++ lit ":" ++ b)
  · by_cases hk : k = a ++ lit ":" ++ b <;> simp [hk]
  · by_cases hk : k = a ++ lit ":" ++ b
    · subst hk
      simp only [Bool.not_true, Bool.false_eq_true, if_false, h, decide_True, Bool.or_self]
    · simp only [Bool.not_true, Bool.false_eq_true, if_false, hk, decide_False, Bool.false_or]

theorem collectCPU_errors (c : Collector) (stat : Except Str Str) (now : Int)
    (ci la : Option Str) (pf : Str → Option ℚ) :
    (collectCPU c stat now ci la pf).2.errors =
      c.errors ++
        (match stat with
          | .error e => [errorEntry (lit "cpu") (lit "failed to read /proc/stat: " ++ e)]
          | .ok _ => []) := by
  cases stat with
  | error e => exact logError_errors _ _ _
  | ok data =>
    simp only [collectCPU, cpuStatBlock, List.append_nil]
    cases cpuLine data <;> rfl

theorem collectMemory_errors (c : Collector) (meminfo : Except Str Str) (pr : Option Str)
    (pf : Str → Option ℚ) :
    (collectMemory c meminfo pr pf).2.errors =
      c.errors ++
        (match meminfo with
          | .error e => [errorEntry (lit "memory") (lit "failed to read /proc/meminfo: " ++ e)]
          | .ok _ => []) := by
  cases meminfo with
  | error e => exact logError_errors _ _ _
  | ok data => simp [collectMemory]

theorem collectDiskDevices_errors (c : Collector) (file : Except Str Str) (now : Int) :
    (collectDiskDevices c file now).2.errors =
      c.errors ++
        (match file with
          | .error e => [errorEntry (lit "disk") (lit "failed to read /proc/diskstats: " ++ e)]
          | .ok _ => []) := by
  cases file with
  | error e => exact logError_errors _ _ _
  | ok data => simp [collectDiskDevices]

theorem collectFilesystems_errors (c : Collector) (mounts : Except Str Str)
    (statfs : Str → Option Statfs_t) (apply : Bool) :
    (collectFilesystems c mounts statfs apply).2.errors =
      c.errors ++
        (match mounts with
          | .error e => [errorEntry (lit "filesystem") (lit "failed to read /proc/mounts: " ++ e)]
          | .ok _ => []) := by
  cases mounts with
  | error e => exact logError_errors _ _ _
  | ok data => simp [collectFilesystems]

theorem collectNetwork_errors (c : Collector) (file : Except Str Str) (now : Int)
    (mac : Str → Option Str) :
    (collectNetwork c file now mac).2.errors =
      c.errors ++
        (match file with
          | .error e => [errorEntry (lit "network") (lit "failed to read /proc/net/dev: " ++ e)]
          | .ok _ => []) := by
  cases file with
  | error e => exact logError_errors _ _ _
  | ok data => simp [collectNetwork]

theorem Collect_errors (c : Collector) (env : Env) :
    (Collect c env).2.errors = readErrors env := by
  simp only [Collect, collectDisk, collectNetwork_errors, collectFilesystems_errors,
    collectDiskDevices_errors, collectMemory_errors, collectCPU_errors, readErrors,
    List.nil_append, List.append_assoc]

/-- C8: the `Errors` of the document of a pass are exactly the entries recorded in
that pass, one for each file that could not be read, in the order of the
collectors; they do not depend on the errors left by an earlier pass, and the list
is attached iff it is not empty. -/
theorem Collect_errors_of_pass (c : Collector) (env : Env) :
    (Collect c env).2.errors = readErrors env ∧
    (Collect c env).1.Errors = (if readErrors env = [] then none else some (readErrors env)) ∧
    ((Collect c env).1.Errors ≠ none ↔ readErrors env ≠ []) ∧
    (∀ c2 : Collector, (Collect c2 env).1.Errors = (Collect c env).1.Errors) := by
  have key : ∀ c3 : Collector, (Collect c3 env).1.Errors =
      (if readErrors env = [] then none else some (readErrors env)) := by
    intro c3
    have h2 : (Collect c3 env).1.Errors =
        (if (Collect c3 env).2.errors.length > 0 then some (Collect c3 env).2.errors
          else none) := rfl
    rw [Collect_errors] at h2
    rw [h2]
    cases readErrors env <;> simp
  refine ⟨Collect_errors c env, key c, ?_, fun c2 => (key c2).trans (key c).symm⟩
  rw [key c]
  cases readErrors env <;> simp

theorem quietFor_refl (L : Str) (c : Collector) : quietFor L c c := ⟨rfl, fun _ h => h⟩

theorem quietFor_trans (L : Str) (c1 c2 c3 : Collector) (h12 : quietFor L c1 c2)
    (h23 : quietFor L c2 c3) : quietFor L c1 c3 :=
  ⟨h23.1.trans h12.1, fun k h => h23.2 k (h12.2 k h)⟩

theorem logError_quiet (L : Str) (c : Collector) (a b : Str) (hne : warningLine a b ≠ L)
    : quietFor L c (logError c a b) := by
  constructor
  · rw [logError_log]
    split_ifs
    · simp
    · rw [List.count_append]
      simp [List.count_cons, hne]
  · intro k hk
    rw [logError_memo, hk]
    simp

theorem cpuLine_ne (comp m e : Str) (hc : comp.head? ≠ some 'c') :
    warningLine comp m ≠ warningLine (lit "cpu") e := by
  intro h
  cases comp with
  | nil => simp [warningLine, lit] at h
  | cons x xs =>
    simp only [warningLine, lit] at h
    have h9 := congrArg (fun l => l.drop 9) h
    simp only [String.toList, List.append_assoc, List.cons_append, List.drop_succ_cons,
      List.drop_zero, List.nil_append] at h9
    have hx := (List.cons.inj h9).1
    apply hc
    simp [hx]

theorem collectMemory_quiet (e : Str) (c : Collector) (meminfo : Except Str Str)
    (pr : Option Str) (pf : Str → Option ℚ) :
    quietFor (warningLine (lit "cpu") e) c (collectMemory c meminfo pr pf).2 := by
  cases meminfo with
  | error x => exact logError_quiet _ _ _ _ (cpuLine_ne _ _ _ (by decide))
  | ok data => exact quietFor_refl _ _

theorem collectDisk_quiet (e : Str) (c : Collector) (diskstats : Except Str Str) (now : Int)
    (mounts : Except Str Str) (statfs : Str → Option Statfs_t) (apply : Bool) :
    quietFor (warningLine (lit "cpu") e) c
      (collectDisk c diskstats now mounts statfs apply).2 := by
  have h1 : quietFor (warningLine (lit "cpu") e) c (collectDiskDevices c diskstats now).2 := by
    cases diskstats with
    | error x => exact logError_quiet _ _ _ _ (cpuLine_ne _ _ _ (by decide))
    | ok data => exact quietFor_refl _ _
  have h2 : quietFor (warningLine (lit "cpu") e) (collectDiskDevices c diskstats now).2
      (collectFilesystems (collectDiskDevices c diskstats now).2 mounts statfs apply).2 := by
    cases mounts with
    | error x => exact logError_quiet _ _ _ _ (cpuLine_ne _ _ _ (by decide))
    | ok data => exact quietFor_refl _ _
  exact quietFor_trans _ _ _ _ h1 h2

theorem collectNetwork_quiet (e : Str) (c : Collector) (file : Except Str Str) (now : Int)
    (mac : Str → Option Str) :
    quietFor (warningLine (lit "cpu") e) c (collectNetwork c file now mac).2 := by
  cases file with
  | error x => exact logError_quiet _ _ _ _ (cpuLine_ne _ _ _ (by decide))
  | ok data => exact quietFor_refl _ _

/-- The log and the memo after a pass whose `stat` file cannot be read. -/
theorem Collect_unreadable_stat (c : Collector) (env : Env) (e : Str)
    (h : env.stat = .error e) :
    (Collect c env).2.logOutput.count (warningLine (lit "cpu") (lit "failed to read /proc/stat: " ++ e))
      = c.logOutput.count (warningLine (lit "cpu") (lit "failed to read /proc/stat: " ++ e)) +
        (if c.loggedErrors (errorKey (lit "cpu") (lit "failed to read /proc/stat: " ++ e)) = true
          then 0 else 1) ∧
    (Collect c env).2.loggedErrors (errorKey (lit "cpu") (lit "failed to read /proc/stat: " ++ e))
      = true := by
  have hq := quietFor_trans _ _ _ _
    (quietFor_trans _ _ _ _
      (collectMemory_quiet (lit "failed to read /proc/stat: " ++ e)
        (collectCPU { c with errors := [] } env.stat env.nowCPU env.cpuinfo env.loadavg
          env.parseFloat).2 env.meminfo env.pressure env.parseFloat)
      (collectDisk_quiet (lit "failed to read /proc/stat: " ++ e) _ env.diskstats env.nowDisk
        env.mounts env.statfs env.applyFix))
    (collectNetwork_quiet (lit "failed to read /proc/stat: " ++ e) _ env.netdev env.nowNet
      env.macFile)
  have hcol : (Collect c env).2 =
      (collectNetwork
        (collectDisk
          (collectMemory
            (collectCPU { c with errors := [] } env.stat env.nowCPU env.cpuinfo env.loadavg
              env.parseFloat).2 env.meminfo env.pressure env.parseFloat).2
          env.diskstats env.nowDisk env.mounts env.statfs env.applyFix).2
        env.netdev env.nowNet env.macFile).2 := rfl
  have hc : (collectCPU { c with errors := [] } env.stat env.nowCPU env.cpuinfo env.loadavg
      env.parseFloat).2 =
      logError { c with errors := [] } (lit "cpu") (lit "failed to read /proc/stat: " ++ e) := by
    rw [h]; rfl
  rw [hcol]
  rw [hc] at hq ⊢
  constructor
  · rw [hq.1, logError_log]
    split_ifs with hl
    · simp
    · rw [List.count_append, List.count_singleton_self]
  · apply hq.2
    rw [logError_memo]
    simp

/-- C7: when the `stat` file cannot be read, with the same error, in two consecutive
passes, and the pair was not logged before, the warning line is written to the log
once, in the first pass, and the entry `cpu: failed to read /proc/stat: ...` is in
the `Errors` of both documents. -/
theorem same_error_logged_once (c : Collector) (env1 env2 : Env) (e : Str)
    (h1 : env1.stat = .error e) (h2 : env2.stat = .error e)
    (hnew : c.loggedErrors (errorKey (lit "cpu") (lit "failed to read /proc/stat: " ++ e))
      = false) :
    (Collect c env1).2.logOutput.count
        (warningLine (lit "cpu") (lit "failed to read /proc/stat: " ++ e)) =
      c.logOutput.count (warningLine (lit "cpu") (lit "failed to read /proc/stat: " ++ e)) + 1 ∧
    (Collect (Collect c env1).2 env2).2.logOutput.count
        (warningLine (lit "cpu") (lit "failed to read /proc/stat: " ++ e)) =
      (Collect c env1).2.logOutput.count
        (warningLine (lit "cpu") (lit "failed to read /proc/stat: " ++ e)) ∧
    (∃ errs, (Collect c env1).1.Errors = some errs ∧
      errorEntry (lit "cpu") (lit "failed to read /proc/stat: " ++ e) ∈ errs) ∧
    (∃ errs, (Collect (Collect c env1).2 env2).1.Errors = some errs ∧
      errorEntry (lit "cpu") (lit "failed to read /proc/stat: " ++ e) ∈ errs) := by
  obtain ⟨a1, a2⟩ := Collect_unreadable_stat c env1 e h1
  obtain ⟨b1, _⟩ := Collect_unreadable_stat (Collect c env1).2 env2 e h2
  have herr : ∀ (c3 : Collector) (env : Env), env.stat = .error e →
      ∃ errs, (Collect c3 env).1.Errors = some errs ∧
        errorEntry (lit "cpu") (lit "failed to read /proc/stat: " ++ e) ∈ errs := by
    intro c3 env hs
    have h2 : (Collect c3 env).1.Errors =
        (if (Collect c3 env).2.errors.length > 0 then some (Collect c3 env).2.errors
          else none) := rfl
    rw [Collect_errors] at h2
    have hmem : errorEntry (lit "cpu") (lit "failed to read /proc/stat: " ++ e) ∈
        readErrors env := by
      simp [readErrors, hs]
    have hpos : (readErrors env).length > 0 := List.length_pos_of_mem hmem
    rw [if_pos hpos] at h2
    exact ⟨_, h2, hmem⟩
  refine ⟨?_, ?_, herr c env1 h1, herr _ env2 h2⟩
  · rw [a1, hnew]; simp
  · rw [b1, a2]; simp

/-- C7 at two passes of a new collector in an environment where nothing can be read:
one warning line for the CPU in the log after the first pass and after the second. -/
theorem same_error_logged_once_witness :
    (Collect freshCollector emptyEnv).2.logOutput.count
        (warningLine (lit "cpu") (lit "failed to read /proc/stat: no such file")) = 1 ∧
    (Collect (Collect freshCollector emptyEnv).2 emptyEnv).2.logOutput.count
        (warningLine (lit "cpu") (lit "failed to read /proc/stat: no such file")) = 1 ∧
    (∃ errs, (Collect freshCollector emptyEnv).1.Errors = some errs ∧
      lit "cpu: failed to read /proc/stat: no such file" ∈ errs) ∧
    (∃ errs, (Collect (Collect freshCollector emptyEnv).2 emptyEnv).1.Errors = some errs ∧
      lit "cpu: failed to read /proc/stat: no such file" ∈ errs) := by
  obtain ⟨h1, h2, h3, h4⟩ := same_error_logged_once freshCollector emptyEnv emptyEnv
    (lit "no such file") rfl rfl rfl
  exact ⟨h1, h2.trans h1, h3, h4⟩

/-- C9 (amended): in the memory report of a readable `meminfo`, `Available` is true
iff `TotalBytes` is present, that is iff some line of the input has the key
`MemTotal`; the other numeric fields do not set it. -/
theorem collectMemory_available (c : Collector) (data : Str) (pr : Option Str)
    (pf : Str → Option ℚ) :
    ((collectMemory c (.ok data) pr pf).1.Available = true ↔
      (collectMemory c (.ok data) pr pf).1.TotalBytes ≠ none) ∧
    ((collectMemory c (.ok data) pr pf).1.Available = true ↔
      ∃ l ∈ strings.Split data '\n', memKey l = some (lit "MemTotal")) := by
  obtain ⟨h1, h2, _⟩ := collectMemory_eq c data pr pf
  rw [h1, h2]
  constructor
  · cases memInfoOf data (lit "MemTotal") <;> simp
  · rw [memInfoOf_eq, memLast]
    cases hl : ((strings.Split data '\n').filter
      (fun l => decide (memKey l = some (lit "MemTotal")))).getLast? with
    | none =>
      rw [List.getLast?_eq_none_iff] at hl
      simp only [Option.map_none', Option.isSome_none, Bool.false_eq_true, false_iff, not_exists,
        not_and]
      intro l hl2 hk
      have : l ∈ (strings.Split data '\n').filter
          (fun l => decide (memKey l = some (lit "MemTotal"))) :=
        List.mem_filter.2 ⟨hl2, by simpa using hk⟩
      rw [hl] at this
      cases this
    | some l =>
      have hm := List.mem_of_getLast?_eq_some hl
      rw [List.mem_filter] at hm
      simp only [Option.map_some', Option.isSome_some, true_iff]
      exact ⟨l, hm.1, by simpa using hm.2⟩

/-- C9 as stated fails: on a `meminfo` with `MemAvailable` and `Buffers` but no
`MemTotal`, `AvailableBytes` and `BuffersBytes` are present and `Available` is
false. -/
theorem memory_available_counterexample :
    (collectMemory freshCollector (.ok meminfoNoTotal) none (fun _ => none)).1.AvailableBytes
      = some 8589934592 ∧
    (collectMemory freshCollector (.ok meminfoNoTotal) none (fun _ => none)).1.BuffersBytes
      = some 102400 ∧
    (collectMemory freshCollector (.ok meminfoNoTotal) none (fun _ => none)).1.Available
      = false := by
  refine ⟨by decide, by decide, by decide⟩

theorem cpuStatBlock_available (c : Collector) (data : Str) (now : Int) :
    ((cpuStatBlock c data now).1.Available = true ↔
      (cpuStatBlock c data now).1.UsagePercent ≠ none) ∧
    ((cpuStatBlock c data now).1.Available = true ↔
      (cpuStatBlock c data now).1.IowaitPercent ≠ none) ∧
    ((cpuStatBlock c data now).1.Available = true ↔
      (cpuStatBlock c data now).1.StealPercent ≠ none) := by
  unfold cpuStatBlock
  cases cpuLine data with
  | none => simp
  | some k =>
    rcases cpuRates_cases c.prevCPU k with h | ⟨p, _, _, h⟩
    · simp [h]
    · simp [h]

/-- C10 (amended): in the CPU report, `Available` is true iff `UsagePercent` is
present, iff `IowaitPercent` is present, iff `StealPercent` is present (the three
are set together with the flag); the core count and the load averages do not set
it. -/
theorem collectCPU_available (c : Collector) (stat : Except Str Str) (now : Int)
    (ci la : Option Str) (pf : Str → Option ℚ) :
    ((collectCPU c stat now ci la pf).1.Available = true ↔
      (collectCPU c stat now ci la pf).1.UsagePercent ≠ none) ∧
    ((collectCPU c stat now ci la pf).1.Available = true ↔
      (collectCPU c stat now ci la pf).1.IowaitPercent ≠ none) ∧
    ((collectCPU c stat now ci la pf).1.Available = true ↔
      (collectCPU c stat now ci la pf).1.StealPercent ≠ none) := by
  cases stat with
  | error e => simp [collectCPU]
  | ok data =>
    obtain ⟨h1, h2, h3, h4⟩ := collectCPU_rates c data now ci la pf
    rw [h1, h2, h3, h4]
    exact cpuStatBlock_available c data now

/-- C10 as stated fails: in the first pass of a new collector over readable `stat`
and `cpuinfo` files, `CoreCount` is present and `Available` is false. -/
theorem cpu_available_counterexample :
    (collectCPU freshCollector (.ok cpuTextA) 0 (some cpuinfoTwo) none (fun _ => none)).1.CoreCount
      = some 2 ∧
    (collectCPU freshCollector (.ok cpuTextA) 0 (some cpuinfoTwo) none (fun _ => none)).1.Available
      = false := by
  refine ⟨by decide, by decide⟩

theorem parseUintLoop_notNumber (s : Str) (n : Nat)
    (h : (strconv.parseUintLoop s n).2 = some strconv.NumError.ErrSyntax) :
    (strconv.parseUintLoop s n).1 = 0 := by
  induction s generalizing n with
  | nil => simp [strconv.parseUintLoop] at h
  | cons c cs ih =>
    simp only [strconv.parseUintLoop] at h ⊢
    split_ifs at h ⊢ with h1 h2 h3
    · simp at h
    · simp at h
    · exact ih _ h
    · rfl

theorem ParseUint_notNumber (s : Str)
    (h : (strconv.ParseUint s).2 = some strconv.NumError.ErrSyntax) :
    (strconv.ParseUint s).1 = 0 := by
  unfold strconv.ParseUint at h ⊢
  split_ifs at h ⊢
  · rfl
  · exact parseUintLoop_notNumber s 0 h

theorem memLast_none_iff (data key : Str) : memLast data key = none ↔ ¬ memHasKey data key := by
  unfold memLast memHasKey
  rw [Option.map_eq_none', List.getLast?_eq_none_iff, List.filter_eq_nil_iff]
  simp

theorem memInfoOf_none_iff (data key : Str) :
    memInfoOf data key = none ↔ ¬ memHasKey data key := by
  rw [memInfoOf_eq, Option.map_eq_none', memLast_none_iff]

theorem memInfoOf_isSome_iff (data key : Str) :
    (∃ v, memInfoOf data key = some v) ↔ memHasKey data key := by
  rw [← Option.isSome_iff_exists, ← not_iff_not, ← memInfoOf_none_iff]
  cases memInfoOf data key <;> simp

/-- C20: in the memory report of a readable `meminfo`, `SwapUsedBytes` is present
exactly when both the `SwapTotal` and the `SwapFree` key occur in the text; it is
then the 64-bit difference of the two byte counts (each the value of the last line
with the key, times 1024), which for numerals `f ≤ t` below `2 ^ 54` is
`1024 * t - 1024 * f`. For each of `MemTotal`, `MemAvailable`, `Buffers`, `Cached`,
`SwapTotal` and `SwapCached`, when the key does not occur the output field is absent. -/
theorem collectMemory_swap_and_absent (c : Collector) (data : Str) (pr : Option Str)
    (pf : Str → Option ℚ) :
    ((∃ u, (collectMemory c (.ok data) pr pf).1.SwapUsedBytes = some u) ↔
      memHasKey data (lit "SwapTotal") ∧ memHasKey data (lit "SwapFree")) ∧
    (∀ vt vf : Str, memLast data (lit "SwapTotal") = some vt →
      memLast data (lit "SwapFree") = some vf →
      (collectMemory c (.ok data) pr pf).1.SwapUsedBytes =
        some (subU64 ((strconv.ParseUint vt).1 * 1024 % u64)
          ((strconv.ParseUint vf).1 * 1024 % u64))) ∧
    (∀ t f : Nat, memLast data (lit "SwapTotal") = some (decimal t) →
      memLast data (lit "SwapFree") = some (decimal f) → t < 2 ^ 54 → f ≤ t →
      (collectMemory c (.ok data) pr pf).1.SwapUsedBytes = some (1024 * t - 1024 * f)) ∧
    (¬ memHasKey data (lit "MemTotal") →
      (collectMemory c (.ok data) pr pf).1.TotalBytes = none) ∧
    (¬ memHasKey data (lit "MemAvailable") →
      (collectMemory c (.ok data) pr pf).1.AvailableBytes = none) ∧
    (¬ memHasKey data (lit "Buffers") →
      (collectMemory c (.ok data) pr pf).1.BuffersBytes = none) ∧
    (¬ memHasKey data (lit "Cached") →
      (collectMemory c (.ok data) pr pf).1.CachedBytes = none) ∧
    (¬ memHasKey data (lit "SwapTotal") →
      (collectMemory c (.ok data) pr pf).1.SwapTotalBytes = none) ∧
    (¬ memHasKey data (lit "SwapCached") →
      (collectMemory c (.ok data) pr pf).1.SwapCachedBytes = none) ∧
    (collectMemory freshCollector (.ok meminfoSwap) none (fun _ => none)).1.SwapUsedBytes
      = some 1073741824 ∧
    (collectMemory freshCollector (.ok meminfoSwap) none (fun _ => none)).1.BuffersBytes
      = none := by
  obtain ⟨_, h2, h3, h4, h5, h6, h7, h8, _⟩ := collectMemory_eq c data pr pf
  have hsw : ∀ vt vf : Str, memLast data (lit "SwapTotal") = some vt →
      memLast data (lit "SwapFree") = some vf →
      (collectMemory c (.ok data) pr pf).1.SwapUsedBytes =
        some (subU64 ((strconv.ParseUint vt).1 * 1024 % u64)
          ((strconv.ParseUint vf).1 * 1024 % u64)) := by
    intro vt vf ht hf
    rw [h8, memInfoOf_eq, memInfoOf_eq, ht, hf]
    rfl
  refine ⟨?_, hsw, ?_, ?_, ?_, ?_, ?_, ?_, ?_, by decide, by decide⟩
  · rw [h8, ← memInfoOf_isSome_iff, ← memInfoOf_isSome_iff]
    cases memInfoOf data (lit "SwapFree") <;> cases memInfoOf data (lit "SwapTotal") <;> simp
  · intro t f ht hf hlt hle
    rw [hsw _ _ ht hf, ParseUint_decimal t (by omega), ParseUint_decimal f (by omega)]
    have e1 : t * 1024 % u64 = 1024 * t := by
      unfold u64; rw [Nat.mod_eq_of_lt (by omega)]; omega
    have e2 : f * 1024 % u64 = 1024 * f := by
      unfold u64; rw [Nat.mod_eq_of_lt (by omega)]; omega
    simp only [e1, e2]
    rw [subU64_of_le _ _ (by omega) (by omega)]
  · intro h; rw [h2]; exact (memInfoOf_none_iff _ _).2 h
  · intro h; rw [h3]; exact (memInfoOf_none_iff _ _).2 h
  · intro h; rw [h4]; exact (memInfoOf_none_iff _ _).2 h
  · intro h; rw [h5]; exact (memInfoOf_none_iff _ _).2 h
  · intro h; rw [h6]; exact (memInfoOf_none_iff _ _).2 h
  · intro h; rw [h7]; exact (memInfoOf_none_iff _ _).2 h

theorem subU64_cast (a b : Nat) :
    ((subU64 a b : Nat) : Int) = ((a : Int) - (b : Int)) % (2 : Int) ^ 64 := by
  unfold subU64
  exact Int.toNat_of_nonneg (Int.emod_nonneg _ (by norm_num))

theorem subU64_total (k k0 : cpuCounters) :
    subU64 k.total k0.total =
      (subU64 k.user k0.user + subU64 k.nice k0.nice + subU64 k.system k0.system +
        subU64 k.idle k0.idle + subU64 k.iowait k0.iowait + subU64 k.irq k0.irq +
        subU64 k.softirq k0.softirq + subU64 k.steal k0.steal) % u64 := by
  apply Int.ofNat_inj.1
  have hu : ((u64 : Nat) : Int) = (2 : Int) ^ 64 := by unfold u64; norm_num
  rw [subU64_cast, Int.natCast_mod, hu]
  simp only [cpuCounters.total, Int.natCast_mod, hu, Nat.cast_add, subU64_cast]
  change Int.ModEq ((2 : Int) ^ 64) _ _
  have e : ∀ x : Int, Int.ModEq ((2 : Int) ^ 64) (x % (2 : Int) ^ 64) x := fun x =>
    Int.mod_modEq x _
  refine ((e _).sub (e _)).trans ?_
  refine Int.ModEq.trans ?_ ((((((((e _).add (e _)).add (e _)).add (e _)).add (e _)).add
    (e _)).add (e _)).add (e _)).symm
  have : ((k.user : Int) + k.nice + k.system + k.idle + k.iowait + k.irq + k.softirq + k.steal) -
      ((k0.user : Int) + k0.nice + k0.system + k0.idle + k0.iowait + k0.irq + k0.softirq +
        k0.steal) =
      ((k.user : Int) - k0.user) + (k.nice - k0.nice) + (k.system - k0.system) +
        (k.idle - k0.idle) + (k.iowait - k0.iowait) + (k.irq - k0.irq) +
        (k.softirq - k0.softirq) + (k.steal - k0.steal) := by ring
  rw [this]

theorem subU64_total_of_le (k k0 : cpuCounters) (hs : k.sum < 2 ^ 64)
    (h1 : k0.user ≤ k.user) (h2 : k0.nice ≤ k.nice) (h3 : k0.system ≤ k.system)
    (h4 : k0.idle ≤ k.idle) (h5 : k0.iowait ≤ k.iowait) (h6 : k0.irq ≤ k.irq)
    (h7 : k0.softirq ≤ k.softirq) (h8 : k0.steal ≤ k.steal) :
    subU64 k.total k0.total =
      (k.user - k0.user) + (k.nice - k0.nice) + (k.system - k0.system) + (k.idle - k0.idle) +
        (k.iowait - k0.iowait) + (k.irq - k0.irq) + (k.softirq - k0.softirq) +
        (k.steal - k0.steal) := by
  have e1 : k.total = k.sum := by
    unfold cpuCounters.total u64
    exact Nat.mod_eq_of_lt hs
  have hle : k0.sum ≤ k.sum := by
    unfold cpuCounters.sum; omega
  have e0 : k0.total = k0.sum := by
    unfold cpuCounters.total u64
    exact Nat.mod_eq_of_lt (lt_of_le_of_lt hle hs)
  rw [e1, e0, subU64_of_le _ _ hle hs]
  unfold cpuCounters.sum
  omega

theorem cpuStatBlock_rates (c : Collector) (data : Str) (now : Int) (k : cpuCounters)
    (hk : cpuLine data = some k) :
    (cpuStatBlock c data now).1 = cpuRates c.prevCPU k { Available := false } := by
  simp only [cpuStatBlock, hk]

/-- C18: when `stat` is readable and its `cpu` line parses to the reading `k`, each of
`UsagePercent`, `IowaitPercent` and `StealPercent` is present exactly when a previous
CPU snapshot `p` exists and `delta_total > 0`, where `delta_total` is the 64-bit
difference of the totals; it is the sum (in 64-bit unsigned arithmetic) of the deltas
of the eight fields, and their plain sum when no counter decreased and the sum of the
reading fits in 64 bits. When present the three equal
`(delta_total - delta_idle) / delta_total * 100`, `delta_iowait / delta_total * 100`
and `delta_steal / delta_total * 100`. With no previous snapshot all three are absent
and `Available` is false. -/
theorem collectCPU_percentages (c : Collector) (data : Str) (now : Int) (ci la : Option Str)
    (pf : Str → Option ℚ) (k : cpuCounters) (hk : cpuLine data = some k) :
    (((∃ u, (collectCPU c (.ok data) now ci la pf).1.UsagePercent = some u) ↔
        ∃ p, c.prevCPU = some p ∧ 0 < deltaU64 k.total p.total) ∧
      ((∃ u, (collectCPU c (.ok data) now ci la pf).1.IowaitPercent = some u) ↔
        ∃ p, c.prevCPU = some p ∧ 0 < deltaU64 k.total p.total) ∧
      ((∃ u, (collectCPU c (.ok data) now ci la pf).1.StealPercent = some u) ↔
        ∃ p, c.prevCPU = some p ∧ 0 < deltaU64 k.total p.total)) ∧
    (∀ p, c.prevCPU = some p → 0 < deltaU64 k.total p.total →
      (collectCPU c (.ok data) now ci la pf).1.UsagePercent =
        some ((deltaU64 k.total p.total - deltaU64 k.idle p.idle) /
          deltaU64 k.total p.total * 100) ∧
      (collectCPU c (.ok data) now ci la pf).1.IowaitPercent =
        some (deltaU64 k.iowait p.iowait / deltaU64 k.total p.total * 100) ∧
      (collectCPU c (.ok data) now ci la pf).1.StealPercent =
        some (deltaU64 k.steal p.steal / deltaU64 k.total p.total * 100)) ∧
    (c.prevCPU = none →
      (collectCPU c (.ok data) now ci la pf).1.UsagePercent = none ∧
      (collectCPU c (.ok data) now ci la pf).1.IowaitPercent = none ∧
      (collectCPU c (.ok data) now ci la pf).1.StealPercent = none ∧
      (collectCPU c (.ok data) now ci la pf).1.Available = false) ∧
    (∀ (t : Int) (k0 : cpuCounters), c.prevCPU = some (cpuSnap t k0) →
      deltaU64 k.total (cpuSnap t k0).total =
        (((subU64 k.user k0.user + subU64 k.nice k0.nice + subU64 k.system k0.system +
          subU64 k.idle k0.idle + subU64 k.iowait k0.iowait + subU64 k.irq k0.irq +
          subU64 k.softirq k0.softirq + subU64 k.steal k0.steal) % u64 : Nat) : ℚ) ∧
      (k.sum < 2 ^ 64 → k0.user ≤ k.user → k0.nice ≤ k.nice → k0.system ≤ k.system →
        k0.idle ≤ k.idle → k0.iowait ≤ k.iowait → k0.irq ≤ k.irq → k0.softirq ≤ k.softirq →
        k0.steal ≤ k.steal →
        deltaU64 k.total (cpuSnap t k0).total =
          (((k.user - k0.user) + (k.nice - k0.nice) + (k.system - k0.system) +
            (k.idle - k0.idle) + (k.iowait - k0.iowait) + (k.irq - k0.irq) +
            (k.softirq - k0.softirq) + (k.steal - k0.steal) : Nat) : ℚ))) := by
  obtain ⟨g1, g2, g3, g4⟩ := collectCPU_rates c data now ci la pf
  rw [cpuStatBlock_rates c data now k hk] at g1 g2 g3 g4
  rw [g1, g2, g3, g4]
  refine ⟨?_, ?_, ?_, ?_⟩
  · rcases cpuRates_cases c.prevCPU k with h | ⟨p, hp, hpos, h⟩
    · rw [h]
      have hno : ¬ ∃ p, c.prevCPU = some p ∧ 0 < deltaU64 k.total p.total := by
        rintro ⟨p, hp, hpos⟩
        have := congrArg CPUStats.Available h
        rw [hp] at this
        simp [cpuRates, hpos] at this
      simp [hno]
    · rw [h]
      have hyes : ∃ p, c.prevCPU = some p ∧ 0 < deltaU64 k.total p.total := ⟨p, hp, hpos⟩
      simp [hyes]
  · intro p hp hpos
    rw [hp]
    simp [cpuRates, hpos]
  · intro hn
    rw [hn]
    exact ⟨rfl, rfl, rfl, rfl⟩
  · intro t k0 _
    refine ⟨?_, ?_⟩
    · show ((subU64 k.total k0.total : Nat) : ℚ) = _
      rw [subU64_total]
    · intro hs h1 h2 h3 h4 h5 h6 h7 h8
      show ((subU64 k.total k0.total : Nat) : ℚ) = _
      rw [subU64_total_of_le k k0 hs h1 h2 h3 h4 h5 h6 h7 h8]

/-- C18 at concrete inputs: after a pass over `cpuTextA`, a pass over `cpuTextGrown`
reports `UsagePercent = (269 - 200) / 269 * 100`, and the first pass reports none. -/
theorem collectCPU_percentages_witness :
    cpuLine cpuTextGrown = some
      { user := 150, nice := 1, system := 60, idle := 1000, iowait := 25, irq := 1,
        softirq := 6, steal := 1 } ∧
    (collectCPU (collectCPU freshCollector (.ok cpuTextA) 0 none none (fun _ => none)).2
      (.ok cpuTextGrown) 1000000000 none none (fun _ => none)).1.UsagePercent
      = some ((269 - 200) / 269 * 100) := by
  refine ⟨by decide, ?_⟩
  have h := (collectCPU_percentages
    (collectCPU freshCollector (.ok cpuTextA) 0 none none (fun _ => none)).2
    cpuTextGrown 1000000000 none none (fun _ => none)
    { user := 150, nice := 1, system := 60, idle := 1000, iowait := 25, irq := 1,
      softirq := 6, steal := 1 } (by decide)).2.1
    { timestamp := 0, total := 975, idle := 800, iowait := 20, steal := 0 } (by decide)
  have e1 : deltaU64 (cpuCounters.total
      { user := 150, nice := 1, system := 60, idle := 1000, iowait := 25, irq := 1,
        softirq := 6, steal := 1 }) 975 = 269 := by
    have : subU64 (cpuCounters.total
      { user := 150, nice := 1, system := 60, idle := 1000, iowait := 25, irq := 1,
        softirq := 6, steal := 1 }) 975 = 269 := by decide
    simp only [deltaU64, this]; norm_num
  have e2 : deltaU64 1000 800 = 200 := by
    have : subU64 1000 800 = 200 := by decide
    simp only [deltaU64, this]; norm_num
  simp only [e1, e2] at h
  exact (h (by norm_num)).1

/-- The first pass keeps, for each mount point, the first retained record: the state
after the lines `ls` has seen exactly the mount points of the retained records, and
its entries are those of the retained records not preceded by a retained record
with the same mount point. -/
theorem foldl_mountLine_first (statfs : Str → Option Statfs_t) (ls : List Str) :
    (∀ k, (ls.foldl (mountLine statfs) (fun _ => false, [])).1 k = true ↔
      ∃ x ∈ ls, mountRetained x ∧ idx (strings.Fields x) 1 = k) ∧
    (∀ e, e ∈ (ls.foldl (mountLine statfs) (fun _ => false, [])).2 ↔
      ∃ pre l post, ls = pre ++ l :: post ∧ mountRetained l ∧
        (∀ x ∈ pre, mountRetained x → idx (strings.Fields x) 1 ≠ idx (strings.Fields l) 1) ∧
        e = mountEntryOf statfs l) := by
  induction ls using List.reverseRecOn with
  | nil => simp
  | append_singleton ls a ih =>
    obtain ⟨ihs, ihe⟩ := ih
    rw [List.foldl_append, List.foldl_cons, List.foldl_nil, mountLine_eq]
    by_cases hc : mountRetained a ∧
        (ls.foldl (mountLine statfs) (fun _ => false, [])).1 (idx (strings.Fields a) 1) = false
    · rw [if_pos hc]
      have hnew : ∀ x ∈ ls, mountRetained x →
          idx (strings.Fields x) 1 ≠ idx (strings.Fields a) 1 := by
        intro x hx hr heq
        have := (ihs (idx (strings.Fields a) 1)).2 ⟨x, hx, hr, heq⟩
        rw [hc.2] at this
        exact Bool.false_ne_true this
      constructor
      · intro k
        by_cases hk : k = idx (strings.Fields a) 1
        · subst hk
          simp only [if_true, true_iff]
          exact ⟨a, by simp, hc.1, rfl⟩
        · simp only [hk, if_false]
          rw [ihs]
          constructor
          · rintro ⟨x, hx, hr, he⟩
            exact ⟨x, List.mem_append_left _ hx, hr, he⟩
          · rintro ⟨x, hx, hr, he⟩
            rcases List.mem_append.1 hx with hx | hx
            · exact ⟨x, hx, hr, he⟩
            · rw [List.mem_singleton] at hx
              subst hx
              exact absurd he.symm hk
      · intro e
        simp only [List.mem_append, List.mem_singleton]
        rw [ihe]
        constructor
        · rintro (⟨pre, l, post, hls, hr, hfirst, he⟩ | he)
          · exact ⟨pre, l, post ++ [a], by rw [hls]; simp, hr, hfirst, he⟩
          · exact ⟨ls, a, [], rfl, hc.1, hnew, he⟩
        · rintro ⟨pre, l, post, hls, hr, hfirst, he⟩
          rcases List.eq_nil_or_concat post with hp | ⟨post2, b, hp⟩
          · subst hp
            have := List.append_inj' hls rfl
            obtain ⟨h1, h2⟩ := this
            cases h2
            exact Or.inr he
          · subst hp
            have h' : ls ++ [a] = (pre ++ l :: post2) ++ [b] := by rw [hls]; simp
            obtain ⟨h1, h2⟩ := List.append_inj' h' rfl
            exact Or.inl ⟨pre, l, post2, h1, hr, hfirst, he⟩
    · rw [if_neg hc]
      constructor
      · intro k
        rw [ihs]
        constructor
        · rintro ⟨x, hx, hr, he⟩
          exact ⟨x, List.mem_append_left _ hx, hr, he⟩
        · rintro ⟨x, hx, hr, he⟩
          rcases List.mem_append.1 hx with hx | hx
          · exact ⟨x, hx, hr, he⟩
          · rw [List.mem_singleton] at hx
            subst hx
            have hseen : (ls.foldl (mountLine statfs) (fun _ => false, [])).1
                (idx (strings.Fields x) 1) = true := by
              by_contra hne
              exact hc ⟨hr, by simpa using hne⟩
            obtain ⟨y, hy, hry, hey⟩ := (ihs _).1 hseen
            exact ⟨y, hy, hry, hey.trans he⟩
      · intro e
        rw [ihe]
        constructor
        · rintro ⟨pre, l, post, hls, hr, hfirst, he⟩
          exact ⟨pre, l, post ++ [a], by rw [hls]; simp, hr, hfirst, he⟩
        · rintro ⟨pre, l, post, hls, hr, hfirst, he⟩
          rcases List.eq_nil_or_concat post with hp | ⟨post2, b, hp⟩
          · subst hp
            obtain ⟨h1, h2⟩ := List.append_inj' hls rfl
            cases h2
            subst h1
            exfalso
            have hseen : (ls.foldl (mountLine statfs) (fun _ => false, [])).1
                (idx (strings.Fields a) 1) = true := by
              by_contra hne
              exact hc ⟨hr, by simpa using hne⟩
            obtain ⟨y, hy, hry, hey⟩ := (ihs _).1 hseen
            exact hfirst y hy hry hey
          · subst hp
            have h' : ls ++ [a] = (pre ++ l :: post2) ++ [b] := by rw [hls]; simp
            obtain ⟨h1, h2⟩ := List.append_inj' h' rfl
            exact ⟨pre, l, post2, h1, hr, hfirst, he⟩

theorem mountEntries_mem (statfs : Str → Option Statfs_t) (data : Str) (e : mountEntry) :
    e ∈ mountEntries statfs data ↔
      ∃ pre l post, scanLines data = pre ++ l :: post ∧ mountRetained l ∧
        (∀ x ∈ pre, mountRetained x → idx (strings.Fields x) 1 ≠ idx (strings.Fields l) 1) ∧
        e = mountEntryOf statfs l :=
  (foldl_mountLine_first statfs (scanLines data)).2 e

theorem mountEntries_mountPoints (statfs : Str → Option Statfs_t) (data : Str) (k : Str) :
    k ∈ (mountEntries statfs data).map (fun e => e.fs.MountPoint) ↔
      ∃ x ∈ scanLines data, mountRetained x ∧ idx (strings.Fields x) 1 = k := by
  rw [← (foldl_mountLine_first statfs (scanLines data)).1 k]
  exact ((foldl_mountLine_inv statfs (scanLines data) (fun _ => false, []) (by simp)
    (by simp)).1 k).symm

theorem statEntry_device (fs : Filesystem) (st : Option Statfs_t) :
    (statEntry fs st).fs.Device = fs.Device ∧ (statEntry fs st).fs.FsType = fs.FsType := by
  cases st with
  | none => exact ⟨rfl, rfl⟩
  | some s =>
    simp only [statEntry]
    split <;> exact ⟨rfl, rfl⟩

theorem mountEntryOf_fields (statfs : Str → Option Statfs_t) (l : Str) :
    (mountEntryOf statfs l).fs.MountPoint = idx (strings.Fields l) 1 ∧
    (mountEntryOf statfs l).fs.Device = idx (strings.Fields l) 0 ∧
    (mountEntryOf statfs l).fs.FsType = some (idx (strings.Fields l) 2) :=
  ⟨statEntry_mountPoint _ _, (statEntry_device _ _).1, (statEntry_device _ _).2⟩

theorem secondPass_disabled (entries : List mountEntry) (e : mountEntry) :
    secondPass false entries e = some e.fs := by
  simp [secondPass]

theorem collectFilesystems_disabled (c : Collector) (data : Str)
    (statfs : Str → Option Statfs_t) :
    (collectFilesystems c (.ok data) statfs false).1 =
      (mountEntries statfs data).map (fun e => e.fs) := by
  simp only [collectFilesystems]
  have h : secondPass false (mountEntries statfs data) = fun e => some e.fs :=
    funext (secondPass_disabled _)
  rw [h]
  exact congrFun (List.filterMap_eq_map (fun e : mountEntry => e.fs)) _

/-- C12: with the correction disabled, the filesystems reported for a readable mounts
text contain no entry whose type is on the deny-list, no mount point twice, and for
each mount point the entry built from the first record of that mount point among
the records with at least three fields and a type not on the deny-list; every such
record has its mount point in the report. -/
theorem collectFilesystems_first_record (c : Collector) (data : Str)
    (statfs : Str → Option Statfs_t) :
    (∀ fs ∈ (collectFilesystems c (.ok data) statfs false).1,
      ∃ t, fs.FsType = some t ∧ t ∉ skipTypes) ∧
    ((collectFilesystems c (.ok data) statfs false).1.map Filesystem.MountPoint).Nodup ∧
    (∀ fs ∈ (collectFilesystems c (.ok data) statfs false).1,
      ∃ pre l post, scanLines data = pre ++ l :: post ∧ mountRetained l ∧
        (∀ x ∈ pre, mountRetained x → idx (strings.Fields x) 1 ≠ idx (strings.Fields l) 1) ∧
        fs = (mountEntryOf statfs l).fs ∧
        fs.MountPoint = idx (strings.Fields l) 1 ∧ fs.Device = idx (strings.Fields l) 0 ∧
        fs.FsType = some (idx (strings.Fields l) 2)) ∧
    (∀ l ∈ scanLines data, mountRetained l →
      idx (strings.Fields l) 1 ∈
        (collectFilesystems c (.ok data) statfs false).1.map Filesystem.MountPoint) ∧
    (collectFilesystems freshCollector (.ok mountsRepeated) (fun _ => none) false).1.map
        (fun fs => (fs.MountPoint, fs.Device, fs.FsType)) =
      [(lit "/", lit "/dev/sda1", some (lit "ext4")),
       (lit "/data", lit "/dev/sdb1", some (lit "xfs"))] := by
  rw [collectFilesystems_disabled]
  have hfirst : ∀ fs ∈ (mountEntries statfs data).map (fun e => e.fs),
      ∃ pre l post, scanLines data = pre ++ l :: post ∧ mountRetained l ∧
        (∀ x ∈ pre, mountRetained x → idx (strings.Fields x) 1 ≠ idx (strings.Fields l) 1) ∧
        fs = (mountEntryOf statfs l).fs ∧
        fs.MountPoint = idx (strings.Fields l) 1 ∧ fs.Device = idx (strings.Fields l) 0 ∧
        fs.FsType = some (idx (strings.Fields l) 2) := by
    intro fs hfs
    obtain ⟨e, he, rfl⟩ := List.mem_map.1 hfs
    obtain ⟨pre, l, post, hls, hr, hf, rfl⟩ := (mountEntries_mem statfs data e).1 he
    obtain ⟨h1, h2, h3⟩ := mountEntryOf_fields statfs l
    exact ⟨pre, l, post, hls, hr, hf, rfl, h1, h2, h3⟩
  have hmap : ((mountEntries statfs data).map (fun e => e.fs)).map Filesystem.MountPoint =
      (mountEntries statfs data).map (fun e => e.fs.MountPoint) := by
    rw [List.map_map]; rfl
  refine ⟨?_, ?_, hfirst, ?_, by decide⟩
  · intro fs hfs
    obtain ⟨pre, l, post, _, hr, _, _, _, _, h3⟩ := hfirst fs hfs
    exact ⟨_, h3, hr.2⟩
  · rw [hmap]
    exact mountEntries_nodup statfs data
  · intro l hl hr
    rw [hmap, mountEntries_mountPoints]
    exact ⟨l, hl, hr, rfl⟩

theorem secondPass_none_iff (entries : List mountEntry) (e : mountEntry) :
    secondPass true entries e = none ↔ nestedMnt e.fs.MountPoint := by
  have hs : lit "/" = ['/'] := by decide
  unfold nestedMnt
  by_cases hp : strings.HasPrefix e.fs.MountPoint (lit "/mnt/") = true
  · have hp2 := (hasPrefix_iff _ _).1 hp
    by_cases hc : strings.Contains (strings.TrimPrefix e.fs.MountPoint (lit "/mnt/")) (lit "/")
        = true
    · have hc2 := hc
      rw [hs, contains_char_iff, strings.TrimPrefix, if_pos hp] at hc2
      simp only [secondPass, hp, hc, Bool.and_self, if_true, true_iff]
      exact ⟨hp2, hc2⟩
    · have hc2 := hc
      rw [hs, contains_char_iff, strings.TrimPrefix, if_pos hp] at hc2
      have hc3 : strings.Contains (strings.TrimPrefix e.fs.MountPoint (lit "/mnt/")) (lit "/")
          = false := by simpa using hc
      simp only [secondPass, hp, hc3, Bool.and_self, if_true, Bool.false_eq_true, if_false]
      constructor
      · intro h; cases h
      · intro h; exact absurd h.2 hc2
  · have hp2 : ¬ lit "/mnt/" <+: e.fs.MountPoint := fun h => hp ((hasPrefix_iff _ _).2 h)
    have hp3 : strings.HasPrefix e.fs.MountPoint (lit "/mnt/") = false := by simpa using hp
    simp only [secondPass, hp3, Bool.and_false, Bool.false_eq_true, if_false]
    constructor
    · intro h; cases h
    · intro h; exact absurd h.1 hp2

/-- C13: with the correction enabled, no mount point of the form `/mnt/<a>/<rest>` is
reported, and every mount point of a retained record (at least three fields, type not
on the deny-list) that is not of that form is reported: the reported mount points are
those of the first pass without the nested ones. -/
theorem collectFilesystems_nested_dropped (c : Collector) (data : Str)
    (statfs : Str → Option Statfs_t) :
    (∀ fs ∈ (collectFilesystems c (.ok data) statfs true).1, ¬ nestedMnt fs.MountPoint) ∧
    (∀ l ∈ scanLines data, mountRetained l → ¬ nestedMnt (idx (strings.Fields l) 1) →
      idx (strings.Fields l) 1 ∈
        (collectFilesystems c (.ok data) statfs true).1.map Filesystem.MountPoint) ∧
    (∀ fs ∈ (collectFilesystems c (.ok data) statfs true).1,
      ∃ l ∈ scanLines data, mountRetained l ∧ idx (strings.Fields l) 1 = fs.MountPoint) ∧
    (collectFilesystems freshCollector (.ok mntFixInput) mntFixStatfs true).1.map
        Filesystem.MountPoint = [lit "/mnt/pool"] ∧
    nestedMnt (lit "/mnt/pool/dataset1") ∧ ¬ nestedMnt (lit "/mnt/pool") ∧
    ¬ nestedMnt (lit "/home/user") := by
  refine ⟨?_, ?_, ?_, by decide, by decide, by decide, by decide⟩
  · intro fs hfs hn
    simp only [collectFilesystems, List.mem_filterMap] at hfs
    obtain ⟨e, _, hsp⟩ := hfs
    have hmp := secondPass_mountPoint _ _ _ _ hsp
    rw [hmp] at hn
    rw [(secondPass_none_iff _ e).2 hn] at hsp
    cases hsp
  · intro l hl hr hn
    obtain ⟨e, he, hmp⟩ := List.mem_map.1
      ((mountEntries_mountPoints statfs data _).2 ⟨l, hl, hr, rfl⟩)
    have hmp' : e.fs.MountPoint = idx (strings.Fields l) 1 := hmp
    have hne : secondPass true (mountEntries statfs data) e ≠ none := by
      intro h
      rw [secondPass_none_iff, hmp'] at h
      exact hn h
    obtain ⟨fs, hfs⟩ := Option.ne_none_iff_exists'.1 hne
    refine List.mem_map.2 ⟨fs, ?_, ?_⟩
    · simp only [collectFilesystems, List.mem_filterMap]
      exact ⟨e, he, hfs⟩
    · rw [secondPass_mountPoint _ _ _ _ hfs, hmp']
  · intro fs hfs
    simp only [collectFilesystems, List.mem_filterMap] at hfs
    obtain ⟨e, he, hsp⟩ := hfs
    have hmp := secondPass_mountPoint _ _ _ _ hsp
    rw [hmp]
    exact (mountEntries_mountPoints statfs data _).1 (List.mem_map.2 ⟨e, he, rfl⟩)

theorem mntFixed_sizes (entries : List mountEntry) (e : mountEntry) :
    (mntFixed entries e).AvailableBytes = some e.available ∧
    ∃ used, (mntFixed entries e).UsedBytes = some used ∧
      (mntFixed entries e).TotalBytes = some ((used + e.available) % u64) := by
  simp only [mntFixed]
  split_ifs <;> exact ⟨rfl, _, rfl, rfl⟩

theorem statEntry_available (fs : Filesystem) (st : Statfs_t) :
    (statEntry fs (some st)).available = st.Bavail * uint64OfInt st.Bsize % u64 := rfl

theorem mountEntries_statEntry (statfs : Str → Option Statfs_t) (data : Str) (e : mountEntry)
    (he : e ∈ mountEntries statfs data) :
    ∃ fs : Filesystem, fs.TotalBytes = none ∧ fs.UsedBytes = none ∧ fs.AvailableBytes = none ∧
      e = statEntry fs (statfs e.fs.MountPoint) := by
  obtain ⟨pre, l, post, _, _, _, rfl⟩ := (mountEntries_mem statfs data e).1 he
  rw [(mountEntryOf_fields statfs l).1]
  exact ⟨_, rfl, rfl, rfl, rfl⟩

/-- C14: with the correction enabled, a retained top-level `/mnt/<name>` mount is
emitted, and every emitted entry of that mount point has as
`AvailableBytes` the available bytes of the mount's own first-pass entry (the product
of the available blocks and the block size reported for the mount itself, when its
usage query succeeded) and as `TotalBytes` the sum of its `UsedBytes` and
`AvailableBytes` in 64-bit unsigned arithmetic; the total reported by the usage query
does not enter. -/
theorem collectFilesystems_mntfix_total (c : Collector) (data : Str)
    (statfs : Str → Option Statfs_t) (e : mountEntry)
    (he : e ∈ mountEntries statfs data) (htop : topLevelMnt e.fs.MountPoint) :
    (∃ fs ∈ (collectFilesystems c (.ok data) statfs true).1,
      fs.MountPoint = e.fs.MountPoint) ∧
    (∀ fs ∈ (collectFilesystems c (.ok data) statfs true).1,
      fs.MountPoint = e.fs.MountPoint →
        fs.AvailableBytes = some e.available ∧
        ∃ used, fs.UsedBytes = some used ∧
          fs.TotalBytes = some ((used + e.available) % u64)) ∧
    (∀ st, statfs e.fs.MountPoint = some st →
      e.available = st.Bavail * uint64OfInt st.Bsize % u64) := by
  have hnd := mountEntries_nodup statfs data
  refine ⟨?_, ?_, ?_⟩
  · refine ⟨mntFixed (mountEntries statfs data) e, ?_, mntFixed_mountPoint _ _⟩
    simp only [collectFilesystems, List.mem_filterMap]
    exact ⟨e, he, topLevelMnt_secondPass _ e htop⟩
  · intro fs hfs hmp
    simp only [collectFilesystems, List.mem_filterMap] at hfs
    obtain ⟨e2, he2, hsp⟩ := hfs
    have hmp2 := secondPass_mountPoint _ _ _ _ hsp
    have heq : e2 = e :=
      List.inj_on_of_nodup_map hnd he2 he (by rw [← hmp2, hmp])
    subst heq
    rw [topLevelMnt_secondPass _ e2 htop] at hsp
    cases hsp
    exact mntFixed_sizes _ e2
  · intro st hst
    obtain ⟨fs, _, _, _, hfs⟩ := mountEntries_statEntry statfs data e he
    rw [hst] at hfs
    rw [hfs]
    rfl

/-- C14 at the mount-fix scenario: the `/mnt/pool` entry is emitted with 50 available
bytes, the mount's own, and total 200 = 150 + 50, while its usage query reported a
total of 150. -/
theorem collectFilesystems_mntfix_total_witness :
    mntFixPool ∈ mountEntries mntFixStatfs mntFixInput ∧
    topLevelMnt mntFixPool.fs.MountPoint ∧
    mntFixPool.available = 50 ∧ mntFixPool.total = 150 ∧
    (∃ fs ∈ (collectFilesystems freshCollector (.ok mntFixInput) mntFixStatfs true).1,
      fs.MountPoint = mntFixPool.fs.MountPoint) ∧
    (∀ fs ∈ (collectFilesystems freshCollector (.ok mntFixInput) mntFixStatfs true).1,
      fs.MountPoint = mntFixPool.fs.MountPoint →
        fs.AvailableBytes = some mntFixPool.available ∧
        ∃ used, fs.UsedBytes = some used ∧
          fs.TotalBytes = some ((used + mntFixPool.available) % u64)) ∧
    (collectFilesystems freshCollector (.ok mntFixInput) mntFixStatfs true).1.map
        (fun fs => (fs.MountPoint, fs.AvailableBytes, fs.TotalBytes)) =
      [(lit "/mnt/pool", some 50, some 200)] :=
  have hm : mntFixPool ∈ mountEntries mntFixStatfs mntFixInput :=
    List.mem_of_mem_head? (show (mountEntries mntFixStatfs mntFixInput).head? = some mntFixPool
      from rfl)
  have h := collectFilesystems_mntfix_total freshCollector mntFixInput mntFixStatfs mntFixPool hm
    (by decide)
  ⟨hm, by decide, by decide, by decide, h.1, h.2.1, by decide⟩

/-- C15: for a mount of the first pass whose usage query succeeds with block count `B`,
free blocks `F`, available blocks `A` and block size `S ≥ 0`, the products `B * S`,
`F * S` and `A * S` being below `2 ^ 64`, the first-pass entry has
`TotalBytes = B * S`, `AvailableBytes = A * S`, and `UsedBytes = B * S - F * S` when
`B * S > F * S` and `UsedBytes = 0` otherwise. -/
theorem mountEntries_statfs_bytes (statfs : Str → Option Statfs_t) (data : Str)
    (e : mountEntry) (st : Statfs_t) (S : Nat)
    (he : e ∈ mountEntries statfs data) (hst : statfs e.fs.MountPoint = some st)
    (hS : st.Bsize = (S : Int)) (hB : st.Blocks * S < 2 ^ 64) (hF : st.Bfree * S < 2 ^ 64)
    (hA : st.Bavail * S < 2 ^ 64) :
    e.fs.TotalBytes = some (st.Blocks * S) ∧
    e.fs.AvailableBytes = some (st.Bavail * S) ∧
    (st.Blocks * S > st.Bfree * S → e.fs.UsedBytes = some (st.Blocks * S - st.Bfree * S)) ∧
    (¬ st.Blocks * S > st.Bfree * S → e.fs.UsedBytes = some 0) := by
  obtain ⟨fs, _, _, _, hfs⟩ := mountEntries_statEntry statfs data e he
  rw [hst] at hfs
  have hu : uint64OfInt st.Bsize = S % 2 ^ 64 := by
    rw [hS]; unfold uint64OfInt; omega
  have hB' : st.Blocks * (S % 2 ^ 64) % u64 = st.Blocks * S := by
    unfold u64
    rcases Nat.eq_zero_or_pos st.Blocks with h0 | hpos
    · simp [h0]
    · have : S < 2 ^ 64 := lt_of_le_of_lt (Nat.le_mul_of_pos_left S hpos) hB
      rw [Nat.mod_eq_of_lt this, Nat.mod_eq_of_lt hB]
  have hF' : st.Bfree * (S % 2 ^ 64) % u64 = st.Bfree * S := by
    unfold u64
    rcases Nat.eq_zero_or_pos st.Bfree with h0 | hpos
    · simp [h0]
    · have : S < 2 ^ 64 := lt_of_le_of_lt (Nat.le_mul_of_pos_left S hpos) hF
      rw [Nat.mod_eq_of_lt this, Nat.mod_eq_of_lt hF]
  have hA' : st.Bavail * (S % 2 ^ 64) % u64 = st.Bavail * S := by
    unfold u64
    rcases Nat.eq_zero_or_pos st.Bavail with h0 | hpos
    · simp [h0]
    · have : S < 2 ^ 64 := lt_of_le_of_lt (Nat.le_mul_of_pos_left S hpos) hA
      rw [Nat.mod_eq_of_lt this, Nat.mod_eq_of_lt hA]
  rw [hfs]
  simp only [statEntry, hu, hB', hF', hA']
  refine ⟨?_, ?_, ?_, ?_⟩
  · split_ifs <;> rfl
  · split_ifs <;> rfl
  · intro h
    split_ifs <;> rfl
  · intro h
    split_ifs <;> rfl

/-- C15 at the mount-fix scenario: `/mnt/pool` with 150 blocks of one byte, 50 free and
50 available, has total 150, available 50 and used 100. -/
theorem mountEntries_statfs_bytes_witness :
    mntFixPool ∈ mountEntries mntFixStatfs mntFixInput ∧
    mntFixStatfs mntFixPool.fs.MountPoint =
      some { Blocks := 150, Bfree := 50, Bavail := 50, Bsize := 1 } ∧
    mntFixPool.fs.TotalBytes = some 150 ∧ mntFixPool.fs.AvailableBytes = some 50 ∧
    mntFixPool.fs.UsedBytes = some 100 :=
  have hm : mntFixPool ∈ mountEntries mntFixStatfs mntFixInput :=
    List.mem_of_mem_head? (show (mountEntries mntFixStatfs mntFixInput).head? = some mntFixPool
      from rfl)
  have h := mountEntries_statfs_bytes mntFixStatfs mntFixInput mntFixPool
    { Blocks := 150, Bfree := 50, Bavail := 50, Bsize := 1 } 1 hm (by decide) (by decide)
    (by decide) (by decide) (by decide)
  ⟨hm, by decide, h.1, h.2.1, h.2.2.1 (by decide)⟩

theorem thermal_in_range (m : Int) :
    ¬ (((m : ℚ) / 1000 < -100) ∨ ((m : ℚ) / 1000 > 200)) ↔ -100000 ≤ m ∧ m ≤ 200000 := by
  have h1 : ((m : ℚ) / 1000 < -100) ↔ m < -100000 := by
    rw [div_lt_iff₀ (by norm_num)]
    have : (-100 : ℚ) * 1000 = ((-100000 : Int) : ℚ) := by norm_num
    rw [this, Int.cast_lt]
  have h2 : ((m : ℚ) / 1000 > 200) ↔ 200000 < m := by
    rw [gt_iff_lt, lt_div_iff₀ (by norm_num)]
    have : (200 : ℚ) * 1000 = ((200000 : Int) : ℚ) := by norm_num
    rw [this, Int.cast_lt]
  rw [h1, h2]
  omega

theorem thermalSensor_temp (entry : HwmonEntry) (name data : Str) (s : ThermalSensor)
    (h : thermalSensor entry (name, some data) = some s) :
    s.TempCelsius = some (((strconv.ParseInt (strings.TrimSpace data)).1 : ℚ) / 1000) := by
  simp only [thermalSensor] at h
  split_ifs at h
  cases h
  repeat' split
  all_goals rfl

theorem thermalSensor_isSome (entry : HwmonEntry) (name data : Str) :
    (∃ s, thermalSensor entry (name, some data) = some s) ↔
      (strconv.ParseInt (strings.TrimSpace data)).2 = none ∧
      ¬ ((((strconv.ParseInt (strings.TrimSpace data)).1 : ℚ) / 1000 < -100) ∨
        (((strconv.ParseInt (strings.TrimSpace data)).1 : ℚ) / 1000 > 200)) := by
  simp only [thermalSensor]
  split_ifs with h1 h2
  · simp [h1]
  · simp only [exists_false, false_iff, not_and, not_not]
    intro _
    exact h2
  · have h1' : (strconv.ParseInt (strings.TrimSpace data)).2 = none := by simpa using h1
    simp only [Option.some.injEq, exists_eq', true_iff]
    exact ⟨h1', h2⟩

/-- C16: for a channel of `collectThermals` whose file content, trimmed, parses to the
integer `m`, a sensor is built iff `-100000 ≤ m ≤ 200000`, and its `TempCelsius` is
then `m / 1000`; the sensors of the report are exactly the sensors built for the
channels of the `hwmon*` directories, so a rejected reading yields no sensor; and the
error list of a pass does not depend on the thermal readings at all. -/
theorem collectThermals_range (entry : HwmonEntry) (name data : Str) (m : Int)
    (hp : strconv.ParseInt (strings.TrimSpace data) = (m, none)) :
    ((∃ s, thermalSensor entry (name, some data) = some s) ↔ -100000 ≤ m ∧ m ≤ 200000) ∧
    (∀ s, thermalSensor entry (name, some data) = some s →
      s.TempCelsius = some ((m : ℚ) / 1000)) ∧
    (¬ (-100000 ≤ m ∧ m ≤ 200000) → thermalSensor entry (name, some data) = none) ∧
    (∀ (entries : List HwmonEntry) (s : ThermalSensor),
      s ∈ (collectThermals (some entries)).Sensors ↔
        ∃ e ∈ entries, e.IsDir = true ∧ lit "hwmon" <+: e.Name ∧
          ∃ tf ∈ e.tempFiles, thermalSensor e tf = some s) ∧
    (∀ (c : Collector) (env : Env) (hw : Option (List HwmonEntry)),
      (Collect c { env with hwmon := hw }).2.errors = (Collect c env).2.errors ∧
      (Collect c { env with hwmon := hw }).1.Errors = (Collect c env).1.Errors) := by
  have hiff : (∃ s, thermalSensor entry (name, some data) = some s) ↔
      -100000 ≤ m ∧ m ≤ 200000 := by
    rw [thermalSensor_isSome, hp, thermal_in_range]
    simp
  refine ⟨hiff, ?_, ?_, ?_, ?_⟩
  · intro s hs
    have := thermalSensor_temp entry name data s hs
    rw [hp] at this
    exact this
  · intro hn
    cases h : thermalSensor entry (name, some data) with
    | none => rfl
    | some s => exact absurd (hiff.1 ⟨s, h⟩) hn
  · intro entries s
    simp only [collectThermals, List.mem_flatMap, List.mem_filter, List.mem_filterMap,
      Bool.and_eq_true, hasPrefix_iff]
    constructor
    · rintro ⟨e, ⟨he, hd, hpre⟩, tf, htf, hs⟩
      exact ⟨e, he, hd, hpre, tf, htf, hs⟩
    · rintro ⟨e, he, hd, hpre, tf, htf, hs⟩
      exact ⟨e, ⟨he, hd, hpre⟩, tf, htf, hs⟩
  · intro c env hw
    have h1 : (Collect c { env with hwmon := hw }).2.errors = (Collect c env).2.errors := by
      rw [Collect_errors, Collect_errors]
      rfl
    refine ⟨h1, ?_⟩
    have e1 : (Collect c { env with hwmon := hw }).1.Errors =
        (if (Collect c { env with hwmon := hw }).2.errors.length > 0 then
          some (Collect c { env with hwmon := hw }).2.errors else none) := rfl
    have e2 : (Collect c env).1.Errors =
        (if (Collect c env).2.errors.length > 0 then some (Collect c env).2.errors
          else none) := rfl
    rw [e1, e2, h1]

/-- C16 at concrete inputs: the reading `45000` gives a sensor of 45 degrees, the
reading `250000` gives none. -/
theorem collectThermals_range_witness :
    strconv.ParseInt (strings.TrimSpace (lit "45000\n")) = (45000, none) ∧
    (∃ s, thermalSensor hwmonTwo (lit "temp1_input", some (lit "45000\n")) = some s ∧
      s.TempCelsius = some (((45000 : Int) : ℚ) / 1000)) ∧
    thermalSensor hwmonTwo (lit "temp2_input", some (lit "250000\n")) = none := by
  have h1 := collectThermals_range hwmonTwo (lit "temp1_input") (lit "45000\n") 45000
    (by decide)
  have h2 := collectThermals_range hwmonTwo (lit "temp2_input") (lit "250000\n") 250000
    (by decide)
  refine ⟨by decide, ?_, h2.2.2.1 (by decide)⟩
  obtain ⟨s, hs⟩ := h1.1.2 (by decide)
  exact ⟨s, hs, h1.2.1 s hs⟩

/-- C19: in the network report of a readable `net/dev` text no interface is named `lo`;
the interfaces are those of the retained lines after the first two lines of the
text, in order, so the first two lines yield none; and the receive counter of an
interface is field 0 and the transmit counter field 8 of the fields after the colon
of its line: these are the values from which the rates are computed against the
stored snapshot and the values stored in the snapshot for the next pass. -/
theorem collectNetwork_fields (c : Collector) (data : Str) (now : Int)
    (mac : Str → Option Str) :
    (∀ i ∈ (collectNetwork c (.ok data) now mac).1.Interfaces, i.Name ≠ lit "lo") ∧
    ((collectNetwork c (.ok data) now mac).1.Interfaces.map NetworkInterface.Name =
      (((strings.Split data '\n').drop 2).filter (fun l => decide (netRetained l))).map
        (fun l => strings.TrimSpace (idx (strings.Split l ':') 0))) ∧
    ((strings.Split data '\n').length ≤ 2 →
      (collectNetwork c (.ok data) now mac).1.Interfaces = []) ∧
    (∀ i ∈ (collectNetwork c (.ok data) now mac).1.Interfaces,
      ∃ pre line post, (strings.Split data '\n').drop 2 = pre ++ line :: post ∧
        netRetained line ∧ i.Name = strings.TrimSpace (idx (strings.Split line ':') 0) ∧
        ∀ p, (pre.foldl (netLine now mac) (c.prevNetwork, [])).1 i.Name = some p →
          p.timestamp < now →
          i.RxBytesPerSec = some
            (deltaU64
              (strconv.ParseUint (idx (strings.Fields (idx (strings.Split line ':') 1)) 0)).1
              p.rxBytes / Seconds (timeSub now p.timestamp)) ∧
          i.TxBytesPerSec = some
            (deltaU64
              (strconv.ParseUint (idx (strings.Fields (idx (strings.Split line ':') 1)) 8)).1
              p.txBytes / Seconds (timeSub now p.timestamp))) ∧
    (∀ pre line post, (strings.Split data '\n').drop 2 = pre ++ line :: post →
      netRetained line → (∀ b ∈ post, netRetained b → netName b ≠ netName line) →
      (collectNetwork c (.ok data) now mac).2.prevNetwork
          (strings.TrimSpace (idx (strings.Split line ':') 0)) =
        some
          { timestamp := now
            rxBytes :=
              (strconv.ParseUint (idx (strings.Fields (idx (strings.Split line ':') 1)) 0)).1
            txBytes :=
              (strconv.ParseUint
                (idx (strings.Fields (idx (strings.Split line ':') 1)) 8)).1 }) ∧
    (collectNetwork freshCollector (.ok netTextLo) 0 (fun _ => none)).1.Interfaces.map
        NetworkInterface.Name = [lit "eth0"] ∧
    (collectNetwork freshCollector (.ok netTextLo) 0 (fun _ => none)).2.prevNetwork
        (lit "eth0") = some { timestamp := 0, rxBytes := 1000, txBytes := 2000 } := by
  have hnames := collectNetwork_names c data now mac
  refine ⟨?_, hnames, ?_, ?_, ?_,
    (collectNetwork_names freshCollector netTextLo 0 (fun _ => none)).trans (by decide),
    by decide⟩
  · intro i hi hlo
    have hm : i.Name ∈ netNames data := by
      rw [← hnames]
      exact List.mem_map.2 ⟨i, hi, rfl⟩
    simp only [netNames, List.mem_map, List.mem_filter, decide_eq_true_eq] at hm
    obtain ⟨l, ⟨_, hr⟩, hl⟩ := hm
    exact hr.2.1 (hl.trans hlo)
  · intro hlen
    have hd : (strings.Split data '\n').drop 2 = [] := List.drop_eq_nil_of_le hlen
    simp only [collectNetwork, hd, List.foldl_nil]
  · intro i hi
    simp only [collectNetwork, netLine_keyed] at hi
    rw [keyedStep_out] at hi
    rcases hi with hi | ⟨pre, line, post, hsplit, hr, hi⟩
    · cases hi
    · refine ⟨pre, line, post, hsplit, hr, ?_, ?_⟩
      · rw [hi, netDev_name]
        rfl
      · intro p hp hlt
        rw [netLine_keyed, hi, netDev_name] at hp
        rw [hi, hp, netDev, (enrich_rates _ _).2.1, (enrich_rates _ _).2.2,
          netRates_some _ _ _ _ _ hlt]
        exact ⟨rfl, rfl⟩
  · intro pre line post hsplit hr hlast
    simp only [collectNetwork, hsplit, netLine_keyed]
    exact keyedStep_store_last netRetained netName (netSnap now) (netDev now mac)
      (c.prevNetwork, []) pre post line hr hlast

theorem takeWhile_cut (a b : Str) (sep : Char) (ha : sep ∉ a) :
    (a ++ sep :: b).takeWhile (fun ch => decide (ch ≠ sep)) = a := by
  induction a with
  | nil => simp [List.takeWhile]
  | cons x xs ih =>
    have hx : decide (x ≠ sep) = true := by
      have : x ≠ sep := fun h => ha (by simp [h])
      simpa using this
    have hxs : sep ∉ xs := fun h => ha (List.mem_cons_of_mem _ h)
    rw [List.cons_append, List.takeWhile_cons, hx, if_pos rfl, ih hxs]

theorem dropWhile_cut (a b : Str) (sep : Char) (ha : sep ∉ a) :
    (a ++ sep :: b).dropWhile (fun ch => decide (ch ≠ sep)) = sep :: b := by
  induction a with
  | nil => simp [List.dropWhile]
  | cons x xs ih =>
    have hx : decide (x ≠ sep) = true := by
      have : x ≠ sep := fun h => ha (by simp [h])
      simpa using this
    have hxs : sep ∉ xs := fun h => ha (List.mem_cons_of_mem _ h)
    rw [List.cons_append, List.dropWhile_cons, hx, if_pos rfl, ih hxs]

theorem SplitN_two_cut (a b : Str) (sep : Char) (ha : sep ∉ a) :
    strings.SplitN (a ++ sep :: b) sep 2 = [a, b] := by
  have hm : sep ∈ a ++ sep :: b := by simp
  simp only [strings.SplitN, hm, if_true, takeWhile_cut a b sep ha, dropWhile_cut a b sep ha,
    List.tail_cons]

theorem SplitN_two_none (s : Str) (sep : Char) (h : sep ∉ s) :
    strings.SplitN s sep 2 = [s] := by
  simp only [strings.SplitN, h, if_false]

theorem mem_cut (s : Str) (sep : Char) (h : sep ∈ s) :
    ∃ a b, s = a ++ sep :: b ∧ sep ∉ a := by
  induction s with
  | nil => cases h
  | cons x xs ih =>
    by_cases hx : x = sep
    · exact ⟨[], xs, by simp [hx], by simp⟩
    · have hxs : sep ∈ xs := by
        rcases List.mem_cons.1 h with h | h
        · exact absurd h.symm hx
        · exact h
      obtain ⟨a, b, hs, ha⟩ := ih hxs
      refine ⟨x :: a, b, by simp [hs], ?_⟩
      intro hm
      rcases List.mem_cons.1 hm with h | h
      · exact hx h.symm
      · exact ha h

/-- The two pieces of `SplitN(s, " ", 2)` are `Bearer` and `t` exactly when `s` is
`Bearer `, then `t`. -/
theorem SplitN_bearer (s t : Str) :
    ((strings.SplitN s ' ' 2).length = 2 ∧ idx (strings.SplitN s ' ' 2) 0 = lit "Bearer" ∧
      idx (strings.SplitN s ' ' 2) 1 = t) ↔ s = lit "Bearer " ++ t := by
  have hb : lit "Bearer " ++ t = lit "Bearer" ++ ' ' :: t := by
    show (lit "Bearer ") ++ t = _
    have : lit "Bearer " = lit "Bearer" ++ [' '] := by decide
    rw [this]; simp
  have hnb : ' ' ∉ lit "Bearer" := by decide
  constructor
  · rintro ⟨hlen, h0, h1⟩
    by_cases hm : ' ' ∈ s
    · obtain ⟨a, b, hs, ha⟩ := mem_cut s ' ' hm
      rw [hs, SplitN_two_cut a b ' ' ha] at h0 h1
      have h0' : a = lit "Bearer" := h0
      have h1' : b = t := h1
      rw [hs, h0', h1', hb]
    · rw [SplitN_two_none s ' ' hm] at hlen
      simp at hlen
  · intro hs
    rw [hs, hb, SplitN_two_cut _ _ ' ' hnb]
    exact ⟨rfl, rfl, rfl⟩

theorem authMiddleware_pass {W : Type} (t : Str) (httpError : W → Str → Nat → W)
    (next : W → Request → W) (w : W) (r : Request)
    (h : r.Get (lit "Authorization") = lit "Bearer " ++ t) :
    authMiddleware t httpError next w r = next w r := by
  unfold authMiddleware
  by_cases ht : t = []
  · rw [if_pos ht]
  · obtain ⟨h1, h2, h3⟩ := (SplitN_bearer _ t).2 h
    have hne : r.Get (lit "Authorization") ≠ [] := by
      rw [h]
      intro hnil
      have := congrArg List.length hnil
      simp [lit] at this
    simp only [ht, hne, h1, h2, h3, if_false, ne_eq, not_true_eq_false, or_self]

theorem authMiddleware_reject {W : Type} (t : Str) (httpError : W → Str → Nat → W)
    (next : W → Request → W) (w : W) (r : Request) (ht : t ≠ [])
    (h : r.Get (lit "Authorization") ≠ lit "Bearer " ++ t) :
    authMiddleware t httpError next w r = httpError w (lit "Unauthorized") 401 := by
  unfold authMiddleware
  rw [if_neg ht]
  by_cases he : r.Get (lit "Authorization") = []
  · simp only [he, if_true]
  · simp only [he, if_false]
    by_cases hg : (strings.SplitN (r.Get (lit "Authorization")) ' ' 2).length ≠ 2 ∨
        idx (strings.SplitN (r.Get (lit "Authorization")) ' ' 2) 0 ≠ lit "Bearer"
    · rw [if_pos hg]
    · rw [if_neg hg]
      by_cases h1 : idx (strings.SplitN (r.Get (lit "Authorization")) ' ' 2) 1 ≠ t
      · rw [if_pos h1]
      · exfalso
        apply h
        apply (SplitN_bearer _ t).1
        refine ⟨?_, ?_, ?_⟩
        · by_contra hc; exact hg (Or.inl hc)
        · by_contra hc; exact hg (Or.inr hc)
        · by_contra hc; exact h1 hc

/-- C17: with a non-empty bearer token `t`, `authMiddleware` hands the request to the
wrapped handler when the `Authorization` header is `Bearer ` followed by `t`, and for
every other header value (missing, wrong scheme, wrong token) it answers
`Unauthorized` with status 401, a result in which the wrapped handler has no part;
on a writer that records the calls, the handler is called iff the header has that
value. With an empty token every request goes to the wrapped handler. -/
theorem authMiddleware_bearer :
    (∀ (W : Type) (t : Str) (httpError : W → Str → Nat → W) (next : W → Request → W) (w : W)
      (r : Request), t ≠ [] → r.Get (lit "Authorization") = lit "Bearer " ++ t →
      authMiddleware t httpError next w r = next w r) ∧
    (∀ (W : Type) (t : Str) (httpError : W → Str → Nat → W) (next : W → Request → W) (w : W)
      (r : Request), t ≠ [] → r.Get (lit "Authorization") ≠ lit "Bearer " ++ t →
      authMiddleware t httpError next w r = httpError w (lit "Unauthorized") 401) ∧
    (∀ (t : Str) (r : Request), t ≠ [] →
      (lit "handler" ∈
          authMiddleware t (fun w msg _ => w ++ [msg]) (fun w _ => w ++ [lit "handler"]) [] r ↔
        r.Get (lit "Authorization") = lit "Bearer " ++ t)) ∧
    (∀ (W : Type) (httpError : W → Str → Nat → W) (next : W → Request → W) (w : W)
      (r : Request), authMiddleware [] httpError next w r = next w r) ∧
    authMiddleware (lit "s3cret") (fun w msg _ => w ++ [msg]) (fun w _ => w ++ [lit "handler"])
      [] (requestWith [lit "Bearer s3cret"]) = [lit "handler"] ∧
    authMiddleware (lit "s3cret") (fun w msg _ => w ++ [msg]) (fun w _ => w ++ [lit "handler"])
      [] (requestWith [lit "Bearer  s3cret"]) = [lit "Unauthorized"] ∧
    authMiddleware (lit "s3cret") (fun w msg _ => w ++ [msg]) (fun w _ => w ++ [lit "handler"])
      [] (requestWith [lit "bearer s3cret"]) = [lit "Unauthorized"] ∧
    authMiddleware (lit "s3cret") (fun w msg _ => w ++ [msg]) (fun w _ => w ++ [lit "handler"])
      [] (requestWith []) = [lit "Unauthorized"] := by
  refine ⟨?_, ?_, ?_, ?_, by decide, by decide, by decide, by decide⟩
  · intro W t httpError next w r _ h
    exact authMiddleware_pass t httpError next w r h
  · intro W t httpError next w r ht h
    exact authMiddleware_reject t httpError next w r ht h
  · intro t r ht
    constructor
    · intro hm
      by_contra hne
      rw [authMiddleware_reject t _ _ [] r ht hne] at hm
      revert hm
      decide
    · intro h
      rw [authMiddleware_pass t _ _ [] r h]
      simp
  · intro W httpError next w r
    unfold authMiddleware
    rw [if_pos rfl]

theorem parseUintLoop_range (s : Str) (n : Nat)
    (h : (strconv.parseUintLoop s n).2 = some strconv.NumError.ErrRange) :
    (strconv.parseUintLoop s n).1 = maxUint64 := by
  induction s generalizing n with
  | nil => simp [strconv.parseUintLoop] at h
  | cons c cs ih =>
    simp only [strconv.parseUintLoop] at h ⊢
    split_ifs at h ⊢ with h1 h2 h3
    · rfl
    · rfl
    · exact ih _ h
    · simp at h

theorem ParseUint_range (s : Str)
    (h : (strconv.ParseUint s).2 = some strconv.NumError.ErrRange) :
    (strconv.ParseUint s).1 = maxUint64 := by
  unfold strconv.ParseUint at h ⊢
  split_ifs at h ⊢
  · simp at h
  · exact parseUintLoop_range s 0 h

/-- C11 (amended): a line of `meminfo` with at least two fields whose value field fails
the unsigned conversion is not dropped: the error is discarded and the value the
conversion returns (0 for a text that is not a number, `2 ^ 64 - 1` for a number out
of range), times 1024 in 64-bit arithmetic, is stored under the key of the line, so
the output field of a key whose last line is such a line is present (with value 0
when the text is not a number); every field is determined by the last line of its
own key, so the other lines are parsed as usual. -/
theorem collectMemory_unparsed_value :
    (∀ (c : Collector) (data : Str) (pr : Option Str) (pf : Str → Option ℚ) (v : Str),
      (memLast data (lit "MemTotal") = some v →
        (collectMemory c (.ok data) pr pf).1.TotalBytes =
          some ((strconv.ParseUint v).1 * 1024 % u64)) ∧
      (memLast data (lit "MemAvailable") = some v →
        (collectMemory c (.ok data) pr pf).1.AvailableBytes =
          some ((strconv.ParseUint v).1 * 1024 % u64)) ∧
      (memLast data (lit "Buffers") = some v →
        (collectMemory c (.ok data) pr pf).1.BuffersBytes =
          some ((strconv.ParseUint v).1 * 1024 % u64)) ∧
      (memLast data (lit "Cached") = some v →
        (collectMemory c (.ok data) pr pf).1.CachedBytes =
          some ((strconv.ParseUint v).1 * 1024 % u64)) ∧
      (memLast data (lit "SwapTotal") = some v →
        (collectMemory c (.ok data) pr pf).1.SwapTotalBytes =
          some ((strconv.ParseUint v).1 * 1024 % u64)) ∧
      (memLast data (lit "SwapCached") = some v →
        (collectMemory c (.ok data) pr pf).1.SwapCachedBytes =
          some ((strconv.ParseUint v).1 * 1024 % u64))) ∧
    (∀ v : Str, (strconv.ParseUint v).2 = some strconv.NumError.ErrSyntax →
      (strconv.ParseUint v).1 * 1024 % u64 = 0) ∧
    (∀ v : Str, (strconv.ParseUint v).2 = some strconv.NumError.ErrRange →
      (strconv.ParseUint v).1 * 1024 % u64 = 2 ^ 64 - 1024) ∧
    (∀ (c : Collector) (data : Str) (pr : Option Str) (pf : Str → Option ℚ) (v : Str),
      memLast data (lit "MemTotal") = some v →
      (strconv.ParseUint v).2 = some strconv.NumError.ErrSyntax →
      (collectMemory c (.ok data) pr pf).1.TotalBytes = some 0 ∧
      (collectMemory c (.ok data) pr pf).1.Available = true) := by
  have key : ∀ (data k v : Str), memLast data k = some v →
      memInfoOf data k = some ((strconv.ParseUint v).1 * 1024 % u64) := by
    intro data k v hv
    rw [memInfoOf_eq, hv]
    rfl
  refine ⟨?_, ?_, ?_, ?_⟩
  · intro c data pr pf v
    obtain ⟨_, h2, h3, h4, h5, h6, h7, _⟩ := collectMemory_eq c data pr pf
    exact ⟨fun h => h2.trans (key _ _ _ h), fun h => h3.trans (key _ _ _ h),
      fun h => h4.trans (key _ _ _ h), fun h => h5.trans (key _ _ _ h),
      fun h => h6.trans (key _ _ _ h), fun h => h7.trans (key _ _ _ h)⟩
  · intro v hs
    rw [ParseUint_notNumber v hs]
    simp
  · intro v hr
    rw [ParseUint_range v hr]
    decide
  · intro c data pr pf v hv hs
    obtain ⟨h1, h2, _⟩ := collectMemory_eq c data pr pf
    have e : memInfoOf data (lit "MemTotal") = some 0 := by
      rw [key _ _ _ hv, ParseUint_notNumber v hs]
      simp
    rw [h1, h2, e]
    exact ⟨rfl, rfl⟩

/-- C11 as stated fails: for the text `MemTotal: abc kB` followed by a `MemAvailable`
line, the value `abc` fails the conversion, yet the report has `TotalBytes` present
with value 0 and `Available` true; the `MemAvailable` line is parsed as usual. -/
theorem memory_parse_skip_counterexample :
    strconv.ParseUint (lit "abc") = (0, some strconv.NumError.ErrSyntax) ∧
    memLast meminfoGarbled (lit "MemTotal") = some (lit "abc") ∧
    (collectMemory freshCollector (.ok meminfoGarbled) none (fun _ => none)).1.TotalBytes
      = some 0 ∧
    (collectMemory freshCollector (.ok meminfoGarbled) none (fun _ => none)).1.TotalBytes
      ≠ none ∧
    (collectMemory freshCollector (.ok meminfoGarbled) none (fun _ => none)).1.Available
      = true ∧
    (collectMemory freshCollector (.ok meminfoGarbled) none (fun _ => none)).1.AvailableBytes
      = some 8589934592 := by
  refine ⟨by decide, by decide, by decide, by decide, by decide, by decide⟩

theorem collectDiskDevices_keeps (c : Collector) (file : Except Str Str) (now : Int) (k : Str)
    (h : c.prevDisk k ≠ none) : (collectDiskDevices c file now).2.prevDisk k ≠ none := by
  cases file with
  | error e =>
    simp only [collectDiskDevices]
    rw [(logError_store c _ _).2.1]
    exact h
  | ok data =>
    simp only [collectDiskDevices, diskLine_keyed]
    exact keyedStep_store_some diskRetained diskName (diskSnap now) (diskDev now)
      (c.prevDisk, []) _ k h

theorem Collect_keeps_disk (c : Collector) (env : Env) (k : Str) (h : c.prevDisk k ≠ none) :
    (Collect c env).2.prevDisk k ≠ none := by
  rw [(Collect_disk c env).2]
  exact collectDiskDevices_keeps c env.diskstats env.nowDisk k h

theorem passes_keep_disk (envs : List Env) (c : Collector) (k : Str)
    (h : c.prevDisk k ≠ none) : (passes c envs).prevDisk k ≠ none := by
  induction envs generalizing c with
  | nil => exact h
  | cons e es ih =>
    simp only [passes, List.foldl_cons]
    exact ih _ (Collect_keeps_disk c e k h)

theorem Collect_devices_eq (c : Collector) (env : Env) :
    (Collect c env).1.devices = (collectDiskDevices c env.diskstats env.nowDisk).1 := by
  obtain ⟨disk, hd, hdev⟩ := (Collect_disk c env).1
  simp only [RemoteLinuxStats.devices, hd, hdev]

/-- C21: a pass never removes an entry of the per-device snapshot store, whatever the
inputs, and so neither does any sequence of passes; every device in the document of a
pass bears the name of a retained line of the `diskstats` text read in that pass (and
there is no device when the file cannot be read), so a name that is on no retained
line of the current text is not in the current output, even if the store has an
entry for it. -/
theorem disk_store_hygiene :
    (∀ (c : Collector) (env : Env) (k : Str), c.prevDisk k ≠ none →
      (Collect c env).2.prevDisk k ≠ none) ∧
    (∀ (c : Collector) (envs : List Env) (k : Str), c.prevDisk k ≠ none →
      (passes c envs).prevDisk k ≠ none) ∧
    (∀ (c : Collector) (env : Env), ∀ d ∈ (Collect c env).1.devices,
      ∃ data, env.diskstats = .ok data ∧
        ∃ line ∈ strings.Split data '\n', diskRetained line ∧
          idx (strings.Fields line) 2 = d.Name) ∧
    (∀ (c : Collector) (env : Env) (data : Str) (k : Str), env.diskstats = .ok data →
      (∀ line ∈ strings.Split data '\n', diskRetained line → idx (strings.Fields line) 2 ≠ k) →
      ∀ d ∈ (Collect c env).1.devices, d.Name ≠ k) ∧
    ((Collect freshCollector { emptyEnv with diskstats := .ok diskTextA }).2.prevDisk (lit "sda")
        ≠ none ∧
      (Collect (Collect freshCollector { emptyEnv with diskstats := .ok diskTextA }).2
        { emptyEnv with diskstats := .ok diskTextOther, nowDisk := 1000000000 }).1.devices.map
          DiskDevice.Name = [lit "sdb"] ∧
      (Collect (Collect freshCollector { emptyEnv with diskstats := .ok diskTextA }).2
        { emptyEnv with diskstats := .ok diskTextOther, nowDisk := 1000000000 }).2.prevDisk
          (lit "sda") ≠ none) := by
  have hmem : ∀ (c : Collector) (env : Env), ∀ d ∈ (Collect c env).1.devices,
      ∃ data, env.diskstats = .ok data ∧
        ∃ line ∈ strings.Split data '\n', diskRetained line ∧
          idx (strings.Fields line) 2 = d.Name := by
    intro c env d hd
    cases hfile : env.diskstats with
    | error e =>
      rw [Collect_devices_eq, hfile] at hd
      simp [collectDiskDevices] at hd
    | ok data =>
      refine ⟨data, rfl, ?_⟩
      have hn : d.Name ∈ diskNames data := by
        rw [← Collect_device_names c env data hfile]
        exact List.mem_map.2 ⟨d, hd, rfl⟩
      simp only [diskNames, List.mem_map, List.mem_filter, decide_eq_true_eq] at hn
      obtain ⟨line, ⟨hl, hr⟩, hname⟩ := hn
      exact ⟨line, hl, hr, hname⟩
  have hfirst : (Collect freshCollector { emptyEnv with diskstats := .ok diskTextA }).2.prevDisk
      (lit "sda") ≠ none := by
    rw [(Collect_disk _ _).2]
    decide
  refine ⟨Collect_keeps_disk, fun c envs k h => passes_keep_disk envs c k h, hmem, ?_,
    hfirst, ?_, Collect_keeps_disk _ _ _ hfirst⟩
  · intro c env data k hfile hno d hd hk
    obtain ⟨data2, h2, line, hl, hr, hname⟩ := hmem c env d hd
    rw [hfile] at h2
    cases h2
    exact hno line hl hr (hname.trans hk)
  · rw [Collect_device_names _ _ diskTextOther rfl]
    decide

theorem ToLower_ascii (u : Char → Char) (s : Str) (h : ∀ c ∈ s, c.toNat < 128) :
    ToLower u s = ToLower (fun ch => ch) s := by
  unfold ToLower
  apply List.map_congr_left
  intro c hc
  have := h c hc
  split_ifs <;> rfl

/-- C22: the mount-correction flag is resolved from the override `v`, trimmed and
lower-cased: it is on when that text is `on`, `true` or `1`, off when it is `off`,
`false` or `0`, and in every other case (the empty text and `auto` among them) it is
on iff both detections, container and TrueNAS, are positive; this is the flag with
which a pass runs `collectFilesystems`. -/
theorem applyTruenasMntFix_resolution (u : Char → Char) (v : Str) (container truenas : Bool) :
    (ToLower u (strings.TrimSpace v) ∈ [lit "on", lit "true", lit "1"] →
      applyTruenasMntFix u v container truenas = true) ∧
    (ToLower u (strings.TrimSpace v) ∈ [lit "off", lit "false", lit "0"] →
      applyTruenasMntFix u v container truenas = false) ∧
    (ToLower u (strings.TrimSpace v) ∉ [lit "on", lit "true", lit "1"] →
      ToLower u (strings.TrimSpace v) ∉ [lit "off", lit "false", lit "0"] →
      (applyTruenasMntFix u v container truenas = true ↔ container = true ∧ truenas = true)) ∧
    (ToLower u (strings.TrimSpace []) ∉ [lit "on", lit "true", lit "1", lit "off", lit "false",
      lit "0"]) ∧
    (ToLower u (strings.TrimSpace (lit "auto")) ∉ [lit "on", lit "true", lit "1", lit "off",
      lit "false", lit "0"]) ∧
    (∀ env : Env, env.applyFix =
      applyTruenasMntFix env.unicodeToLower env.mntFixVar
        (isLikelyContainer env.dockerenv env.cgroup)
        (isLikelyTrueNAS env.unicodeToLower env.truenasRelease env.osRelease)) ∧
    applyTruenasMntFix (fun ch => ch) (lit "  On\n") false false = true ∧
    applyTruenasMntFix (fun ch => ch) (lit "TRUE") false false = true ∧
    applyTruenasMntFix (fun ch => ch) (lit "False ") true true = false ∧
    applyTruenasMntFix (fun ch => ch) (lit "auto") true true = true ∧
    applyTruenasMntFix (fun ch => ch) (lit "auto") true false = false ∧
    applyTruenasMntFix (fun ch => ch) [] false true = false ∧
    applyTruenasMntFix (fun ch => ch) (lit "yes") true true = true := by
  have hoff : ∀ s : Str, s ∈ [lit "off", lit "false", lit "0"] →
      s ∉ [lit "on", lit "true", lit "1"] := by
    intro s hs hon
    simp only [List.mem_cons, List.mem_singleton, List.not_mem_nil, or_false] at hs hon
    rcases hs with rfl | rfl | rfl <;> revert hon <;> decide
  refine ⟨?_, ?_, ?_, ?_, ?_, fun _ => rfl, by decide, by decide, by decide, by decide,
    by decide, by decide, by decide⟩
  · intro h
    simp only [List.mem_cons, List.mem_singleton, List.not_mem_nil, or_false] at h
    simp only [applyTruenasMntFix, h, if_true]
  · intro h
    have hon := hoff _ h
    simp only [List.mem_cons, List.mem_singleton, List.not_mem_nil, or_false] at h hon
    simp only [applyTruenasMntFix, h, hon, if_true, if_false]
  · intro hon hoff2
    simp only [List.mem_cons, List.mem_singleton, List.not_mem_nil, or_false] at hon hoff2
    simp only [applyTruenasMntFix, hon, hoff2, if_false, Bool.and_eq_true]
  · have : ToLower u (strings.TrimSpace []) = [] := by
      have h0 : strings.TrimSpace [] = [] := by decide
      rw [h0]; rfl
    rw [this]; decide
  · have h0 : strings.TrimSpace (lit "auto") = lit "auto" := by decide
    have : ToLower u (lit "auto") = lit "auto" := by
      rw [ToLower_ascii u (lit "auto") (by decide)]
      decide
    rw [h0, this]; decide

theorem keyedStep_store_mem {α S D : Type} (R : α → Prop) [DecidablePred R] (key : α → Str)
    (snap : α → S) (emit : Option S → α → D) (st : (Str → Option S) × List D) (l : List α)
    (k : Str) (h : ∃ a ∈ l, R a ∧ key a = k) :
    ∃ a ∈ l, R a ∧ key a = k ∧ (l.foldl (keyedStep R key snap emit) st).1 k = some (snap a) := by
  induction l using List.reverseRecOn with
  | nil =>
    obtain ⟨a, ha, _⟩ := h
    cases ha
  | append_singleton l b ih =>
    rw [List.foldl_append, List.foldl_cons, List.foldl_nil]
    by_cases hb : R b ∧ key b = k
    · refine ⟨b, by simp, hb.1, hb.2, ?_⟩
      simp only [keyedStep, hb.1, if_true, hb.2]
    · have hl : ∃ a ∈ l, R a ∧ key a = k := by
        obtain ⟨a, ha, hr, hk⟩ := h
        rcases List.mem_append.1 ha with ha | ha
        · exact ⟨a, ha, hr, hk⟩
        · rw [List.mem_singleton] at ha
          subst ha
          exact absurd ⟨hr, hk⟩ hb
      obtain ⟨a, ha, hr, hk, hs⟩ := ih hl
      refine ⟨a, List.mem_append_left _ ha, hr, hk, ?_⟩
      by_cases hrb : R b
      · have hne : k ≠ key b := fun e => hb ⟨hrb, e.symm⟩
        simp only [keyedStep, hrb, if_true, hne, if_false]
        exact hs
      · simp only [keyedStep, hrb, if_false]
        exact hs

theorem Collect_interfaces_eq (c : Collector) (env : Env) :
    (Collect c env).1.interfaces = (collectNetwork c env.netdev env.nowNet env.macFile).1.Interfaces := by
  obtain ⟨net, hn, hnet⟩ := (Collect_net c env).1
  simp only [RemoteLinuxStats.interfaces, hn, hnet]

/-- The snapshot store after a pass, for the devices and interfaces of the document
and for the CPU line. -/
theorem store_after_pass (c : Collector) (env : Env) :
    (∀ d ∈ (Collect c env).1.devices,
      ∃ data, env.diskstats = .ok data ∧
        ∃ line ∈ strings.Split data '\n', diskRetained line ∧
          idx (strings.Fields line) 2 = d.Name ∧
          (Collect c env).2.prevDisk d.Name = some
            { timestamp := env.nowDisk
              readBytes := (strconv.ParseUint (idx (strings.Fields line) 5)).1 * 512 % u64
              writeBytes := (strconv.ParseUint (idx (strings.Fields line) 9)).1 * 512 % u64
              readOps := (strconv.ParseUint (idx (strings.Fields line) 3)).1
              writeOps := (strconv.ParseUint (idx (strings.Fields line) 7)).1 }) ∧
    (∀ i ∈ (Collect c env).1.interfaces,
      ∃ data, env.netdev = .ok data ∧
        ∃ line ∈ (strings.Split data '\n').drop 2, netRetained line ∧
          strings.TrimSpace (idx (strings.Split line ':') 0) = i.Name ∧
          (Collect c env).2.prevNetwork i.Name = some
            { timestamp := env.nowNet
              rxBytes :=
                (strconv.ParseUint (idx (strings.Fields (idx (strings.Split line ':') 1)) 0)).1
              txBytes :=
                (strconv.ParseUint
                  (idx (strings.Fields (idx (strings.Split line ':') 1)) 8)).1 }) ∧
    (∀ (data : Str) (k : cpuCounters), env.stat = .ok data → cpuLine data = some k →
      (Collect c env).2.prevCPU = some
        { timestamp := env.nowCPU, total := k.total, idle := k.idle, iowait := k.iowait,
          steal := k.steal }) := by
  refine ⟨?_, ?_, ?_⟩
  · intro d hd
    cases hfile : env.diskstats with
    | error e =>
      rw [Collect_devices_eq, hfile] at hd
      simp [collectDiskDevices] at hd
    | ok data =>
      refine ⟨data, rfl, ?_⟩
      have hn : d.Name ∈ diskNames data := by
        rw [← Collect_device_names c env data hfile]
        exact List.mem_map.2 ⟨d, hd, rfl⟩
      simp only [diskNames, List.mem_map, List.mem_filter, decide_eq_true_eq] at hn
      obtain ⟨line, ⟨hl, hr⟩, hname⟩ := hn
      obtain ⟨a, ha, hra, hka, hs⟩ := keyedStep_store_mem diskRetained diskName
        (diskSnap env.nowDisk) (diskDev env.nowDisk) (c.prevDisk, [])
        (strings.Split data '\n') d.Name ⟨line, hl, hr, hname⟩
      refine ⟨a, ha, hra, hka, ?_⟩
      rw [(Collect_disk c env).2, hfile]
      simp only [collectDiskDevices, diskLine_keyed]
      exact hs
  · intro i hi
    cases hfile : env.netdev with
    | error e =>
      rw [Collect_interfaces_eq, hfile] at hi
      simp [collectNetwork] at hi
    | ok data =>
      refine ⟨data, rfl, ?_⟩
      have hn : i.Name ∈ netNames data := by
        rw [← Collect_interface_names c env data hfile]
        exact List.mem_map.2 ⟨i, hi, rfl⟩
      simp only [netNames, List.mem_map, List.mem_filter, decide_eq_true_eq] at hn
      obtain ⟨line, ⟨hl, hr⟩, hname⟩ := hn
      obtain ⟨a, ha, hra, hka, hs⟩ := keyedStep_store_mem netRetained netName
        (netSnap env.nowNet) (netDev env.nowNet env.macFile) (c.prevNetwork, [])
        ((strings.Split data '\n').drop 2) i.Name ⟨line, hl, hr, hname⟩
      refine ⟨a, ha, hra, hka, ?_⟩
      rw [(Collect_net c env).2, hfile]
      simp only [collectNetwork, netLine_keyed]
      exact hs
  · intro data k hfile hk
    rw [(Collect_cpu c env).2, (collectCPU_store _ _ _ _ _ _).2.2, hfile]
    simp only [hk]

theorem percent_bounds (a b : ℚ) (ha : 0 ≤ a) (hab : a ≤ b) (hb : 0 < b) :
    0 ≤ a / b * 100 ∧ a / b * 100 ≤ 100 := by
  have h1 : 0 ≤ a / b := div_nonneg ha hb.le
  have h2 : a / b ≤ 1 := (div_le_one hb).2 hab
  constructor
  · positivity
  · linarith

/-- Without rounding: for two successive readings of the `cpu ` line in which no counter
decreased, the sum of the later reading fits in 64 bits, and `delta_total > 0`, the
three percentages are present, each between 0 and 100, and
`IowaitPercent + StealPercent ≤ 100`. -/
theorem cpu_percent_bounds_exact (c : Collector) (data1 data2 : Str) (now1 now2 : Int)
    (ci1 la1 ci2 la2 : Option Str) (pf1 pf2 : Str → Option ℚ) (k1 k2 : cpuCounters)
    (h1 : cpuLine data1 = some k1) (h2 : cpuLine data2 = some k2)
    (hle : k1.noneAbove k2) (hsum : k2.sum < 2 ^ 64)
    (hpos : 0 < deltaU64 k2.total k1.total) :
    ∃ u i s,
      (collectCPU (collectCPU c (.ok data1) now1 ci1 la1 pf1).2 (.ok data2) now2 ci2 la2
        pf2).1.UsagePercent = some u ∧
      (collectCPU (collectCPU c (.ok data1) now1 ci1 la1 pf1).2 (.ok data2) now2 ci2 la2
        pf2).1.IowaitPercent = some i ∧
      (collectCPU (collectCPU c (.ok data1) now1 ci1 la1 pf1).2 (.ok data2) now2 ci2 la2
        pf2).1.StealPercent = some s ∧
      0 ≤ u ∧ u ≤ 100 ∧ 0 ≤ i ∧ i ≤ 100 ∧ 0 ≤ s ∧ s ≤ 100 ∧ i + s ≤ 100 := by
  obtain ⟨g1, g2, g3⟩ := collectCPU_second c data1 data2 now1 now2 ci1 la1 ci2 la2 pf1 pf2
    k1 k2 h1 h2
  obtain ⟨l1, l2, l3, l4, l5, l6, l7, l8⟩ := hle
  have hT := subU64_total_of_le k2 k1 hsum l1 l2 l3 l4 l5 l6 l7 l8
  have hs2 : k2.sum < 2 ^ 64 := hsum
  unfold cpuCounters.sum at hs2
  have hI : subU64 k2.idle k1.idle = k2.idle - k1.idle := subU64_of_le _ _ l4 (by omega)
  have hW : subU64 k2.iowait k1.iowait = k2.iowait - k1.iowait := subU64_of_le _ _ l5 (by omega)
  have hS : subU64 k2.steal k1.steal = k2.steal - k1.steal := subU64_of_le _ _ l8 (by omega)
  have hIT : subU64 k2.idle k1.idle ≤ subU64 k2.total k1.total := by rw [hT, hI]; omega
  have hWS : subU64 k2.iowait k1.iowait + subU64 k2.steal k1.steal ≤
      subU64 k2.total k1.total := by rw [hT, hW, hS]; omega
  have qIT : deltaU64 k2.idle k1.idle ≤ deltaU64 k2.total k1.total := by
    unfold deltaU64; exact_mod_cast hIT
  have qWS : deltaU64 k2.iowait k1.iowait + deltaU64 k2.steal k1.steal ≤
      deltaU64 k2.total k1.total := by
    unfold deltaU64; exact_mod_cast hWS
  have qI0 : 0 ≤ deltaU64 k2.idle k1.idle := by unfold deltaU64; positivity
  have qW0 : 0 ≤ deltaU64 k2.iowait k1.iowait := by unfold deltaU64; positivity
  have qS0 : 0 ≤ deltaU64 k2.steal k1.steal := by unfold deltaU64; positivity
  have hr : cpuRates (some (cpuSnap now1 k1)) k2 { Available := false } =
      { Available := true
        UsagePercent := some (((deltaU64 k2.total k1.total - deltaU64 k2.idle k1.idle) /
          deltaU64 k2.total k1.total) * 100)
        IowaitPercent := some ((deltaU64 k2.iowait k1.iowait / deltaU64 k2.total k1.total) * 100)
        StealPercent := some ((deltaU64 k2.steal k1.steal / deltaU64 k2.total k1.total) * 100) } := by
    simp [cpuRates, cpuSnap, hpos]
  rw [g1, g2, g3, hr]
  refine ⟨_, _, _, rfl, rfl, rfl, ?_⟩
  obtain ⟨u0, u1⟩ := percent_bounds (deltaU64 k2.total k1.total - deltaU64 k2.idle k1.idle)
    (deltaU64 k2.total k1.total) (by linarith) (by linarith) hpos
  obtain ⟨i0, i1⟩ := percent_bounds (deltaU64 k2.iowait k1.iowait)
    (deltaU64 k2.total k1.total) qW0 (by linarith) hpos
  obtain ⟨s0, s1⟩ := percent_bounds (deltaU64 k2.steal k1.steal)
    (deltaU64 k2.total k1.total) qS0 (by linarith) hpos
  obtain ⟨_, ws1⟩ := percent_bounds (deltaU64 k2.iowait k1.iowait + deltaU64 k2.steal k1.steal)
    (deltaU64 k2.total k1.total) (by linarith) qWS hpos
  refine ⟨u0, u1, i0, i1, s0, s1, ?_⟩
  have : deltaU64 k2.iowait k1.iowait / deltaU64 k2.total k1.total * 100 +
      deltaU64 k2.steal k1.steal / deltaU64 k2.total k1.total * 100 =
      (deltaU64 k2.iowait k1.iowait + deltaU64 k2.steal k1.steal) /
        deltaU64 k2.total k1.total * 100 := by ring
  rw [this]
  exact ws1

theorem statEntry_failed (fs : Filesystem) : (statEntry fs none).fs = fs := rfl

theorem mountEntries_failed (statfs : Str → Option Statfs_t) (data : Str) (e : mountEntry)
    (he : e ∈ mountEntries statfs data) (hfail : statfs e.fs.MountPoint = none) :
    e.fs.TotalBytes = none ∧ e.fs.UsedBytes = none ∧ e.fs.AvailableBytes = none ∧
      e.fs.UsagePercent = none ∧ e.available = 0 ∧ e.used = 0 := by
  obtain ⟨pre, l, post, _, _, _, rfl⟩ := (mountEntries_mem statfs data e).1 he
  rw [(mountEntryOf_fields statfs l).1] at hfail
  simp only [mountEntryOf, hfail]
  exact ⟨rfl, rfl, rfl, rfl, rfl, rfl⟩

theorem secondPass_keep (apply : Bool) (entries : List mountEntry) (e : mountEntry)
    (h : apply = false ∨ ¬ lit "/mnt/" <+: e.fs.MountPoint) :
    secondPass apply entries e = some e.fs := by
  rcases h with h | h
  · rw [h]; exact secondPass_disabled entries e
  · have hp : strings.HasPrefix e.fs.MountPoint (lit "/mnt/") = false := by
      rw [← Bool.not_eq_true, hasPrefix_iff]
      exact h
    simp [secondPass, hp]

theorem collectFilesystems_kept (c : Collector) (data : Str) (statfs : Str → Option Statfs_t)
    (apply : Bool) (e : mountEntry) (he : e ∈ mountEntries statfs data)
    (h : apply = false ∨ ¬ lit "/mnt/" <+: e.fs.MountPoint) :
    e.fs ∈ (collectFilesystems c (.ok data) statfs apply).1 ∧
    ∀ fs ∈ (collectFilesystems c (.ok data) statfs apply).1,
      fs.MountPoint = e.fs.MountPoint → fs = e.fs := by
  have hnd := mountEntries_nodup statfs data
  constructor
  · simp only [collectFilesystems, List.mem_filterMap]
    exact ⟨e, he, secondPass_keep apply _ e h⟩
  · intro fs hfs hmp
    simp only [collectFilesystems, List.mem_filterMap] at hfs
    obtain ⟨e2, he2, hsp⟩ := hfs
    have hmp2 := secondPass_mountPoint _ _ _ _ hsp
    have heq : e2 = e :=
      List.inj_on_of_nodup_map hnd he2 he (by rw [← hmp2, hmp])
    subst heq
    rw [secondPass_keep apply _ e2 h] at hsp
    cases hsp
    rfl

/-- What the second pass does with a retained mount whose usage query failed: on the
keep-as-is path (correction disabled, or mount point not beginning with `/mnt/`) the
entry is emitted with `TotalBytes`, `UsedBytes`, `AvailableBytes` and `UsagePercent`
absent; on the correction path a top-level `/mnt/<name>` entry gets the three byte
counts present, `AvailableBytes` being 0 and `TotalBytes` equal to `UsedBytes`. -/
theorem failed_statfs_fields (c : Collector) (data : Str) (statfs : Str → Option Statfs_t)
    (e : mountEntry) (he : e ∈ mountEntries statfs data)
    (hfail : statfs e.fs.MountPoint = none) :
    (∀ apply : Bool, (apply = false ∨ ¬ lit "/mnt/" <+: e.fs.MountPoint) →
      (∃ fs ∈ (collectFilesystems c (.ok data) statfs apply).1,
        fs.MountPoint = e.fs.MountPoint) ∧
      ∀ fs ∈ (collectFilesystems c (.ok data) statfs apply).1,
        fs.MountPoint = e.fs.MountPoint →
          fs.TotalBytes = none ∧ fs.UsedBytes = none ∧ fs.AvailableBytes = none ∧
            fs.UsagePercent = none) ∧
    (topLevelMnt e.fs.MountPoint →
      ∀ fs ∈ (collectFilesystems c (.ok data) statfs true).1,
        fs.MountPoint = e.fs.MountPoint →
          fs.AvailableBytes = some 0 ∧
            ∃ used, used < u64 ∧ fs.UsedBytes = some used ∧ fs.TotalBytes = some used) := by
  obtain ⟨f1, f2, f3, f4, f5, f6⟩ := mountEntries_failed statfs data e he hfail
  have hnd := mountEntries_nodup statfs data
  constructor
  · intro apply h
    obtain ⟨k1, k2⟩ := collectFilesystems_kept c data statfs apply e he h
    refine ⟨⟨e.fs, k1, rfl⟩, ?_⟩
    intro fs hfs hmp
    rw [k2 fs hfs hmp]
    exact ⟨f1, f2, f3, f4⟩
  · intro htop fs hfs hmp
    simp only [collectFilesystems, List.mem_filterMap] at hfs
    obtain ⟨e2, he2, hsp⟩ := hfs
    have hmp2 := secondPass_mountPoint _ _ _ _ hsp
    have heq : e2 = e :=
      List.inj_on_of_nodup_map hnd he2 he (by rw [← hmp2, hmp])
    subst heq
    rw [topLevelMnt_secondPass _ e2 htop] at hsp
    cases hsp
    obtain ⟨a1, used, a2, a3⟩ := mntFixed_sizes (mountEntries statfs data) e2
    rw [f5] at a1 a3
    have hused : used < u64 := by
      rw [mntFixed_used, usedSumOf_eq _ e2 he hnd, f6] at a2
      have hm : (0 + childUsedSum (mountEntries statfs data) e2.fs.MountPoint) % u64 < u64 :=
        Nat.mod_lt _ (by unfold u64; norm_num)
      split_ifs at a2 with h0
      · cases a2
        unfold u64; norm_num
      · cases a2
        exact hm
    refine ⟨a1, used, hused, a2, ?_⟩
    rw [a3, Nat.add_zero, Nat.mod_eq_of_lt hused]

/-- With every usage query failing, the mount `/data` is emitted under the correction
with its four fields absent. -/
theorem failed_statfs_keep_example :
    mountEntryOf (fun _ => none) (lit "/dev/sda1 /data ext4 rw 0 0") ∈
      mountEntries (fun _ => none) mountsFailing ∧
    (∃ fs ∈ (collectFilesystems freshCollector (.ok mountsFailing) (fun _ => none) true).1,
      fs.MountPoint = lit "/data") ∧
    (∀ fs ∈ (collectFilesystems freshCollector (.ok mountsFailing) (fun _ => none) true).1,
      fs.MountPoint = lit "/data" →
        fs.TotalBytes = none ∧ fs.UsedBytes = none ∧ fs.AvailableBytes = none ∧
          fs.UsagePercent = none) :=
  have hm : mountEntryOf (fun _ => none) (lit "/dev/sda1 /data ext4 rw 0 0") ∈
      mountEntries (fun _ => none) mountsFailing := by decide
  have h := (failed_statfs_fields freshCollector mountsFailing (fun _ => none)
    (mountEntryOf (fun _ => none) (lit "/dev/sda1 /data ext4 rw 0 0")) hm rfl).1 true
    (Or.inr (by decide))
  ⟨hm, h.1, h.2⟩

/-- C25 (the code diverges from the claim): with the correction enabled and every
usage query failing, the top-level mount `/mnt/pool` is emitted with `TotalBytes`,
`UsedBytes` and `AvailableBytes` present with value zero, while the mount `/data`,
emitted on the keep-as-is path, has them absent. -/
theorem failed_statfs_present_zero :
    (collectFilesystems freshCollector (.ok mountsFailing) (fun _ => none) true).1.map
        (fun fs => (fs.MountPoint, fs.TotalBytes, fs.UsedBytes, fs.AvailableBytes)) =
      [(lit "/mnt/pool", some 0, some 0, some 0), (lit "/data", none, none, none)] ∧
    ¬ (∀ fs ∈ (collectFilesystems freshCollector (.ok mountsFailing) (fun _ => none) true).1,
      fs.TotalBytes = none ∧ fs.UsedBytes = none ∧ fs.AvailableBytes = none ∧
        fs.UsagePercent = none) := by
  have h1 : (collectFilesystems freshCollector (.ok mountsFailing) (fun _ => none) true).1.map
        (fun fs => (fs.MountPoint, fs.TotalBytes, fs.UsedBytes, fs.AvailableBytes)) =
      [(lit "/mnt/pool", some 0, some 0, some 0), (lit "/data", none, none, none)] := by
    decide
  refine ⟨h1, ?_⟩
  intro hall
  have hmem : (lit "/mnt/pool", some 0, some 0, some 0) ∈
      (collectFilesystems freshCollector (.ok mountsFailing) (fun _ => none) true).1.map
        (fun fs => (fs.MountPoint, fs.TotalBytes, fs.UsedBytes, fs.AvailableBytes)) := by
    rw [h1]; simp
  obtain ⟨fs, hfs, heq⟩ := List.mem_map.1 hmem
  have ht := (hall fs hfs).1
  simp only [Prod.mk.injEq] at heq
  rw [ht] at heq
  exact absurd heq.2.1 (by simp)

theorem filterMap_mountPoints_sublist (f : mountEntry → Option Filesystem)
    (hf : ∀ e fs, f e = some fs → fs.MountPoint = e.fs.MountPoint) (l : List mountEntry) :
    ((l.filterMap f).map Filesystem.MountPoint).Sublist (l.map (fun e => e.fs.MountPoint)) := by
  induction l with
  | nil => exact List.Sublist.slnil
  | cons x xs ih =>
    rw [List.filterMap_cons]
    cases hx : f x with
    | none => exact List.Sublist.cons _ ih
    | some fs =>
      simp only [List.map_cons]
      rw [hf x fs hx]
      exact List.Sublist.cons₂ _ ih

theorem foldl_mountLine_sublist (statfs : Str → Option Statfs_t) (ls : List Str) :
    ((ls.foldl (mountLine statfs) (fun _ => false, [])).2.map
      (fun e => e.fs.MountPoint)).Sublist
      ((ls.filter (fun l => decide (mountRetained l))).map
        (fun l => idx (strings.Fields l) 1)) := by
  induction ls using List.reverseRecOn with
  | nil => exact List.Sublist.slnil
  | append_singleton ls a ih =>
    rw [List.foldl_append, List.foldl_cons, List.foldl_nil, mountLine_eq, List.filter_append,
      List.map_append]
    split_ifs with hc
    · have hr : decide (mountRetained a) = true := by simpa using hc.1
      simp only [List.map_append, List.map_cons, List.map_nil, List.filter_cons, hr, if_true,
        List.filter_nil, (mountEntryOf_fields statfs a).1]
      exact List.Sublist.append ih (List.Sublist.refl _)
    · exact ih.trans (List.sublist_append_left _ _)

/-- C26: when the correction is disabled the reported filesystems are the first-pass
entries, unchanged and in their order; when it is enabled, every retained mount whose
mount point does not begin with `/mnt/` is reported with its first-pass entry
unchanged (device, type, total, used, available and usage percent); and in both cases
the reported mount points follow the order of their records in the input. -/
theorem mntfix_frame (c : Collector) (data : Str) (statfs : Str → Option Statfs_t) :
    ((collectFilesystems c (.ok data) statfs false).1 =
      (mountEntries statfs data).map (fun e => e.fs)) ∧
    (∀ e ∈ mountEntries statfs data, ¬ lit "/mnt/" <+: e.fs.MountPoint →
      e.fs ∈ (collectFilesystems c (.ok data) statfs true).1 ∧
      ∀ fs ∈ (collectFilesystems c (.ok data) statfs true).1,
        fs.MountPoint = e.fs.MountPoint → fs = e.fs) ∧
    (∀ apply : Bool,
      ((collectFilesystems c (.ok data) statfs apply).1.map Filesystem.MountPoint).Sublist
        (((scanLines data).filter (fun l => decide (mountRetained l))).map
          (fun l => idx (strings.Fields l) 1)) ∧
      ((collectFilesystems c (.ok data) statfs apply).1.map Filesystem.MountPoint).Nodup) ∧
    (collectFilesystems freshCollector (.ok mountsRepeated) mntFixStatfs true).1 =
      (collectFilesystems freshCollector (.ok mountsRepeated) mntFixStatfs false).1 ∧
    (collectFilesystems freshCollector (.ok mountsRepeated) mntFixStatfs true).1.map
      Filesystem.MountPoint = [lit "/", lit "/data"] := by
  have hsub : ∀ apply : Bool,
      ((collectFilesystems c (.ok data) statfs apply).1.map Filesystem.MountPoint).Sublist
        ((mountEntries statfs data).map (fun e => e.fs.MountPoint)) := by
    intro apply
    simp only [collectFilesystems]
    exact filterMap_mountPoints_sublist _
      (fun e fs h => secondPass_mountPoint apply _ e fs h) _
  refine ⟨collectFilesystems_disabled c data statfs, ?_, ?_, by decide, by decide⟩
  · intro e he hp
    exact collectFilesystems_kept c data statfs true e he (Or.inr hp)
  · intro apply
    exact ⟨(hsub apply).trans (foldl_mountLine_sublist statfs (scanLines data)),
      (mountEntries_nodup statfs data).sublist (hsub apply)⟩

/-- C2 as stated fails: the name nvme0, on a line with 14 fields, begins with `nvme`,
ends in a digit and has no namespace token, so the rule of the specification
excludes it; yet it is emitted, next to nvme0n1, because the test for the letter
`n` is met by the beginning `nvme` itself. -/
theorem nvme_controller_counterexample :
    14 ≤ (strings.Fields (lit " 259       0 nvme0 1 2 3 4 5 6 7 8 9 10 11")).length ∧
    lit " 259       0 nvme0 1 2 3 4 5 6 7 8 9 10 11" ∈ strings.Split diskTextController '\n' ∧
    idx (strings.Fields (lit " 259       0 nvme0 1 2 3 4 5 6 7 8 9 10 11")) 2 = lit "nvme0" ∧
    (collectDiskDevices freshCollector (.ok diskTextController) 0).1.map DiskDevice.Name =
      [lit "nvme0", lit "nvme0n1"] ∧
    ¬ namespacedDiskName (lit "nvme0") ∧
    ¬ (lit "nvme0" ∈
        (collectDiskDevices freshCollector (.ok diskTextController) 0).1.map DiskDevice.Name ↔
      namespacedDiskName (lit "nvme0")) := by
  have hn : (collectDiskDevices freshCollector (.ok diskTextController) 0).1.map
      DiskDevice.Name = [lit "nvme0", lit "nvme0n1"] :=
    (collectDiskDevices_names freshCollector diskTextController 0).trans (by decide)
  refine ⟨by decide, by decide, by decide, hn, by decide, ?_⟩
  rw [hn]
  decide

/-- C23: after a pass, every retained line of the `diskstats` and `net/dev` texts of the
pass has its device or interface in the document, and for every disk device and
every network interface of the document the snapshot store holds, under that name,
the clock reading of the pass and the counters of a retained line of this pass with
that name (disk: the sectors read and written times 512 in 64-bit arithmetic and the
two operation counts; network: the receive and transmit byte counts); whenever the
`cpu ` line was parsed the CPU snapshot is the clock reading of the pass with the
total, idle, iowait and steal of that line. Each snapshot is built anew from the
reading, with no field of the previous one: after a first pass at clock 0, a pass at
clock 7 over grown counters leaves exactly the readings of the second pass for sda,
eth0 and the CPU. -/
theorem snapshots_replaced (c : Collector) (env : Env) :
    (∀ data, env.diskstats = .ok data → ∀ line ∈ strings.Split data '\n', diskRetained line →
      ∃ d ∈ (Collect c env).1.devices, d.Name = idx (strings.Fields line) 2) ∧
    (∀ data, env.netdev = .ok data → ∀ line ∈ (strings.Split data '\n').drop 2,
      netRetained line →
      ∃ i ∈ (Collect c env).1.interfaces,
        i.Name = strings.TrimSpace (idx (strings.Split line ':') 0)) ∧
    (∀ d ∈ (Collect c env).1.devices,
      ∃ data, env.diskstats = .ok data ∧
        ∃ line ∈ strings.Split data '\n', diskRetained line ∧
          idx (strings.Fields line) 2 = d.Name ∧
          (Collect c env).2.prevDisk d.Name = some
            { timestamp := env.nowDisk
              readBytes := (strconv.ParseUint (idx (strings.Fields line) 5)).1 * 512 % u64
              writeBytes := (strconv.ParseUint (idx (strings.Fields line) 9)).1 * 512 % u64
              readOps := (strconv.ParseUint (idx (strings.Fields line) 3)).1
              writeOps := (strconv.ParseUint (idx (strings.Fields line) 7)).1 }) ∧
    (∀ i ∈ (Collect c env).1.interfaces,
      ∃ data, env.netdev = .ok data ∧
        ∃ line ∈ (strings.Split data '\n').drop 2, netRetained line ∧
          strings.TrimSpace (idx (strings.Split line ':') 0) = i.Name ∧
          (Collect c env).2.prevNetwork i.Name = some
            { timestamp := env.nowNet
              rxBytes :=
                (strconv.ParseUint (idx (strings.Fields (idx (strings.Split line ':') 1)) 0)).1
              txBytes :=
                (strconv.ParseUint
                  (idx (strings.Fields (idx (strings.Split line ':') 1)) 8)).1 }) ∧
    (∀ (data : Str) (k : cpuCounters), env.stat = .ok data → cpuLine data = some k →
      (Collect c env).2.prevCPU = some
        { timestamp := env.nowCPU, total := k.total, idle := k.idle, iowait := k.iowait,
          steal := k.steal }) ∧
    ((Collect freshCollector (steadyEnv 0)).2.prevDisk (lit "sda") = some
        { timestamp := 0, readBytes := 1024000, writeBytes := 512000, readOps := 100,
          writeOps := 50 } ∧
      (Collect freshCollector (steadyEnv 0)).2.prevNetwork (lit "eth0") = some
        { timestamp := 0, rxBytes := 1000, txBytes := 2000 } ∧
      (Collect freshCollector (steadyEnv 0)).2.prevCPU = some
        { timestamp := 0, total := 975, idle := 800, iowait := 20, steal := 0 }) ∧
    ((Collect (Collect freshCollector (steadyEnv 0)).2 (grownEnv 7)).1.devices.map
        DiskDevice.Name = [lit "sda"] ∧
      (Collect (Collect freshCollector (steadyEnv 0)).2 (grownEnv 7)).2.prevDisk (lit "sda") =
        some { timestamp := 7, readBytes := 2048000, writeBytes := 1536000, readOps := 150,
               writeOps := 80 }) ∧
    ((Collect (Collect freshCollector (steadyEnv 0)).2 (grownEnv 7)).1.interfaces.map
        NetworkInterface.Name = [lit "eth0"] ∧
      (Collect (Collect freshCollector (steadyEnv 0)).2 (grownEnv 7)).2.prevNetwork
        (lit "eth0") = some { timestamp := 7, rxBytes := 5000, txBytes := 2500 }) ∧
    (Collect (Collect freshCollector (steadyEnv 0)).2 (grownEnv 7)).2.prevCPU = some
      { timestamp := 7, total := 1244, idle := 1000, iowait := 25, steal := 1 } := by
  obtain ⟨g1, g2, g3⟩ := store_after_pass c env
  have hd0 : (Collect freshCollector (steadyEnv 0)).2.prevDisk =
      (collectDiskDevices freshCollector (steadyEnv 0).diskstats
        (steadyEnv 0).nowDisk).2.prevDisk := (Collect_disk _ _).2
  have hn0 : (Collect freshCollector (steadyEnv 0)).2.prevNetwork =
      (collectNetwork freshCollector (steadyEnv 0).netdev (steadyEnv 0).nowNet
        (steadyEnv 0).macFile).2.prevNetwork := (Collect_net _ _).2
  refine ⟨?_, ?_, g1, g2, g3, ⟨?_, ?_, ?_⟩, ⟨?_, ?_⟩, ⟨?_, ?_⟩, ?_⟩
  · intro data hfile line hl hr
    have hm : idx (strings.Fields line) 2 ∈ (Collect c env).1.devices.map DiskDevice.Name := by
      rw [Collect_device_names c env data hfile]
      simp only [diskNames, List.mem_map, List.mem_filter, decide_eq_true_eq]
      exact ⟨line, ⟨hl, hr⟩, rfl⟩
    obtain ⟨d, hd, hname⟩ := List.mem_map.1 hm
    exact ⟨d, hd, hname⟩
  · intro data hfile line hl hr
    have hm : strings.TrimSpace (idx (strings.Split line ':') 0) ∈
        (Collect c env).1.interfaces.map NetworkInterface.Name := by
      rw [Collect_interface_names c env data hfile]
      simp only [netNames, List.mem_map, List.mem_filter, decide_eq_true_eq]
      exact ⟨line, ⟨hl, hr⟩, rfl⟩
    obtain ⟨i, hi, hname⟩ := List.mem_map.1 hm
    exact ⟨i, hi, hname⟩
  · rw [hd0]; decide
  · rw [hn0]; decide
  · rw [(Collect_cpu _ _).2, (collectCPU_store _ _ _ _ _ _).2.2]
    decide
  · rw [Collect_device_names _ _ diskTextGrown rfl]
    decide
  · rw [(Collect_disk _ _).2]
    simp only [collectDiskDevices, hd0]
    decide
  · rw [Collect_interface_names _ _ netTextGrown rfl]
    decide
  · rw [(Collect_net _ _).2]
    simp only [collectNetwork, hn0]
    decide
  · rw [(Collect_cpu _ _).2, (collectCPU_store _ _ _ _ _ _).2.2]
    decide

theorem roundHalfEven_ge (t : ℚ) : ⌊t⌋ ≤ roundHalfEven t := by
  unfold roundHalfEven
  split_ifs <;> omega

theorem roundHalfEven_le (t : ℚ) : roundHalfEven t ≤ ⌊t⌋ + 1 := by
  unfold roundHalfEven
  split_ifs <;> omega

theorem roundHalfEven_near (t : ℚ) (m : Int) (h : |t - m| < 1 / 2) : roundHalfEven t = m := by
  rw [abs_lt] at h
  obtain ⟨h1, h2⟩ := h
  by_cases hm : (m : ℚ) ≤ t
  · have hf : ⌊t⌋ = m := Int.floor_eq_iff.2 ⟨hm, by linarith⟩
    unfold roundHalfEven
    rw [hf, if_pos (by linarith)]
  · have hf : ⌊t⌋ = m - 1 := Int.floor_eq_iff.2 ⟨by push_cast; linarith, by push_cast; linarith⟩
    unfold roundHalfEven
    rw [hf]
    have h3 : ¬ (t - ((m - 1 : Int) : ℚ) < 1 / 2) := by push_cast; linarith
    have h4 : t - ((m - 1 : Int) : ℚ) > 1 / 2 := by push_cast; linarith
    rw [if_neg h3, if_pos h4]
    omega

theorem roundHalfEven_int (m : Int) : roundHalfEven (m : ℚ) = m :=
  roundHalfEven_near _ m (by simp)

theorem roundHalfEven_mono (s t : ℚ) (h : s ≤ t) : roundHalfEven s ≤ roundHalfEven t := by
  have hf : ⌊s⌋ ≤ ⌊t⌋ := Int.floor_mono h
  rcases lt_or_eq_of_le hf with hlt | heq
  · have := roundHalfEven_le s
    have := roundHalfEven_ge t
    omega
  · unfold roundHalfEven
    rw [heq]
    split_ifs <;> first | omega | (exfalso; linarith)

theorem zpow_scale (e : Int) : (2 : ℚ) ^ (52 : Int) * (2 : ℚ) ^ (e - 52) = (2 : ℚ) ^ e := by
  rw [← zpow_add₀ (by norm_num : (2 : ℚ) ≠ 0)]
  congr 1
  omega

theorem zpow_scale_succ (e : Int) :
    (2 : ℚ) ^ (53 : Int) * (2 : ℚ) ^ (e - 52) = (2 : ℚ) ^ (e + 1) := by
  rw [← zpow_add₀ (by norm_num : (2 : ℚ) ≠ 0)]
  congr 1
  omega

theorem ulp_pos (e : Int) : 0 < (2 : ℚ) ^ (e - 52) := zpow_pos (by norm_num) _

/-- The scaled value of a positive rational lies in the binade of 53-bit integers. -/
theorem scaled_bounds (q : ℚ) (hq : 0 < q) :
    (2 : ℚ) ^ (52 : Int) ≤ q / (2 : ℚ) ^ (Int.log 2 q - 52) ∧
    q / (2 : ℚ) ^ (Int.log 2 q - 52) < (2 : ℚ) ^ (53 : Int) := by
  have hu := ulp_pos (Int.log 2 q)
  have h1 : (2 : ℚ) ^ Int.log 2 q ≤ q := by
    have := Int.zpow_log_le_self (b := 2) (by norm_num) hq
    simpa using this
  have h2 : q < (2 : ℚ) ^ (Int.log 2 q + 1) := by
    have := Int.lt_zpow_succ_log_self (b := 2) (by norm_num) q
    simpa using this
  constructor
  · rw [le_div_iff₀ hu, zpow_scale]
    exact h1
  · rw [div_lt_iff₀ hu, zpow_scale_succ]
    exact h2

theorem roundF64_zero : roundF64 0 = 0 := by
  simp [roundF64]

theorem roundF64_pos_eq (q : ℚ) (hq : 0 < q) :
    roundF64 q =
      (roundHalfEven (q / (2 : ℚ) ^ (Int.log 2 q - 52)) : ℚ) * (2 : ℚ) ^ (Int.log 2 q - 52) := by
  unfold roundF64
  rw [if_neg (ne_of_gt hq), abs_of_pos hq, if_neg (not_lt.2 hq.le)]
  simp only [one_mul]

theorem roundF64_lower (q : ℚ) (hq : 0 < q) : (2 : ℚ) ^ Int.log 2 q ≤ roundF64 q := by
  rw [roundF64_pos_eq q hq, ← zpow_scale (Int.log 2 q)]
  apply mul_le_mul_of_nonneg_right _ (ulp_pos _).le
  have h := (scaled_bounds q hq).1
  have hf : ((2 : Int) ^ (52 : Nat) : Int) ≤ ⌊q / (2 : ℚ) ^ (Int.log 2 q - 52)⌋ := by
    apply Int.le_floor.2
    have : (((2 : Int) ^ (52 : Nat) : Int) : ℚ) = (2 : ℚ) ^ (52 : Int) := by norm_num
    rw [this]
    exact h
  have hr := roundHalfEven_ge (q / (2 : ℚ) ^ (Int.log 2 q - 52))
  have : ((2 : Int) ^ (52 : Nat) : Int) ≤ roundHalfEven (q / (2 : ℚ) ^ (Int.log 2 q - 52)) :=
    le_trans hf hr
  have hc : (((2 : Int) ^ (52 : Nat) : Int) : ℚ) ≤
      (roundHalfEven (q / (2 : ℚ) ^ (Int.log 2 q - 52)) : ℚ) := by exact_mod_cast this
  have e2 : (((2 : Int) ^ (52 : Nat) : Int) : ℚ) = (2 : ℚ) ^ (52 : Int) := by norm_num
  rw [e2] at hc
  exact hc

theorem roundF64_upper (q : ℚ) (hq : 0 < q) : roundF64 q ≤ (2 : ℚ) ^ (Int.log 2 q + 1) := by
  rw [roundF64_pos_eq q hq, ← zpow_scale_succ (Int.log 2 q)]
  apply mul_le_mul_of_nonneg_right _ (ulp_pos _).le
  have h := (scaled_bounds q hq).2
  have hf : ⌊q / (2 : ℚ) ^ (Int.log 2 q - 52)⌋ < ((2 : Int) ^ (53 : Nat) : Int) := by
    apply Int.floor_lt.2
    have : (((2 : Int) ^ (53 : Nat) : Int) : ℚ) = (2 : ℚ) ^ (53 : Int) := by norm_num
    rw [this]
    exact h
  have hr := roundHalfEven_le (q / (2 : ℚ) ^ (Int.log 2 q - 52))
  have : roundHalfEven (q / (2 : ℚ) ^ (Int.log 2 q - 52)) ≤ ((2 : Int) ^ (53 : Nat) : Int) := by
    omega
  have hc : (roundHalfEven (q / (2 : ℚ) ^ (Int.log 2 q - 52)) : ℚ) ≤
      (((2 : Int) ^ (53 : Nat) : Int) : ℚ) := by exact_mod_cast this
  have e2 : (((2 : Int) ^ (53 : Nat) : Int) : ℚ) = (2 : ℚ) ^ (53 : Int) := by norm_num
  rw [e2] at hc
  exact hc

theorem roundF64_pos (q : ℚ) (hq : 0 < q) : 0 < roundF64 q :=
  lt_of_lt_of_le (zpow_pos (by norm_num) _) (roundF64_lower q hq)

theorem roundF64_nonneg (q : ℚ) (hq : 0 ≤ q) : 0 ≤ roundF64 q := by
  rcases eq_or_lt_of_le hq with h | h
  · rw [← h, roundF64_zero]
  · exact (roundF64_pos q h).le

/-- Rounding to `float64` is monotone on the non-negative rationals. -/
theorem roundF64_mono (x y : ℚ) (hx : 0 ≤ x) (hxy : x ≤ y) : roundF64 x ≤ roundF64 y := by
  rcases eq_or_lt_of_le hx with h0 | hpos
  · rw [← h0, roundF64_zero]
    exact roundF64_nonneg y (le_trans hx hxy)
  · have hy : 0 < y := lt_of_lt_of_le hpos hxy
    have hlog : Int.log 2 x ≤ Int.log 2 y := Int.log_mono_right hpos hxy
    rcases lt_or_eq_of_le hlog with hlt | heq
    · refine le_trans (roundF64_upper x hpos) (le_trans ?_ (roundF64_lower y hy))
      exact zpow_le_zpow_right₀ (by norm_num) (by omega)
    · rw [roundF64_pos_eq x hpos, roundF64_pos_eq y hy, heq]
      apply mul_le_mul_of_nonneg_right _ (ulp_pos _).le
      have : roundHalfEven (x / (2 : ℚ) ^ (Int.log 2 y - 52)) ≤
          roundHalfEven (y / (2 : ℚ) ^ (Int.log 2 y - 52)) :=
        roundHalfEven_mono _ _ (div_le_div_of_nonneg_right hxy (ulp_pos _).le)
      exact_mod_cast this

theorem log_two_eq (q : ℚ) (e : Int) (hq : 0 < q) (h1 : (2 : ℚ) ^ e ≤ q)
    (h2 : q < (2 : ℚ) ^ (e + 1)) : Int.log 2 q = e := by
  have a1 : e ≤ Int.log 2 q := by
    apply (Int.zpow_le_iff_le_log (b := 2) (by norm_num) hq).1
    simpa using h1
  have a2 : Int.log 2 q < e + 1 := by
    apply (Int.lt_zpow_iff_log_lt (b := 2) (by norm_num) hq).1
    simpa using h2
  omega

/-- The value of the rounding at a positive rational of known binade and nearest
53-bit integer. -/
theorem roundF64_eval (q : ℚ) (e m : Int) (hq : 0 < q) (h1 : (2 : ℚ) ^ e ≤ q)
    (h2 : q < (2 : ℚ) ^ (e + 1)) (h3 : |q / (2 : ℚ) ^ (e - 52) - m| < 1 / 2) :
    roundF64 q = (m : ℚ) * (2 : ℚ) ^ (e - 52) := by
  rw [roundF64_pos_eq q hq, log_two_eq q e hq h1 h2, roundHalfEven_near _ m h3]

/-- A 53-bit integer scaled by a power of two is a `float64`: rounding leaves it. -/
theorem roundF64_fixed (m e : Int) (hm1 : (2 : Int) ^ (52 : Nat) ≤ m)
    (hm2 : m < (2 : Int) ^ (53 : Nat)) :
    roundF64 ((m : ℚ) * (2 : ℚ) ^ (e - 52)) = (m : ℚ) * (2 : ℚ) ^ (e - 52) := by
  have hu := ulp_pos e
  have c1 : (2 : ℚ) ^ (52 : Int) ≤ (m : ℚ) := by
    have : (((2 : Int) ^ (52 : Nat) : Int) : ℚ) ≤ (m : ℚ) := by exact_mod_cast hm1
    have e2 : (((2 : Int) ^ (52 : Nat) : Int) : ℚ) = (2 : ℚ) ^ (52 : Int) := by norm_num
    rwa [e2] at this
  have c2 : (m : ℚ) < (2 : ℚ) ^ (53 : Int) := by
    have : (m : ℚ) < (((2 : Int) ^ (53 : Nat) : Int) : ℚ) := by exact_mod_cast hm2
    have e2 : (((2 : Int) ^ (53 : Nat) : Int) : ℚ) = (2 : ℚ) ^ (53 : Int) := by norm_num
    rwa [e2] at this
  have hmpos : (0 : ℚ) < m := lt_of_lt_of_le (zpow_pos (by norm_num) _) c1
  apply roundF64_eval _ e m (mul_pos hmpos hu)
  · rw [← zpow_scale e]
    exact mul_le_mul_of_nonneg_right c1 hu.le
  · rw [← zpow_scale_succ e]
    exact mul_lt_mul_of_pos_right c2 hu
  · rw [mul_div_assoc, div_self (ne_of_gt hu), mul_one, sub_self, abs_zero]
    norm_num

theorem roundHalfEven_scaled (q : ℚ) (hq : 0 < q) :
    (2 : Int) ^ (52 : Nat) ≤ roundHalfEven (q / (2 : ℚ) ^ (Int.log 2 q - 52)) ∧
    roundHalfEven (q / (2 : ℚ) ^ (Int.log 2 q - 52)) ≤ (2 : Int) ^ (53 : Nat) := by
  obtain ⟨h1, h2⟩ := scaled_bounds q hq
  constructor
  · have hf : ((2 : Int) ^ (52 : Nat) : Int) ≤ ⌊q / (2 : ℚ) ^ (Int.log 2 q - 52)⌋ := by
      apply Int.le_floor.2
      have : (((2 : Int) ^ (52 : Nat) : Int) : ℚ) = (2 : ℚ) ^ (52 : Int) := by norm_num
      rw [this]
      exact h1
    exact le_trans hf (roundHalfEven_ge _)
  · have hf : ⌊q / (2 : ℚ) ^ (Int.log 2 q - 52)⌋ < ((2 : Int) ^ (53 : Nat) : Int) := by
      apply Int.floor_lt.2
      have : (((2 : Int) ^ (53 : Nat) : Int) : ℚ) = (2 : ℚ) ^ (53 : Int) := by norm_num
      rw [this]
      exact h2
    have hr := roundHalfEven_le (q / (2 : ℚ) ^ (Int.log 2 q - 52))
    omega

/-- Rounding twice is rounding once. -/
theorem roundF64_idem (q : ℚ) (hq : 0 ≤ q) : roundF64 (roundF64 q) = roundF64 q := by
  rcases eq_or_lt_of_le hq with h0 | hpos
  · rw [← h0, roundF64_zero, roundF64_zero]
  · obtain ⟨b1, b2⟩ := roundHalfEven_scaled q hpos
    rw [roundF64_pos_eq q hpos]
    rcases lt_or_eq_of_le b2 with hlt | heq
    · exact roundF64_fixed _ _ b1 hlt
    · rw [heq]
      have e1 : ((((2 : Int) ^ (53 : Nat) : Int) : ℚ)) * (2 : ℚ) ^ (Int.log 2 q - 52) =
          ((((2 : Int) ^ (52 : Nat) : Int) : ℚ)) * (2 : ℚ) ^ ((Int.log 2 q + 1) - 52) := by
        have a : ((((2 : Int) ^ (53 : Nat) : Int) : ℚ)) = (2 : ℚ) ^ (53 : Int) := by norm_num
        have b : ((((2 : Int) ^ (52 : Nat) : Int) : ℚ)) = (2 : ℚ) ^ (52 : Int) := by norm_num
        rw [a, b, zpow_scale_succ, zpow_scale]
      rw [e1]
      exact roundF64_fixed _ _ (le_refl _) (by norm_num)

theorem roundF64_one : roundF64 1 = 1 := by
  have h := roundF64_fixed ((2 : Int) ^ (52 : Nat)) 0 (le_refl _) (by norm_num)
  have e : ((((2 : Int) ^ (52 : Nat) : Int) : ℚ)) * (2 : ℚ) ^ ((0 : Int) - 52) = 1 := by
    norm_num
  rwa [e] at h

theorem roundF64_hundred : roundF64 100 = 100 := by
  have h := roundF64_fixed 7036874417766400 6 (by norm_num) (by norm_num)
  have e : (((7036874417766400 : Int) : ℚ)) * (2 : ℚ) ^ ((6 : Int) - 52) = 100 := by
    norm_num
  rwa [e] at h

theorem roundF64_le_of_le (q c : ℚ) (hq : 0 ≤ q) (hqc : q ≤ c) (hc : roundF64 c = c) :
    roundF64 q ≤ c := by
  have := roundF64_mono q c hq hqc
  rwa [hc] at this

/-- A quotient in the unit interval, rounded, scaled by 100 and rounded again, is a
percentage between 0 and 100. -/
theorem percentF64_bounds (a b : ℚ) (ha : 0 ≤ a) (hab : a ≤ b) (hb : 0 < b) :
    0 ≤ roundF64 (roundF64 (a / b) * 100) ∧ roundF64 (roundF64 (a / b) * 100) ≤ 100 := by
  have h0 : 0 ≤ a / b := div_nonneg ha hb.le
  have h1 : a / b ≤ 1 := (div_le_one hb).2 hab
  have r0 : 0 ≤ roundF64 (a / b) := roundF64_nonneg _ h0
  have r1 : roundF64 (a / b) ≤ 1 := roundF64_le_of_le _ 1 h0 h1 roundF64_one
  have s0 : 0 ≤ roundF64 (a / b) * 100 := by positivity
  have s1 : roundF64 (a / b) * 100 ≤ 100 := by linarith
  exact ⟨roundF64_nonneg _ s0, roundF64_le_of_le _ 100 s0 s1 roundF64_hundred⟩

theorem roundF64_natCast_mono (a b : Nat) (h : a ≤ b) :
    roundF64 (a : ℚ) ≤ roundF64 (b : ℚ) :=
  roundF64_mono _ _ (Nat.cast_nonneg a) (by exact_mod_cast h)

/-- In `float64` arithmetic too, non-decreasing counters with a positive total delta give
three percentages between 0 and 100. -/
theorem cpuRatesF64_bounds (k1 k2 : cpuCounters) (now : Int) (hle : k1.noneAbove k2)
    (hsum : k2.sum < 2 ^ 64) (hpos : 0 < subU64 k2.total k1.total) :
    ∃ u i s,
      cpuRatesF64 (some (cpuSnap now k1)) k2 { Available := false } =
        { Available := true, UsagePercent := some u, IowaitPercent := some i,
          StealPercent := some s } ∧
      0 ≤ u ∧ u ≤ 100 ∧ 0 ≤ i ∧ i ≤ 100 ∧ 0 ≤ s ∧ s ≤ 100 := by
  obtain ⟨l1, l2, l3, l4, l5, l6, l7, l8⟩ := hle
  have hT := subU64_total_of_le k2 k1 hsum l1 l2 l3 l4 l5 l6 l7 l8
  have hs2 : k2.sum < 2 ^ 64 := hsum
  unfold cpuCounters.sum at hs2
  have hI : subU64 k2.idle k1.idle = k2.idle - k1.idle := subU64_of_le _ _ l4 (by omega)
  have hW : subU64 k2.iowait k1.iowait = k2.iowait - k1.iowait := subU64_of_le _ _ l5 (by omega)
  have hS : subU64 k2.steal k1.steal = k2.steal - k1.steal := subU64_of_le _ _ l8 (by omega)
  have hIT : subU64 k2.idle k1.idle ≤ subU64 k2.total k1.total := by rw [hT, hI]; omega
  have hWT : subU64 k2.iowait k1.iowait ≤ subU64 k2.total k1.total := by rw [hT, hW]; omega
  have hST : subU64 k2.steal k1.steal ≤ subU64 k2.total k1.total := by rw [hT, hS]; omega
  have qT : 0 < roundF64 ((subU64 k2.total k1.total : Nat) : ℚ) :=
    roundF64_pos _ (by exact_mod_cast hpos)
  have qI := roundF64_natCast_mono _ _ hIT
  have qW := roundF64_natCast_mono _ _ hWT
  have qS := roundF64_natCast_mono _ _ hST
  have nI : 0 ≤ roundF64 ((subU64 k2.idle k1.idle : Nat) : ℚ) :=
    roundF64_nonneg _ (Nat.cast_nonneg _)
  have nW : 0 ≤ roundF64 ((subU64 k2.iowait k1.iowait : Nat) : ℚ) :=
    roundF64_nonneg _ (Nat.cast_nonneg _)
  have nS : 0 ≤ roundF64 ((subU64 k2.steal k1.steal : Nat) : ℚ) :=
    roundF64_nonneg _ (Nat.cast_nonneg _)
  have fT : roundF64 (roundF64 ((subU64 k2.total k1.total : Nat) : ℚ)) =
      roundF64 ((subU64 k2.total k1.total : Nat) : ℚ) := roundF64_idem _ (Nat.cast_nonneg _)
  have d0 : 0 ≤ roundF64 ((subU64 k2.total k1.total : Nat) : ℚ) -
      roundF64 ((subU64 k2.idle k1.idle : Nat) : ℚ) := by linarith
  have dD : roundF64 (roundF64 ((subU64 k2.total k1.total : Nat) : ℚ) -
      roundF64 ((subU64 k2.idle k1.idle : Nat) : ℚ)) ≤
      roundF64 ((subU64 k2.total k1.total : Nat) : ℚ) :=
    roundF64_le_of_le _ _ d0 (by linarith) fT
  have hr : cpuRatesF64 (some (cpuSnap now k1)) k2 { Available := false } =
      { Available := true
        UsagePercent := some (roundF64 (roundF64 (roundF64
          (roundF64 ((subU64 k2.total k1.total : Nat) : ℚ) -
            roundF64 ((subU64 k2.idle k1.idle : Nat) : ℚ)) /
          roundF64 ((subU64 k2.total k1.total : Nat) : ℚ)) * 100))
        IowaitPercent := some (roundF64 (roundF64
          (roundF64 ((subU64 k2.iowait k1.iowait : Nat) : ℚ) /
            roundF64 ((subU64 k2.total k1.total : Nat) : ℚ)) * 100))
        StealPercent := some (roundF64 (roundF64
          (roundF64 ((subU64 k2.steal k1.steal : Nat) : ℚ) /
            roundF64 ((subU64 k2.total k1.total : Nat) : ℚ)) * 100)) } := by
    simp only [cpuRatesF64, cpuSnap, gt_iff_lt, qT, if_true]
  rw [hr]
  obtain ⟨u0, u1⟩ := percentF64_bounds _ _ (roundF64_nonneg _ d0) dD qT
  obtain ⟨i0, i1⟩ := percentF64_bounds _ _ nW qW qT
  obtain ⟨s0, s1⟩ := percentF64_bounds _ _ nS qS qT
  exact ⟨_, _, _, rfl, u0, u1, i0, i1, s0, s1⟩

theorem roundF64_small_nat (n : Nat) (e m : Int) (h1 : (2 : ℚ) ^ e ≤ (n : ℚ))
    (h2 : (n : ℚ) < (2 : ℚ) ^ (e + 1)) (hm : (n : ℚ) = (m : ℚ) * (2 : ℚ) ^ (e - 52))
    (hn : 0 < n) : roundF64 (n : ℚ) = (n : ℚ) := by
  have hq : (0 : ℚ) < n := by exact_mod_cast hn
  have h := roundF64_eval (n : ℚ) e m hq h1 h2 (by
    rw [hm, mul_div_assoc, div_self (ne_of_gt (ulp_pos e)), mul_one, sub_self, abs_zero]
    norm_num)
  rw [h, ← hm]

/-- C24 as stated fails: from the reading with all counters zero to the reading with
iowait 2 and steal 9 (no counter decreased, `delta_total = 11 > 0`), the `float64`
values reported are `IowaitPercent = 18.181818181818183` and
`StealPercent = 81.81818181818183`, whose sum exceeds 100. -/
theorem cpu_percent_sum_counterexample :
    cpuLine cpuTextZero = some
      { user := 0, nice := 0, system := 0, idle := 0, iowait := 0, irq := 0, softirq := 0,
        steal := 0 } ∧
    cpuLine cpuTextEleven = some
      { user := 0, nice := 0, system := 0, idle := 0, iowait := 2, irq := 0, softirq := 0,
        steal := 9 } ∧
    cpuCounters.noneAbove
      { user := 0, nice := 0, system := 0, idle := 0, iowait := 0, irq := 0, softirq := 0,
        steal := 0 }
      { user := 0, nice := 0, system := 0, idle := 0, iowait := 2, irq := 0, softirq := 0,
        steal := 9 } ∧
    (collectCPU freshCollector (.ok cpuTextZero) 0 none none (fun _ => none)).2.prevCPU =
      some { timestamp := 0, total := 0, idle := 0, iowait := 0, steal := 0 } ∧
    (cpuRatesF64 (some { timestamp := 0, total := 0, idle := 0, iowait := 0, steal := 0 })
        { user := 0, nice := 0, system := 0, idle := 0, iowait := 2, irq := 0, softirq := 0,
          steal := 9 } { Available := false }).IowaitPercent =
      some (5117726849284655 / 281474976710656) ∧
    (cpuRatesF64 (some { timestamp := 0, total := 0, idle := 0, iowait := 0, steal := 0 })
        { user := 0, nice := 0, system := 0, idle := 0, iowait := 2, irq := 0, softirq := 0,
          steal := 9 } { Available := false }).StealPercent =
      some (5757442705445237 / 70368744177664) ∧
    (5117726849284655 / 281474976710656 + 5757442705445237 / 70368744177664 : ℚ) > 100 := by
  have t11 : subU64 (cpuCounters.total
      { user := 0, nice := 0, system := 0, idle := 0, iowait := 2, irq := 0, softirq := 0,
        steal := 9 }) 0 = 11 := by decide
  have t2 : subU64 2 0 = 2 := by decide
  have t9 : subU64 9 0 = 9 := by decide
  have t0 : subU64 0 0 = 0 := by decide
  have r11 : roundF64 ((11 : Nat) : ℚ) = 11 := by
    have := roundF64_small_nat 11 3 6192449487634432 (by norm_num) (by norm_num) (by norm_num)
      (by norm_num)
    simpa using this
  have r2 : roundF64 ((2 : Nat) : ℚ) = 2 := by
    have := roundF64_small_nat 2 1 4503599627370496 (by norm_num) (by norm_num) (by norm_num)
      (by norm_num)
    simpa using this
  have r9 : roundF64 ((9 : Nat) : ℚ) = 9 := by
    have := roundF64_small_nat 9 3 5066549580791808 (by norm_num) (by norm_num) (by norm_num)
      (by norm_num)
    simpa using this
  have q2 : roundF64 (2 / 11 : ℚ) = 6550690367084358 / 36028797018963968 := by
    have := roundF64_eval (2 / 11) (-3) 6550690367084358 (by norm_num) (by norm_num)
      (by norm_num) (by rw [abs_lt]; constructor <;> norm_num)
    rw [this]; norm_num
  have q9 : roundF64 (9 / 11 : ℚ) = 7369526662969903 / 9007199254740992 := by
    have := roundF64_eval (9 / 11) (-1) 7369526662969903 (by norm_num) (by norm_num)
      (by norm_num) (by rw [abs_lt]; constructor <;> norm_num)
    rw [this]; norm_num
  have p2 : roundF64 (6550690367084358 / 36028797018963968 * 100 : ℚ) =
      5117726849284655 / 281474976710656 := by
    have := roundF64_eval (6550690367084358 / 36028797018963968 * 100) 4 5117726849284655
      (by norm_num) (by norm_num) (by norm_num) (by rw [abs_lt]; constructor <;> norm_num)
    rw [this]; norm_num
  have p9 : roundF64 (7369526662969903 / 9007199254740992 * 100 : ℚ) =
      5757442705445237 / 70368744177664 := by
    have := roundF64_eval (7369526662969903 / 9007199254740992 * 100) 6 5757442705445237
      (by norm_num) (by norm_num) (by norm_num) (by rw [abs_lt]; constructor <;> norm_num)
    rw [this]; norm_num
  refine ⟨by decide, by decide, by decide, by decide, ?_, ?_, by norm_num⟩
  · simp only [cpuRatesF64, t11, t2, r11, r2]
    rw [if_pos (by norm_num)]
    simp only [q2, p2]
  · simp only [cpuRatesF64, t11, t9, r11, r9]
    rw [if_pos (by norm_num)]
    simp only [q9, p9]

/-- C24 (amended): for two successive readings of the `cpu ` line in which no counter
decreased, the sum of the later reading fits in 64 bits, and `delta_total > 0`, the
`UsagePercent`, `IowaitPercent` and `StealPercent` computed in `float64` arithmetic
against the snapshot stored by the first pass are present and each lies in the
closed interval from 0 to 100; for the percentages computed without rounding the
same holds and moreover `IowaitPercent + StealPercent ≤ 100`. -/
theorem cpu_percent_bounds (c : Collector) (data1 data2 : Str) (now1 now2 : Int)
    (ci1 la1 ci2 la2 : Option Str) (pf1 pf2 : Str → Option ℚ) (k1 k2 : cpuCounters)
    (h1 : cpuLine data1 = some k1) (h2 : cpuLine data2 = some k2)
    (hle : k1.noneAbove k2) (hsum : k2.sum < 2 ^ 64)
    (hpos : 0 < deltaU64 k2.total k1.total) :
    (∃ u i s,
      cpuRatesF64 (collectCPU c (.ok data1) now1 ci1 la1 pf1).2.prevCPU k2
          { Available := false } =
        { Available := true, UsagePercent := some u, IowaitPercent := some i,
          StealPercent := some s } ∧
      0 ≤ u ∧ u ≤ 100 ∧ 0 ≤ i ∧ i ≤ 100 ∧ 0 ≤ s ∧ s ≤ 100) ∧
    (∃ u i s,
      (collectCPU (collectCPU c (.ok data1) now1 ci1 la1 pf1).2 (.ok data2) now2 ci2 la2
        pf2).1.UsagePercent = some u ∧
      (collectCPU (collectCPU c (.ok data1) now1 ci1 la1 pf1).2 (.ok data2) now2 ci2 la2
        pf2).1.IowaitPercent = some i ∧
      (collectCPU (collectCPU c (.ok data1) now1 ci1 la1 pf1).2 (.ok data2) now2 ci2 la2
        pf2).1.StealPercent = some s ∧
      0 ≤ u ∧ u ≤ 100 ∧ 0 ≤ i ∧ i ≤ 100 ∧ 0 ≤ s ∧ s ≤ 100 ∧ i + s ≤ 100) := by
  constructor
  · have hst : (collectCPU c (.ok data1) now1 ci1 la1 pf1).2.prevCPU =
        some (cpuSnap now1 k1) := by
      rw [(collectCPU_store c (.ok data1) now1 ci1 la1 pf1).2.2]
      simp only [h1]
      rfl
    rw [hst]
    have hp : 0 < subU64 k2.total k1.total := by
      unfold deltaU64 at hpos
      exact_mod_cast hpos
    exact cpuRatesF64_bounds k1 k2 now1 hle hsum hp
  · exact cpu_percent_bounds_exact c data1 data2 now1 now2 ci1 la1 ci2 la2 pf1 pf2 k1 k2 h1 h2
      hle hsum hpos

/-- C24 at concrete inputs: from the reading of `cpuTextA` to that of `cpuTextGrown`
the three percentages are present and between 0 and 100, with and without
rounding. -/
theorem cpu_percent_bounds_witness :
    (∃ u i s,
      cpuRatesF64
          (collectCPU freshCollector (.ok cpuTextA) 0 none none (fun _ => none)).2.prevCPU
          { user := 150, nice := 1, system := 60, idle := 1000, iowait := 25, irq := 1,
            softirq := 6, steal := 1 }
          { Available := false } =
        { Available := true, UsagePercent := some u, IowaitPercent := some i,
          StealPercent := some s } ∧
      0 ≤ u ∧ u ≤ 100 ∧ 0 ≤ i ∧ i ≤ 100 ∧ 0 ≤ s ∧ s ≤ 100) ∧
    (∃ u i s,
      (collectCPU (collectCPU freshCollector (.ok cpuTextA) 0 none none (fun _ => none)).2
        (.ok cpuTextGrown) 1000000000 none none (fun _ => none)).1.UsagePercent = some u ∧
      (collectCPU (collectCPU freshCollector (.ok cpuTextA) 0 none none (fun _ => none)).2
        (.ok cpuTextGrown) 1000000000 none none (fun _ => none)).1.IowaitPercent = some i ∧
      (collectCPU (collectCPU freshCollector (.ok cpuTextA) 0 none none (fun _ => none)).2
        (.ok cpuTextGrown) 1000000000 none none (fun _ => none)).1.StealPercent = some s ∧
      0 ≤ u ∧ u ≤ 100 ∧ 0 ≤ i ∧ i ≤ 100 ∧ 0 ≤ s ∧ s ≤ 100 ∧ i + s ≤ 100) :=
  cpu_percent_bounds freshCollector cpuTextA cpuTextGrown 0 1000000000 none none none none
    (fun _ => none) (fun _ => none)
    { user := 100, nice := 0, system := 50, idle := 800, iowait := 20, irq := 0,
      softirq := 5, steal := 0 }
    { user := 150, nice := 1, system := 60, idle := 1000, iowait := 25, irq := 1,
      softirq := 6, steal := 1 }
    (by decide) (by decide) (by decide) (by decide)
    (by
      have : subU64 (cpuCounters.total
          { user := 150, nice := 1, system := 60, idle := 1000, iowait := 25, irq := 1,
            softirq := 6, steal := 1 })
          (cpuCounters.total
          { user := 100, nice := 0, system := 50, idle := 800, iowait := 20, irq := 0,
            softirq := 5, steal := 0 }) = 269 := by decide
      simp only [deltaU64, this]
      norm_num)

end Stats
